import Mathlib

/-!
# Cone mesh generator (`cone.h`)

A shallow embedding of `class Cone` from `cone.h`.

* `float` values are read as the numbers they denote, elements of a field `F` (infinities
  and NaN are outside the model).  `Cone.new` takes the float operations to be those of the
  field, without rounding, with `cosf` and `sinf` as parameters; `Cone.newWith` is the same
  code with every float operation taken from a record `FloatOps`, about which nothing is
  assumed, so what is proved of it holds of the rounded operations of the machine.  A
  statement that needs exact arithmetic says so.
* `std::vector` is `List`; `push_back` is `++ [x]`.
* `int` is `Int` with the range `INT_MIN .. INT_MAX`; `unsigned int` is `Nat` reduced
  modulo `2 ^ 32`; `size_t` is `Nat` (the sizes here stay far below `2 ^ 64`).
* An execution that has no defined result (signed overflow of a loop counter, a read past
  the end of a vector) is `none`.
* The OpenGL calls of the constructor and `drawCone` do not touch the mesh and are left out.
-/

/-- The vector type `glm::vec3`. -/
structure Vec3 (F : Type) where
  x : F
  y : F
  z : F
deriving DecidableEq, Repr

/-- Largest value of a C++ `int`. -/
def INT_MAX : Int := 2147483647

/-- Number of values of a C++ `unsigned int`. -/
def UINT_RANGE : Nat := 4294967296

/-- The conversion of an `int` to `unsigned int`: reduction modulo `2 ^ 32`. -/
def toUnsigned (z : Int) : Nat := (z % (UINT_RANGE : Int)).toNat

/-- The narrowing of a `size_t` to `int`: two's complement wrap into `INT_MIN .. INT_MAX`. -/
def toInt (s : Nat) : Int := ((s : Int) + 2147483648) % (UINT_RANGE : Int) - 2147483648

/-- The value of `sizeof(float)`. -/
def sizeofFloat : Nat := 4

/-- The value of `sizeof(unsigned int)`. -/
def sizeofUnsigned : Nat := 4

/-- The constant of `#define PI 3.1416`. -/
def PI {F : Type} [Field F] : F := 3.1416

/-- The data members of `class Cone` (the OpenGL handle `coneVAO` apart). -/
structure Cone (F : Type) where
  ambient : Vec3 F
  diffuse : Vec3 F
  specular : Vec3 F
  shininess : F
  radius : F
  height : F
  sectorCount : Int
  vertices : List F
  normals : List F
  indices : List Nat
  coordinates : List F
  verticesStride : Int
deriving DecidableEq, Repr

namespace Cone

variable {F : Type} [Field F]

/-- The object as the constructor body finds it: the four vectors are empty and
`verticesStride` has its default member initialiser `24`; the scalar members are not
yet initialised (they read `0` here) and `set` overwrites every one of them. -/
def fresh : Cone F :=
  { ambient := ⟨0, 0, 0⟩, diffuse := ⟨0, 0, 0⟩, specular := ⟨0, 0, 0⟩, shininess := 0,
    radius := 0, height := 0, sectorCount := 0,
    vertices := [], normals := [], indices := [], coordinates := [],
    verticesStride := 24 }

/-- The method `Cone::set`. -/
def set (c : Cone F) (radius height : F) (sectorCount : Int) (amb diff spec : Vec3 F)
    (shiny : F) : Cone F :=
  { c with
    radius := radius
    height := height
    sectorCount := if sectorCount > 3 then sectorCount else 3
    ambient := amb
    diffuse := diff
    specular := spec
    shininess := shiny }

/-- One pass of the "Bottom circle" loop body, for loop counter `i`, in exact arithmetic:
the conversion of `i` and the three products do not round (`ringStepWith` is the same pass
with rounded operations). -/
def ringStep (cosf sinf : F → F) (radius sectorStep : F) (st : List F × List F) (i : Nat) :
    List F × List F :=
  let sectorAngle : F := (i : F) * sectorStep
  let x := radius * cosf sectorAngle
  let z := radius * sinf sectorAngle
  (st.1 ++ [x] ++ [0] ++ [z], st.2 ++ [0] ++ [-1] ++ [0])

/-- One pass of the "Indices for bottom circle" loop body, for loop counter `i = k + 1`. -/
def baseStep (ix : List Nat) (k : Nat) : List Nat :=
  let i : Int := (k : Int) + 1
  ix ++ [toUnsigned 0] ++ [toUnsigned i] ++ [toUnsigned (i + 1)]

/-- One pass of the "Indices for cone sides" loop body, for loop counter `i = k + 1`. -/
def sideStep (apexIndex : Int) (ix : List Nat) (k : Nat) : List Nat :=
  let i : Int := (k : Int) + 1
  ix ++ [toUnsigned i] ++ [toUnsigned (i + 1)] ++ [toUnsigned apexIndex]

/-- The method `Cone::buildCoordinatesAndIndices`.  The loops `for (int i = ..; i <=
sectorCount; ++i)` leave only once `i` has reached `sectorCount + 1`; for
`sectorCount = INT_MAX` that increment is a signed overflow and the run has no result. -/
def buildCoordinatesAndIndices (cosf sinf : F → F) (c : Cone F) : Option (Cone F) :=
  if INT_MAX ≤ c.sectorCount then none
  else
    let sectorStep : F := 2 * PI / (c.sectorCount : F)
    -- Bottom center
    let coordinates := c.coordinates ++ [0] ++ [0] ++ [0]
    let normals := c.normals ++ [0] ++ [-1] ++ [0]
    -- Bottom circle: i = 0 .. sectorCount
    let ring := (List.range (c.sectorCount + 1).toNat).foldl
      (ringStep cosf sinf c.radius sectorStep) (coordinates, normals)
    -- Top (apex) of the cone
    let coordinates := ring.1 ++ [0] ++ [c.height] ++ [0]
    let normals := ring.2 ++ [0] ++ [1] ++ [0]
    -- Indices for bottom circle: i = 1 .. sectorCount
    let indices := (List.range c.sectorCount.toNat).foldl baseStep c.indices
    -- Indices for cone sides: i = 1 .. sectorCount
    let apexIndex : Int := toInt (coordinates.length / 3 - 1)
    let indices := (List.range c.sectorCount.toNat).foldl (sideStep apexIndex) indices
    some { c with coordinates := coordinates, normals := normals, indices := indices }

/-- One pass of the loop body of `Cone::buildVertices`, at `i = 3 * k`; a read past the
end of `coordinates` or `normals` has no result. -/
def vertexStep (c : Cone F) (vs : List F) (k : Nat) : Option (List F) := do
  let i := 3 * k
  let p0 ← c.coordinates[i]?
  let p1 ← c.coordinates[i + 1]?
  let p2 ← c.coordinates[i + 2]?
  let n0 ← c.normals[i]?
  let n1 ← c.normals[i + 1]?
  let n2 ← c.normals[i + 2]?
  pure (vs ++ [p0] ++ [p1] ++ [p2] ++ [n0] ++ [n1] ++ [n2])

/-- The method `Cone::buildVertices`: the loop `for (size_t i = 0; i < count; i += 3)` runs
for `i = 0, 3, 6, ..`, that is `⌈count / 3⌉` times. -/
def buildVertices (c : Cone F) : Option (Cone F) :=
  let count := c.coordinates.length
  ((List.range ((count + 2) / 3)).foldlM (vertexStep c) c.vertices).map
    fun vs => { c with vertices := vs }

/-- The constructor `Cone::Cone` (called `new` here, since `Cone` names the structure):
`set`, then `buildCoordinatesAndIndices`, then `buildVertices`, on the fresh object. -/
def new (cosf sinf : F → F) (radius height : F) (sectorCount : Int)
    (amb diff spec : Vec3 F) (shiny : F) : Option (Cone F) :=
  (buildCoordinatesAndIndices cosf sinf
    (set fresh radius height sectorCount amb diff spec shiny)).bind buildVertices

/-- The method `Cone::getVertexCount`: `(unsigned int)coordinates.size() / 3`. -/
def getVertexCount (c : Cone F) : Nat := (c.coordinates.length % UINT_RANGE) / 3

/-- The method `Cone::getVertexSize`: `(unsigned int)vertices.size() * sizeof(float)`,
returned as `unsigned int`. -/
def getVertexSize (c : Cone F) : Nat :=
  ((c.vertices.length % UINT_RANGE) * sizeofFloat) % UINT_RANGE

/-- The method `Cone::getVertices`. -/
def getVertices (c : Cone F) : List F := c.vertices

/-- The method `Cone::getIndexSize`: `(unsigned int)indices.size() * sizeof(unsigned int)`,
returned as `unsigned int`. -/
def getIndexSize (c : Cone F) : Nat :=
  ((c.indices.length % UINT_RANGE) * sizeofUnsigned) % UINT_RANGE

/-- The method `Cone::getIndices`. -/
def getIndices (c : Cone F) : List Nat := c.indices

/-- The method `Cone::getIndexCount`: `(unsigned int)indices.size()`. -/
def getIndexCount (c : Cone F) : Nat := c.indices.length % UINT_RANGE

end Cone

/-! ## Closed forms of the loops -/

/-- Concatenation of the blocks `g 0, g 1, .., g (m - 1)`: what a loop that appends `g i`
in pass `i` has appended after `m` passes. -/
def blocks {α : Type} (g : Nat → List α) : Nat → List α
  | 0 => []
  | m + 1 => blocks g m ++ g m

/-- Position block of ring vertex `i`. -/
def ringPos {F : Type} [Field F] (cosf sinf : F → F) (radius sectorStep : F) (i : Nat) :
    List F :=
  [radius * cosf ((i : F) * sectorStep), 0, radius * sinf ((i : F) * sectorStep)]

/-- Normal block of every base vertex. -/
def downNormal {F : Type} [Field F] (_ : Nat) : List F := [0, -1, 0]

/-- Index block of base triangle `k`. -/
def baseTri (k : Nat) : List Nat := [0, k + 1, k + 2]

/-- Index block of side triangle `k` for apex index `a`. -/
def sideTri (a : Nat) (k : Nat) : List Nat := [k + 1, k + 2, a]

/-- Interleaved block of vertex `k`: three position floats, then three normal floats. -/
def vertexBlock {F : Type} [Field F] (cs ns : List F) (k : Nat) : List F :=
  [cs.getD (3 * k) 0, cs.getD (3 * k + 1) 0, cs.getD (3 * k + 2) 0,
   ns.getD (3 * k) 0, ns.getD (3 * k + 1) 0, ns.getD (3 * k + 2) 0]

/-- The sector count that `Cone::set` stores, as a natural number. -/
def clamped (sectorCount : Int) : Nat := (if sectorCount > 3 then sectorCount else 3).toNat

/-- The position list of a cone with `n` sectors. -/
def conePositions {F : Type} [Field F] (cosf sinf : F → F) (radius height : F) (n : Nat) :
    List F :=
  [0, 0, 0] ++ blocks (ringPos cosf sinf radius (2 * PI / ((n : Int) : F))) (n + 1)
    ++ [0, height, 0]

/-- The normal list of a cone with `n` sectors. -/
def coneNormals {F : Type} [Field F] (n : Nat) : List F :=
  [0, -1, 0] ++ blocks (downNormal (F := F)) (n + 1) ++ [0, 1, 0]

/-- The index list of a cone with `n` sectors. -/
def coneIndices (n : Nat) : List Nat := blocks baseTri n ++ blocks (sideTri (n + 2)) n

/-- Position block of vertex `k` of a cone with `n` sectors: base center, ring, apex. -/
def posBlock {F : Type} [Field F] (cosf sinf : F → F) (radius height step : F) (n k : Nat) :
    List F :=
  if k = 0 then [0, 0, 0]
  else if k ≤ n + 1 then ringPos cosf sinf radius step (k - 1)
  else [0, height, 0]

/-- Normal block of vertex `k` of a cone with `n` sectors. -/
def normBlock {F : Type} [Field F] (n k : Nat) : List F :=
  if k ≤ n + 1 then [0, -1, 0] else [0, 1, 0]

/-! ## Reading a mesh -/

/-- The `k`-th vertex attribute of a flat float list with three floats per vertex. -/
def tripleAt {F : Type} (l : List F) (k : Nat) : Option (Vec3 F) := do
  let x ← l[3 * k]?
  let y ← l[3 * k + 1]?
  let z ← l[3 * k + 2]?
  pure ⟨x, y, z⟩

/-- Difference of two vectors. -/
def Vec3.sub {F : Type} [Field F] (a b : Vec3 F) : Vec3 F := ⟨a.x - b.x, a.y - b.y, a.z - b.z⟩

/-- Cross product of two vectors. -/
def Vec3.cross {F : Type} [Field F] (a b : Vec3 F) : Vec3 F :=
  ⟨a.y * b.z - a.z * b.y, a.z * b.x - a.x * b.z, a.x * b.y - a.y * b.x⟩

/-- Dot product of two vectors. -/
def Vec3.dot {F : Type} [Field F] (a b : Vec3 F) : F := a.x * b.x + a.y * b.y + a.z * b.z

/-- The corner positions `(v0, v1, v2)` of triangle `t` of the index list. -/
def Cone.triangle {F : Type} (c : Cone F) (t : Nat) : Option (Vec3 F × Vec3 F × Vec3 F) := do
  let i0 ← c.indices[3 * t]?
  let i1 ← c.indices[3 * t + 1]?
  let i2 ← c.indices[3 * t + 2]?
  let v0 ← tripleAt c.coordinates i0
  let v1 ← tripleAt c.coordinates i1
  let v2 ← tripleAt c.coordinates i2
  pure (v0, v1, v2)

/-- The face normal `(v1 - v0) × (v2 - v0)` of a triangle given by its corners. -/
def faceNormal {F : Type} [Field F] (t : Vec3 F × Vec3 F × Vec3 F) : Vec3 F :=
  Vec3.cross (Vec3.sub t.2.1 t.1) (Vec3.sub t.2.2 t.1)

/-- The position `(radius·cosf(i·step), 0, radius·sinf(i·step))` of ring vertex `i`. -/
def ringVertex {F : Type} [Field F] (cosf sinf : F → F) (radius step : F) (i : Nat) : Vec3 F :=
  ⟨radius * cosf ((i : F) * step), 0, radius * sinf ((i : F) * step)⟩

/-- The horizontal vector from the cone's axis (the `y` axis) to the centroid of a triangle
given by its corners. -/
def centroidRadial {F : Type} [Field F] (t : Vec3 F × Vec3 F × Vec3 F) : Vec3 F :=
  ⟨(t.1.x + t.2.1.x + t.2.2.x) / 3, 0, (t.1.z + t.2.1.z + t.2.2.z) / 3⟩

/-- The normal stored for vertex `k`, read from the normal list. -/
def Cone.normalAt {F : Type} (c : Cone F) (k : Nat) : Option (Vec3 F) := tripleAt c.normals k

/-- The position stored for vertex `k`, read from the position list. -/
def Cone.positionAt {F : Type} (c : Cone F) (k : Nat) : Option (Vec3 F) :=
  tripleAt c.coordinates k

/-! ## Spot light (`spotLight.h`) -/

/-- The product `float * glm::vec3`: every component is scaled. -/
def Vec3.scale {F : Type} [Field F] (s : F) (v : Vec3 F) : Vec3 F := ⟨s * v.x, s * v.y, s * v.z⟩

/-- A value handed to a uniform setter. -/
inductive Uniform (F : Type) where
  | vec3 (v : Vec3 F)
  | float (x : F)
deriving DecidableEq, Repr

/-- Modelled from the spec: the class `Shader` of `shader.h`, which is not among the
sources.  The spec treats it as opaque uniform setters, so a shader is the record of the
uploads made through it, in call order; `use` selects the program and uploads nothing. -/
structure Shader (F : Type) where
  uniforms : List (String × Uniform F)
deriving DecidableEq, Repr

/-- Modelled from the spec: `Shader::use`. -/
def Shader.use {F : Type} (sh : Shader F) : Shader F := sh

/-- Modelled from the spec: `Shader::setVec3 (name, value)`. -/
def Shader.setVec3 {F : Type} (sh : Shader F) (name : String) (v : Vec3 F) : Shader F :=
  { sh with uniforms := sh.uniforms ++ [(name, Uniform.vec3 v)] }

/-- Modelled from the spec: `Shader::setFloat (name, value)`. -/
def Shader.setFloat {F : Type} (sh : Shader F) (name : String) (x : F) : Shader F :=
  { sh with uniforms := sh.uniforms ++ [(name, Uniform.float x)] }

/-- The value last uploaded under `name`, if any. -/
def Shader.uniform? {F : Type} (sh : Shader F) (name : String) : Option (Uniform F) :=
  (sh.uniforms.reverse.find? (fun p => p.1 == name)).map Prod.snd

/-- The data members of `class SpotLight`, the private multipliers included. -/
structure SpotLight (F : Type) where
  position : Vec3 F
  ambient : Vec3 F
  diffuse : Vec3 F
  specular : Vec3 F
  direction : Vec3 F
  cos_theta : F
  k_c : F
  k_l : F
  k_q : F
  ambientOn : F
  diffuseOn : F
  specularOn : F
deriving DecidableEq, Repr

namespace SpotLight

variable {F : Type} [Field F]

/-- The constructor `SpotLight::SpotLight` (called `new` here); the three multipliers take
their default member initialiser `1.0`. -/
def new (posX posY posZ ambR ambG ambB diffR diffG diffB specR specG specB
    dirx diry dirz c_theta constant linear quadratic : F) : SpotLight F :=
  { position := ⟨posX, posY, posZ⟩
    ambient := ⟨ambR, ambG, ambB⟩
    diffuse := ⟨diffR, diffG, diffB⟩
    specular := ⟨specR, specG, specB⟩
    direction := ⟨dirx, diry, dirz⟩
    cos_theta := c_theta
    k_c := constant
    k_l := linear
    k_q := quadratic
    ambientOn := 1
    diffuseOn := 1
    specularOn := 1 }

/-- The method `SpotLight::setUpSpotLight`. -/
def setUpSpotLight (l : SpotLight F) (lightingShader : Shader F) : Shader F :=
  let sh := lightingShader.use
  let sh := sh.setVec3 "spotLight.position" l.position
  let sh := sh.setVec3 "spotLight.ambient" (Vec3.scale l.ambientOn l.ambient)
  let sh := sh.setVec3 "spotLight.diffuse" (Vec3.scale l.diffuseOn l.diffuse)
  let sh := sh.setVec3 "spotLight.specular" (Vec3.scale l.specularOn l.specular)
  let sh := sh.setVec3 "spotLight.direction" l.direction
  let sh := sh.setFloat "spotLight.cos_theta" l.cos_theta
  let sh := sh.setFloat "spotLight.k_c" l.k_c
  let sh := sh.setFloat "spotLight.k_l" l.k_l
  sh.setFloat "spotLight.k_q" l.k_q

/-- The method `SpotLight::turnOff`. -/
def turnOff (l : SpotLight F) : SpotLight F :=
  { l with ambientOn := 0, diffuseOn := 0, specularOn := 0 }

/-- The method `SpotLight::turnOn`. -/
def turnOn (l : SpotLight F) : SpotLight F :=
  { l with ambientOn := 1, diffuseOn := 1, specularOn := 1 }

/-- The method `SpotLight::turnAmbientOn`. -/
def turnAmbientOn (l : SpotLight F) : SpotLight F := { l with ambientOn := 1 }

/-- The method `SpotLight::turnAmbientOff`. -/
def turnAmbientOff (l : SpotLight F) : SpotLight F := { l with ambientOn := 0 }

/-- The method `SpotLight::turnDiffuseOn`. -/
def turnDiffuseOn (l : SpotLight F) : SpotLight F := { l with diffuseOn := 1 }

/-- The method `SpotLight::turnDiffuseOff`. -/
def turnDiffuseOff (l : SpotLight F) : SpotLight F := { l with diffuseOn := 0 }

/-- The method `SpotLight::turnSpecularOn`. -/
def turnSpecularOn (l : SpotLight F) : SpotLight F := { l with specularOn := 1 }

/-- The method `SpotLight::turnSpecularOff`. -/
def turnSpecularOff (l : SpotLight F) : SpotLight F := { l with specularOn := 0 }

end SpotLight

/-! ## The cube of `main.cpp` -/

/-- The array `cube_vertices` of `main`: 24 vertices of six floats, position then normal,
four vertices per face (front, back, left, right, top, bottom). -/
def cube_vertices {F : Type} [Field F] : List F :=
  [ -- Front face
    0, 0, 0.5,      0, 0, 1,
    0.5, 0, 0.5,    0, 0, 1,
    0.5, 0.5, 0.5,  0, 0, 1,
    0, 0.5, 0.5,    0, 0, 1,
    -- Back face
    0, 0, 0,        0, 0, -1,
    0.5, 0, 0,      0, 0, -1,
    0.5, 0.5, 0,    0, 0, -1,
    0, 0.5, 0,      0, 0, -1,
    -- Left face
    0, 0, 0,        -1, 0, 0,
    0, 0, 0.5,      -1, 0, 0,
    0, 0.5, 0.5,    -1, 0, 0,
    0, 0.5, 0,      -1, 0, 0,
    -- Right face
    0.5, 0, 0,      1, 0, 0,
    0.5, 0, 0.5,    1, 0, 0,
    0.5, 0.5, 0.5,  1, 0, 0,
    0.5, 0.5, 0,    1, 0, 0,
    -- Top face
    0, 0.5, 0,      0, 1, 0,
    0.5, 0.5, 0,    0, 1, 0,
    0.5, 0.5, 0.5,  0, 1, 0,
    0, 0.5, 0.5,    0, 1, 0,
    -- Bottom face
    0, 0, 0,        0, -1, 0,
    0.5, 0, 0,      0, -1, 0,
    0.5, 0, 0.5,    0, -1, 0,
    0, 0, 0.5,      0, -1, 0 ]

/-- The array `cube_indices` of `main`. -/
def cube_indices : List Nat :=
  [ 0, 3, 2,
    2, 1, 0,

    4, 5, 7,
    7, 6, 4,

    8, 9, 10,
    10, 11, 8,

    12, 13, 14,
    14, 15, 12,

    16, 17, 18,
    18, 19, 16,

    20, 21, 22,
    22, 23, 20 ]

/-- The element count that `drawCube` passes to `glDrawElements`. -/
def drawCubeCount : Nat := 36

/-- The stride, in floats, of the attribute pointers set up for `cube_vertices`
(`6 * sizeof(float)` bytes). -/
def cubeStride : Nat := 6

/-- The position of cube vertex `i`: floats `6i .. 6i+2` (attribute 0, offset 0). -/
def cubePosition {F : Type} [Field F] (i : Nat) : Option (Vec3 F) := do
  let x ← (cube_vertices (F := F))[cubeStride * i]?
  let y ← (cube_vertices (F := F))[cubeStride * i + 1]?
  let z ← (cube_vertices (F := F))[cubeStride * i + 2]?
  pure ⟨x, y, z⟩

/-- The normal of cube vertex `i`: floats `6i+3 .. 6i+5` (attribute 1, offset 12 bytes). -/
def cubeNormal {F : Type} [Field F] (i : Nat) : Option (Vec3 F) := do
  let x ← (cube_vertices (F := F))[cubeStride * i + 3]?
  let y ← (cube_vertices (F := F))[cubeStride * i + 4]?
  let z ← (cube_vertices (F := F))[cubeStride * i + 5]?
  pure ⟨x, y, z⟩

/-- The three indices of triangle `t` of `cube_indices`. -/
def cubeTriangleIndices (t : Nat) : Option (Nat × Nat × Nat) := do
  let a ← cube_indices[3 * t]?
  let b ← cube_indices[3 * t + 1]?
  let c ← cube_indices[3 * t + 2]?
  pure (a, b, c)

/-- The corner positions `(v0, v1, v2)` of triangle `t` of the cube. -/
def cubeTriangle {F : Type} [Field F] (t : Nat) : Option (Vec3 F × Vec3 F × Vec3 F) := do
  let ix ← cubeTriangleIndices t
  let v0 ← cubePosition ix.1
  let v1 ← cubePosition ix.2.1
  let v2 ← cubePosition ix.2.2
  pure (v0, v1, v2)

/-- The dot product of the face normal `(v1 - v0) × (v2 - v0)` of cube triangle `t` with the
normal stored for its first vertex. -/
def cubeWindingDot {F : Type} [Field F] (t : Nat) : Option F := do
  let ix ← cubeTriangleIndices t
  let tri ← cubeTriangle (F := F) t
  let n ← cubeNormal (F := F) ix.1
  pure (Vec3.dot (faceNormal tri) n)

/-- The indices that two triangles have in common, in the order of the first. -/
def sharedCorners (t1 t2 : Nat × Nat × Nat) : List Nat :=
  [t1.1, t1.2.1, t1.2.2].filter fun i => i = t2.1 ∨ i = t2.2.1 ∨ i = t2.2.2

/-- The indices that the two triangles of cube face `f` (triangles `2f` and `2f+1`) have in
common. -/
def cubeFaceShared (f : Nat) : Option (List Nat) := do
  let t1 ← cubeTriangleIndices (2 * f)
  let t2 ← cubeTriangleIndices (2 * f + 1)
  pure (sharedCorners t1 t2)

/-- Sum of two vectors. -/
def Vec3.add {F : Type} [Field F] (a b : Vec3 F) : Vec3 F := ⟨a.x + b.x, a.y + b.y, a.z + b.z⟩

/-- Twice the centre of cube face `f`: half the sum of its four corners `4f .. 4f+3`. -/
def cubeFaceCentre2 {F : Type} [Field F] (f : Nat) : Option (Vec3 F) := do
  let p0 ← cubePosition (F := F) (4 * f)
  let p1 ← cubePosition (F := F) (4 * f + 1)
  let p2 ← cubePosition (F := F) (4 * f + 2)
  let p3 ← cubePosition (F := F) (4 * f + 3)
  pure (Vec3.scale (1 / 2) (Vec3.add (Vec3.add p0 p1) (Vec3.add p2 p3)))

/-- The sum of the positions of two cube vertices; for the two ends of a diagonal of a
square face this is twice the face centre, for the two ends of an edge it is not. -/
def cubePairSum {F : Type} [Field F] (a b : Nat) : Option (Vec3 F) := do
  let pa ← cubePosition (F := F) a
  let pb ← cubePosition (F := F) b
  pure (Vec3.add pa pb)

/-- The point `p`, taken in the plane of the triangle `t`, lies in the closed triangle: it
is on the inner side of each edge.  The sides are measured against the triangle's own face
normal, so the test does not depend on the winding. -/
def inTriangle {F : Type} [LinearOrderedField F] (t : Vec3 F × Vec3 F × Vec3 F) (p : Vec3 F) :
    Prop :=
  0 ≤ Vec3.dot (Vec3.cross (Vec3.sub t.2.1 t.1) (Vec3.sub p t.1)) (faceNormal t) ∧
  0 ≤ Vec3.dot (Vec3.cross (Vec3.sub t.2.2 t.2.1) (Vec3.sub p t.2.1)) (faceNormal t) ∧
  0 ≤ Vec3.dot (Vec3.cross (Vec3.sub t.1 t.2.2) (Vec3.sub p t.2.2)) (faceNormal t)

/-- The point `p`, taken in the plane of the triangle `t`, lies strictly inside it. -/
def strictlyInTriangle {F : Type} [LinearOrderedField F] (t : Vec3 F × Vec3 F × Vec3 F)
    (p : Vec3 F) : Prop :=
  0 < Vec3.dot (Vec3.cross (Vec3.sub t.2.1 t.1) (Vec3.sub p t.1)) (faceNormal t) ∧
  0 < Vec3.dot (Vec3.cross (Vec3.sub t.2.2 t.2.1) (Vec3.sub p t.2.1)) (faceNormal t) ∧
  0 < Vec3.dot (Vec3.cross (Vec3.sub t.1 t.2.2) (Vec3.sub p t.2.2)) (faceNormal t)

instance {F : Type} [LinearOrderedField F] (t : Vec3 F × Vec3 F × Vec3 F) (p : Vec3 F) :
    Decidable (inTriangle t p) := by
  unfold inTriangle
  infer_instance

instance {F : Type} [LinearOrderedField F] (t : Vec3 F × Vec3 F × Vec3 F) (p : Vec3 F) :
    Decidable (strictlyInTriangle t p) := by
  unfold strictlyInTriangle
  infer_instance

/-! ## The light keys of `processInput` (`main.cpp`) -/

/-- The globals of `main.cpp` that the handlers of keys 4 to 7 read and write.  The point
and directional lights that keys 5 to 7 switch along with the spot light are objects of
classes outside the sources; they do not touch these globals and are left out. -/
structure Globals (F : Type) where
  spotlight : SpotLight F
  ambientToggle : Bool
  diffuseToggle : Bool
  specularToggle : Bool
  spotOn : Bool
deriving DecidableEq, Repr

/-- The keys polled with `glfwGetKey (window, GLFW_KEY_4 .. GLFW_KEY_7) == GLFW_PRESS`
in one call of `processInput`. -/
structure Pressed where
  key4 : Bool
  key5 : Bool
  key6 : Bool
  key7 : Bool
deriving DecidableEq, Repr

namespace Globals

variable {F : Type} [Field F]

/-- The initial values of the globals: the `spotlight` object as constructed in `main.cpp`
(`c_theta` stands for `glm::cos(glm::radians(8.5f))`) and the four flags, all `true`. -/
def initial (c_theta : F) : Globals F :=
  { spotlight := SpotLight.new (-1.5) 2 (-1.0) 0.2 0.2 0.2 0.8 0.8 0.8 0.1 0.1 0.1
      0 (-4) 1.7 c_theta 1.0 0.09 0.032
    ambientToggle := true
    diffuseToggle := true
    specularToggle := true
    spotOn := true }

/-- The body of `if (glfwGetKey(window, GLFW_KEY_4) == GLFW_PRESS)`. -/
def handleKey4 (g : Globals F) : Globals F :=
  if g.spotOn then { g with spotlight := g.spotlight.turnOff, spotOn := false }
  else { g with spotlight := g.spotlight.turnOn, spotOn := true }

/-- The body of `if (glfwGetKey(window, GLFW_KEY_5) == GLFW_PRESS)`. -/
def handleKey5 (g : Globals F) : Globals F :=
  if g.ambientToggle then
    { g with spotlight := g.spotlight.turnAmbientOff, ambientToggle := false }
  else { g with spotlight := g.spotlight.turnAmbientOn, ambientToggle := true }

/-- The body of `if (glfwGetKey(window, GLFW_KEY_6) == GLFW_PRESS)`. -/
def handleKey6 (g : Globals F) : Globals F :=
  if g.diffuseToggle then
    { g with spotlight := g.spotlight.turnDiffuseOff, diffuseToggle := false }
  else { g with spotlight := g.spotlight.turnDiffuseOn, diffuseToggle := true }

/-- The body of `if (glfwGetKey(window, GLFW_KEY_7) == GLFW_PRESS)`. -/
def handleKey7 (g : Globals F) : Globals F :=
  if g.specularToggle then
    { g with spotlight := g.spotlight.turnSpecularOff, specularToggle := false }
  else { g with spotlight := g.spotlight.turnSpecularOn, specularToggle := true }

/-- The part of `processInput` for keys 4 to 7: the four `if` blocks, in source order. -/
def processInput (p : Pressed) (g : Globals F) : Globals F :=
  let g := if p.key4 then handleKey4 g else g
  let g := if p.key5 then handleKey5 g else g
  let g := if p.key6 then handleKey6 g else g
  if p.key7 then handleKey7 g else g

/-- The globals after one call of `processInput` per entry of `frames`. -/
def run (frames : List Pressed) (g : Globals F) : Globals F :=
  frames.foldl (fun g p => processInput p g) g

end Globals

/-- A single-component toggle of the spot light. -/
inductive Toggle where
  | ambientOn | ambientOff | diffuseOn | diffuseOff | specularOn | specularOff
deriving DecidableEq, Repr

/-- The method of `SpotLight` that a single-component toggle stands for. -/
def SpotLight.toggle {F : Type} [Field F] (l : SpotLight F) : Toggle → SpotLight F
  | Toggle.ambientOn => l.turnAmbientOn
  | Toggle.ambientOff => l.turnAmbientOff
  | Toggle.diffuseOn => l.turnDiffuseOn
  | Toggle.diffuseOff => l.turnDiffuseOff
  | Toggle.specularOn => l.turnSpecularOn
  | Toggle.specularOff => l.turnSpecularOff

/-! ## The projection matrix (`customPerspective`, `main.cpp`) -/

/-- The type `glm::vec4`. -/
structure Vec4 (F : Type) where
  x : F
  y : F
  z : F
  w : F
deriving DecidableEq, Repr

/-- The type `glm::mat4`: column-major, `m c r` is the entry `m[c][r]` of column `c`. -/
def Mat4 (F : Type) : Type := Fin 4 → Fin 4 → F

/-- The matrix `glm::mat4 (0.0f)`: every entry `0`. -/
def Mat4.zero {F : Type} [Field F] : Mat4 F := fun _ _ => 0

/-- The assignment `m[c][r] = v`. -/
def Mat4.set {F : Type} (m : Mat4 F) (c r : Fin 4) (v : F) : Mat4 F :=
  fun c' r' => if c' = c ∧ r' = r then v else m c' r'

/-- The product `mat4 * vec4` of glm: component `r` is the sum over the columns `c` of
`m[c][r] * v[c]`. -/
def Mat4.mulVec {F : Type} [Field F] (m : Mat4 F) (v : Vec4 F) : Vec4 F :=
  { x := m 0 0 * v.x + m 1 0 * v.y + m 2 0 * v.z + m 3 0 * v.w
    y := m 0 1 * v.x + m 1 1 * v.y + m 2 1 * v.z + m 3 1 * v.w
    z := m 0 2 * v.x + m 1 2 * v.y + m 2 2 * v.z + m 3 2 * v.w
    w := m 0 3 * v.x + m 1 3 * v.y + m 2 3 * v.z + m 3 3 * v.w }

/-- The function `customPerspective`; `tanf` stands for `tan`. -/
def customPerspective {F : Type} [Field F] (tanf : F → F) (fovRadians aspect near far : F) :
    Mat4 F :=
  let projection : Mat4 F := Mat4.zero
  let tanHalfFov := tanf (fovRadians / 2)
  let projection := projection.set 0 0 (1 / (aspect * tanHalfFov))
  let projection := projection.set 1 1 (1 / tanHalfFov)
  let projection := projection.set 2 2 (-(far + near) / (far - near))
  let projection := projection.set 2 3 (-1)
  let projection := projection.set 3 2 (-(2 * far * near) / (far - near))
  projection

/-- The two lights agree on every member other than the three multipliers. -/
def SpotLight.sameData {F : Type} (a b : SpotLight F) : Prop :=
  a.position = b.position ∧ a.ambient = b.ambient ∧ a.diffuse = b.diffuse ∧
  a.specular = b.specular ∧ a.direction = b.direction ∧ a.cos_theta = b.cos_theta ∧
  a.k_c = b.k_c ∧ a.k_l = b.k_l ∧ a.k_q = b.k_q

/-- The multipliers `(ambientOn, diffuseOn, specularOn)` of a light. -/
def SpotLight.multipliers {F : Type} (l : SpotLight F) : F × F × F :=
  (l.ambientOn, l.diffuseOn, l.specularOn)

/-- Each multiplier of the spot light is 0 or 1, and the light's other members are those
of `l0`. -/
def Globals.lightInv {F : Type} [Field F] (l0 : SpotLight F) (g : Globals F) : Prop :=
  (g.spotlight.ambientOn = 0 ∨ g.spotlight.ambientOn = 1) ∧
  (g.spotlight.diffuseOn = 0 ∨ g.spotlight.diffuseOn = 1) ∧
  (g.spotlight.specularOn = 0 ∨ g.spotlight.specularOn = 1) ∧
  g.spotlight.sameData l0

/-! ## The generator with rounded float operations

`float` values are read as the numbers they denote, elements of the field `F`; the
operations that the generator applies to them round their results, so they are not the
operations of the field.  `FloatOps` names each of them; nothing is assumed about them. -/

/-- The float operations that `Cone::buildCoordinatesAndIndices` uses. -/
structure FloatOps (F : Type) where
  /-- The product `a * b` of two `float`s. -/
  mul : F → F → F
  /-- The conversion of the `int` loop counter to `float`. -/
  ofInt : Int → F
  /-- The value of `2 * PI / sectorCount`, evaluated in `double` and narrowed to `float`. -/
  sectorStep : Int → F
  /-- The library function `cosf`. -/
  cosf : F → F
  /-- The library function `sinf`. -/
  sinf : F → F

/-- The operations without rounding, over any field: the idealisation in which
`Cone.buildCoordinatesAndIndices` above is written. -/
def FloatOps.exact {F : Type} [Field F] (cosf sinf : F → F) : FloatOps F :=
  { mul := fun a b => a * b
    ofInt := fun z => (z : F)
    sectorStep := fun n => 2 * PI / (n : F)
    cosf := cosf
    sinf := sinf }

/-- The conversion of an `int` to `float` (IEEE 754 binary32, round to nearest, ties to
even), as the integer that the resulting `float` denotes.  A magnitude below `2 ^ 24` is
kept; a magnitude with exponent `e ≥ 24` is rounded to a multiple of `2 ^ (e - 23)`. -/
def intToFloat (z : Int) : Int :=
  let a := z.natAbs
  let e := Nat.log2 a
  if e < 24 then z
  else
    let ulp := 2 ^ (e - 23)
    let q := a / ulp
    let r := a % ulp
    let m := if 2 * r < ulp then q else if ulp < 2 * r then q + 1
      else if q % 2 = 0 then q else q + 1
    z.sign * ((m * ulp : Nat) : Int)

/-- Float operations whose `int` to `float` conversion is the IEEE 754 one; the product,
the step, `cosf` and `sinf` are left open. -/
def FloatOps.binary32 {F : Type} [Field F] (mul : F → F → F) (sectorStep : Int → F)
    (cosf sinf : F → F) : FloatOps F :=
  { mul := mul
    ofInt := fun z => ((intToFloat z : Int) : F)
    sectorStep := sectorStep
    cosf := cosf
    sinf := sinf }

namespace Cone

variable {F : Type} [Field F]

/-- One pass of the "Bottom circle" loop body for loop counter `i`, with the float
operations `ops`: `sectorAngle = i * sectorStep`, `x = radius * cosf(sectorAngle)`,
`z = radius * sinf(sectorAngle)`. -/
def ringStepWith (ops : FloatOps F) (radius sectorStep : F) (st : List F × List F) (i : Nat) :
    List F × List F :=
  let sectorAngle : F := ops.mul (ops.ofInt (i : Int)) sectorStep
  let x := ops.mul radius (ops.cosf sectorAngle)
  let z := ops.mul radius (ops.sinf sectorAngle)
  (st.1 ++ [x] ++ [0] ++ [z], st.2 ++ [0] ++ [-1] ++ [0])

/-- The method `Cone::buildCoordinatesAndIndices` with the float operations `ops`; the
integer and vector part is that of `buildCoordinatesAndIndices`. -/
def buildCoordinatesAndIndicesWith (ops : FloatOps F) (c : Cone F) : Option (Cone F) :=
  if INT_MAX ≤ c.sectorCount then none
  else
    let sectorStep : F := ops.sectorStep c.sectorCount
    -- Bottom center
    let coordinates := c.coordinates ++ [0] ++ [0] ++ [0]
    let normals := c.normals ++ [0] ++ [-1] ++ [0]
    -- Bottom circle: i = 0 .. sectorCount
    let ring := (List.range (c.sectorCount + 1).toNat).foldl
      (ringStepWith ops c.radius sectorStep) (coordinates, normals)
    -- Top (apex) of the cone
    let coordinates := ring.1 ++ [0] ++ [c.height] ++ [0]
    let normals := ring.2 ++ [0] ++ [1] ++ [0]
    -- Indices for bottom circle: i = 1 .. sectorCount
    let indices := (List.range c.sectorCount.toNat).foldl baseStep c.indices
    -- Indices for cone sides: i = 1 .. sectorCount
    let apexIndex : Int := toInt (coordinates.length / 3 - 1)
    let indices := (List.range c.sectorCount.toNat).foldl (sideStep apexIndex) indices
    some { c with coordinates := coordinates, normals := normals, indices := indices }

/-- The constructor `Cone::Cone` with the float operations `ops`. -/
def newWith (ops : FloatOps F) (radius height : F) (sectorCount : Int)
    (amb diff spec : Vec3 F) (shiny : F) : Option (Cone F) :=
  (buildCoordinatesAndIndicesWith ops
    (set fresh radius height sectorCount amb diff spec shiny)).bind buildVertices

end Cone

/-- The position of ring vertex `i` with the float operations `ops`. -/
def ringVertexWith {F : Type} [Field F] (ops : FloatOps F) (radius step : F) (i : Nat) :
    Vec3 F :=
  ⟨ops.mul radius (ops.cosf (ops.mul (ops.ofInt (i : Int)) step)), 0,
   ops.mul radius (ops.sinf (ops.mul (ops.ofInt (i : Int)) step))⟩

/-- Position block of ring vertex `i` with the float operations `ops`. -/
def ringPosWith {F : Type} [Field F] (ops : FloatOps F) (radius step : F) (i : Nat) : List F :=
  [ops.mul radius (ops.cosf (ops.mul (ops.ofInt (i : Int)) step)), 0,
   ops.mul radius (ops.sinf (ops.mul (ops.ofInt (i : Int)) step))]

/-- Position block of vertex `k` of a cone with `n` sectors, with the float operations
`ops`: base center, ring, apex. -/
def posBlockWith {F : Type} [Field F] (ops : FloatOps F) (radius height step : F)
    (n k : Nat) : List F :=
  if k = 0 then [0, 0, 0]
  else if k ≤ n + 1 then ringPosWith ops radius step (k - 1)
  else [0, height, 0]

/-- The position list of a cone with `n` sectors, with the float operations `ops`. -/
def conePositionsWith {F : Type} [Field F] (ops : FloatOps F) (radius height : F) (n : Nat) :
    List F :=
  [0, 0, 0] ++ blocks (ringPosWith ops radius (ops.sectorStep (n : Int))) (n + 1)
    ++ [0, height, 0]

theorem blocks_length {α : Type} (g : Nat → List α) (w : Nat)
    (hg : ∀ i, (g i).length = w) (m : Nat) : (blocks g m).length = w * m := by
  induction m with
  | zero => simp [blocks]
  | succ m ih => simp [blocks, ih, hg, Nat.mul_succ]

theorem blocks_getElem? {α : Type} (g : Nat → List α) (w : Nat)
    (hg : ∀ i, (g i).length = w) {m i j : Nat} (hi : i < m) (hj : j < w) :
    (blocks g m)[w * i + j]? = (g i)[j]? := by
  induction m with
  | zero => omega
  | succ m ih =>
    have hlen := blocks_length g w hg m
    rcases Nat.lt_succ_iff_lt_or_eq.mp hi with h | h
    · have hlt : w * i + j < (blocks g m).length := by
        rw [hlen]
        calc w * i + j < w * i + w := by omega
          _ = w * (i + 1) := by ring
          _ ≤ w * m := Nat.mul_le_mul_left w h
      simp only [blocks]
      rw [List.getElem?_append_left hlt]
      exact ih h
    · subst h
      simp only [blocks]
      rw [List.getElem?_append_right (by rw [hlen]; omega)]
      congr 1
      rw [hlen]; omega

theorem blocks_congr {α : Type} (g g' : Nat → List α) (m : Nat)
    (h : ∀ i, i < m → g i = g' i) : blocks g m = blocks g' m := by
  induction m with
  | zero => rfl
  | succ m ih =>
    simp only [blocks]
    rw [ih (fun i hi => h i (by omega)), h m (by omega)]

theorem blocks_mem {α : Type} (g : Nat → List α) (m : Nat) (a : α) :
    a ∈ blocks g m ↔ ∃ i, i < m ∧ a ∈ g i := by
  induction m with
  | zero => simp [blocks]
  | succ m ih =>
    simp only [blocks, List.mem_append, ih]
    constructor
    · rintro (⟨i, hi, ha⟩ | ha)
      · exact ⟨i, by omega, ha⟩
      · exact ⟨m, by omega, ha⟩
    · rintro ⟨i, hi, ha⟩
      rcases Nat.lt_succ_iff_lt_or_eq.mp hi with h | h
      · exact Or.inl ⟨i, h, ha⟩
      · subst h; exact Or.inr ha

theorem foldl_range_blocks {α : Type} (f : List α → Nat → List α) (g : Nat → List α)
    (m : Nat) (hf : ∀ acc i, i < m → f acc i = acc ++ g i) (init : List α) :
    (List.range m).foldl f init = init ++ blocks g m := by
  induction m with
  | zero => simp [blocks]
  | succ m ih =>
    rw [List.range_succ, List.foldl_append, ih (fun acc i hi => hf acc i (by omega))]
    simp [blocks, hf _ m (Nat.lt_succ_self m)]

theorem foldl_range_blocks_pair {α : Type} (f : List α × List α → Nat → List α × List α)
    (g h : Nat → List α) (m : Nat)
    (hf : ∀ st i, f st i = (st.1 ++ g i, st.2 ++ h i)) (a b : List α) :
    (List.range m).foldl f (a, b) = (a ++ blocks g m, b ++ blocks h m) := by
  induction m with
  | zero => simp [blocks]
  | succ m ih =>
    rw [List.range_succ, List.foldl_append, ih]
    simp [blocks, hf]

theorem foldlM_range_blocks {α : Type} (f : List α → Nat → Option (List α))
    (g : Nat → List α) (m : Nat) (hf : ∀ acc i, i < m → f acc i = some (acc ++ g i))
    (init : List α) :
    (List.range m).foldlM f init = some (init ++ blocks g m) := by
  induction m with
  | zero => simp [blocks]
  | succ m ih =>
    rw [List.range_succ, List.foldlM_append, ih (fun acc i hi => hf acc i (by omega))]
    simp [blocks, hf _ m (Nat.lt_succ_self m)]

theorem toUnsigned_natCast (k : Nat) (hk : k < UINT_RANGE) : toUnsigned (k : Int) = k := by
  unfold toUnsigned
  unfold UINT_RANGE at *
  omega

theorem toUnsigned_toInt (s : Nat) (hs : s < UINT_RANGE) : toUnsigned (toInt s) = s := by
  unfold toUnsigned toInt
  unfold UINT_RANGE at *
  omega

theorem getElem?_eq_some_getD {α : Type} (l : List α) (i : Nat) (d : α) (h : i < l.length) :
    l[i]? = some (l.getD i d) := by
  simp [List.getD, List.getElem?_eq_getElem h]

theorem clamped_spec (sectorCount : Int) :
    (if sectorCount > 3 then sectorCount else 3) = ((clamped sectorCount : Nat) : Int)
      ∧ 3 ≤ clamped sectorCount := by
  unfold clamped
  split <;> omega

theorem clamped_lt (sectorCount : Int) (h : sectorCount < INT_MAX) :
    clamped sectorCount < 2147483647 := by
  unfold clamped
  unfold INT_MAX at h
  split <;> omega

theorem blocks_ringPos_length {F : Type} [Field F] (cosf sinf : F → F) (radius step : F)
    (m : Nat) : (blocks (ringPos cosf sinf radius step) m).length = 3 * m :=
  blocks_length (ringPos cosf sinf radius step) 3 (fun _ => rfl) m

theorem blocks_downNormal_length {F : Type} [Field F] (m : Nat) :
    (blocks (downNormal (F := F)) m).length = 3 * m :=
  blocks_length (downNormal (F := F)) 3 (fun _ => rfl) m

theorem blocks_baseTri_length (m : Nat) : (blocks baseTri m).length = 3 * m :=
  blocks_length baseTri 3 (fun _ => rfl) m

theorem blocks_sideTri_length (a m : Nat) : (blocks (sideTri a) m).length = 3 * m :=
  blocks_length (sideTri a) 3 (fun _ => rfl) m

theorem blocks_vertexBlock_length {F : Type} [Field F] (cs ns : List F) (m : Nat) :
    (blocks (vertexBlock cs ns) m).length = 6 * m :=
  blocks_length (vertexBlock cs ns) 6 (fun _ => rfl) m

theorem conePositions_length {F : Type} [Field F] (cosf sinf : F → F) (radius height : F)
    (n : Nat) : (conePositions cosf sinf radius height n).length = 3 * (n + 3) := by
  simp only [conePositions, List.length_append,
    blocks_ringPos_length, List.length_cons, List.length_nil]
  omega

theorem coneNormals_length {F : Type} [Field F] (n : Nat) :
    (coneNormals (F := F) n).length = 3 * (n + 3) := by
  simp only [coneNormals, List.length_append,
    blocks_downNormal_length, List.length_cons, List.length_nil]
  omega

theorem coneIndices_length (n : Nat) : (coneIndices n).length = 6 * n := by
  simp only [coneIndices, List.length_append,
    blocks_baseTri_length,
    blocks_sideTri_length]
  omega

theorem Cone.buildVertices_eq {F : Type} [Field F] (c : Cone F) (m : Nat)
    (hc : c.coordinates.length = 3 * m) (hn : c.normals.length = 3 * m) :
    c.buildVertices =
      some { c with
        vertices := c.vertices ++ blocks (vertexBlock c.coordinates c.normals) m } := by
  unfold Cone.buildVertices
  have hm : (c.coordinates.length + 2) / 3 = m := by omega
  simp only [hm]
  rw [foldlM_range_blocks (Cone.vertexStep c) (vertexBlock c.coordinates c.normals) m]
  · rfl
  · intro acc i hi
    unfold Cone.vertexStep
    dsimp only
    rw [getElem?_eq_some_getD c.coordinates (3 * i) 0 (by omega),
      getElem?_eq_some_getD c.coordinates (3 * i + 1) 0 (by omega),
      getElem?_eq_some_getD c.coordinates (3 * i + 2) 0 (by omega),
      getElem?_eq_some_getD c.normals (3 * i) 0 (by omega),
      getElem?_eq_some_getD c.normals (3 * i + 1) 0 (by omega),
      getElem?_eq_some_getD c.normals (3 * i + 2) 0 (by omega)]
    simp [vertexBlock]

theorem Cone.buildCoordinatesAndIndices_eq {F : Type} [Field F] (cosf sinf : F → F)
    (c : Cone F) (n : Nat) (hs : c.sectorCount = (n : Int)) (hn : n < 2147483647)
    (hc : c.coordinates = []) (hno : c.normals = []) (hi : c.indices = []) :
    c.buildCoordinatesAndIndices cosf sinf =
      some { c with
        coordinates := conePositions cosf sinf c.radius c.height n
        normals := coneNormals n
        indices := coneIndices n } := by
  unfold Cone.buildCoordinatesAndIndices
  have h1 : ¬ INT_MAX ≤ c.sectorCount := by rw [hs]; unfold INT_MAX; omega
  rw [if_neg h1]
  have h2 : (c.sectorCount + 1).toNat = n + 1 := by rw [hs]; omega
  have h3 : c.sectorCount.toNat = n := by rw [hs]; omega
  simp only [h2, h3, hc, hno, hi, List.nil_append]
  rw [foldl_range_blocks_pair _
    (ringPos cosf sinf c.radius (2 * PI / (c.sectorCount : F))) downNormal (n + 1)
    (by intro st i; simp [Cone.ringStep, ringPos, downNormal])]
  have hlen : (([0] ++ [0] ++ [0] ++ blocks (ringPos cosf sinf c.radius
      (2 * PI / (c.sectorCount : F))) (n + 1)) ++ [0] ++ [c.height] ++ [0]).length / 3 - 1
      = n + 2 := by
    simp only [List.length_append, blocks_ringPos_length,
      List.length_cons, List.length_nil]
    omega
  simp only [hlen]
  rw [foldl_range_blocks Cone.baseStep baseTri n ?_ []]
  rw [foldl_range_blocks (Cone.sideStep (toInt (n + 2))) (sideTri (n + 2)) n ?_]
  · simp [conePositions, coneNormals, coneIndices, hs]
  · intro acc i hi
    simp only [Cone.sideStep, sideTri]
    rw [toUnsigned_toInt (n + 2) (by unfold UINT_RANGE; omega)]
    have e1 : ((i : Int) + 1) = ((i + 1 : Nat) : Int) := by push_cast; ring
    have e2 : ((i : Int) + 1 + 1) = ((i + 2 : Nat) : Int) := by push_cast; ring
    rw [e2, e1, toUnsigned_natCast _ (by unfold UINT_RANGE; omega),
      toUnsigned_natCast _ (by unfold UINT_RANGE; omega)]
    simp
  · intro acc i hi
    simp only [Cone.baseStep, baseTri]
    have e0 : (0 : Int) = ((0 : Nat) : Int) := by simp
    have e1 : ((i : Int) + 1) = ((i + 1 : Nat) : Int) := by push_cast; ring
    have e2 : ((i : Int) + 1 + 1) = ((i + 2 : Nat) : Int) := by push_cast; ring
    rw [e2, e1, e0, toUnsigned_natCast _ (by unfold UINT_RANGE; omega),
      toUnsigned_natCast _ (by unfold UINT_RANGE; omega),
      toUnsigned_natCast _ (by unfold UINT_RANGE; omega)]
    simp

/-- The constructor in closed form: for every sector count below `INT_MAX` it returns the
cone whose lists are the closed forms above. -/
theorem Cone.new_eq {F : Type} [Field F] (cosf sinf : F → F) (radius height : F)
    (sectorCount : Int) (amb diff spec : Vec3 F) (shiny : F) (hsc : sectorCount < INT_MAX) :
    Cone.new cosf sinf radius height sectorCount amb diff spec shiny =
      some { ambient := amb, diffuse := diff, specular := spec, shininess := shiny,
             radius := radius, height := height,
             sectorCount := ((clamped sectorCount : Nat) : Int),
             vertices := blocks (vertexBlock
               (conePositions cosf sinf radius height (clamped sectorCount))
               (coneNormals (clamped sectorCount))) (clamped sectorCount + 3),
             normals := coneNormals (clamped sectorCount),
             indices := coneIndices (clamped sectorCount),
             coordinates := conePositions cosf sinf radius height (clamped sectorCount),
             verticesStride := 24 } := by
  unfold Cone.new
  rw [Cone.buildCoordinatesAndIndices_eq cosf sinf _ (clamped sectorCount)
    (by simp [Cone.set, (clamped_spec sectorCount).1]) (clamped_lt sectorCount hsc)
    rfl rfl rfl]
  simp only [Option.some_bind]
  rw [Cone.buildVertices_eq _ (clamped sectorCount + 3)
    (by simp [conePositions_length]) (by simp [coneNormals_length])]
  simp [Cone.set, Cone.fresh, (clamped_spec sectorCount).1]

theorem blocks_succ_left {α : Type} (g : Nat → List α) (m : Nat) :
    blocks g (m + 1) = g 0 ++ blocks (fun i => g (i + 1)) m := by
  induction m with
  | zero => simp [blocks]
  | succ m ih =>
    have h : blocks g (m + 1 + 1) = blocks g (m + 1) ++ g (m + 1) := rfl
    rw [h, ih, List.append_assoc]
    rfl

theorem conePositions_eq_blocks {F : Type} [Field F] (cosf sinf : F → F) (radius height : F)
    (n : Nat) :
    conePositions cosf sinf radius height n =
      blocks (posBlock cosf sinf radius height (2 * PI / ((n : Int) : F)) n) (n + 3) := by
  have h : blocks (posBlock cosf sinf radius height (2 * PI / ((n : Int) : F)) n) (n + 2 + 1)
      = blocks (posBlock cosf sinf radius height (2 * PI / ((n : Int) : F)) n) (n + 1 + 1)
        ++ posBlock cosf sinf radius height (2 * PI / ((n : Int) : F)) n (n + 2) := rfl
  rw [show n + 3 = n + 2 + 1 from rfl, h, blocks_succ_left]
  rw [blocks_congr (fun i => posBlock cosf sinf radius height (2 * PI / ((n : Int) : F)) n (i + 1))
    (ringPos cosf sinf radius (2 * PI / ((n : Int) : F))) (n + 1)
    (fun i hi => by simp [posBlock]; omega)]
  simp [conePositions, posBlock]

theorem coneNormals_eq_blocks {F : Type} [Field F] (n : Nat) :
    coneNormals (F := F) n = blocks (normBlock (F := F) n) (n + 3) := by
  have h : blocks (normBlock (F := F) n) (n + 2 + 1)
      = blocks (normBlock (F := F) n) (n + 1 + 1) ++ normBlock n (n + 2) := rfl
  rw [show n + 3 = n + 2 + 1 from rfl, h, blocks_succ_left]
  rw [blocks_congr (fun i => normBlock (F := F) n (i + 1)) (downNormal (F := F)) (n + 1)
    (fun i hi => by simp [normBlock, downNormal]; omega)]
  simp [coneNormals, normBlock]

theorem posBlock_length {F : Type} [Field F] (cosf sinf : F → F) (radius height step : F)
    (n k : Nat) : (posBlock cosf sinf radius height step n k).length = 3 := by
  unfold posBlock
  split
  · rfl
  · split <;> rfl

theorem normBlock_length {F : Type} [Field F] (n k : Nat) :
    (normBlock (F := F) n k).length = 3 := by
  unfold normBlock
  split <;> rfl

theorem tripleAt_blocks {F : Type} (g : Nat → List F) (hg : ∀ i, (g i).length = 3)
    {m k : Nat} (hk : k < m) : tripleAt (blocks g m) k = tripleAt (g k) 0 := by
  unfold tripleAt
  have h0 := blocks_getElem? g 3 hg hk (show 0 < 3 by omega)
  have h1 := blocks_getElem? g 3 hg hk (show 1 < 3 by omega)
  have h2 := blocks_getElem? g 3 hg hk (show 2 < 3 by omega)
  simp only [Nat.add_zero] at h0
  simp only [h0, h1, h2, Nat.mul_zero, Nat.zero_add]

theorem tripleAt_conePositions {F : Type} [Field F] (cosf sinf : F → F) (radius height : F)
    (n k : Nat) (hk : k < n + 3) :
    tripleAt (conePositions cosf sinf radius height n) k =
      tripleAt (posBlock cosf sinf radius height (2 * PI / ((n : Int) : F)) n k) 0 := by
  rw [conePositions_eq_blocks]
  exact tripleAt_blocks _ (posBlock_length cosf sinf radius height _ n) hk

theorem tripleAt_coneNormals {F : Type} [Field F] (n k : Nat) (hk : k < n + 3) :
    tripleAt (coneNormals (F := F) n) k = tripleAt (normBlock (F := F) n k) 0 := by
  rw [coneNormals_eq_blocks]
  exact tripleAt_blocks _ (normBlock_length n) hk

theorem coneIndices_mem_lt (n i : Nat) (hi : i ∈ coneIndices n) : i < n + 3 := by
  unfold coneIndices at hi
  rcases List.mem_append.mp hi with h | h
  · obtain ⟨k, hk, hm⟩ := (blocks_mem baseTri n i).mp h
    simp [baseTri] at hm
    omega
  · obtain ⟨k, hk, hm⟩ := (blocks_mem (sideTri (n + 2)) n i).mp h
    simp [sideTri] at hm
    omega

theorem coneIndices_base (n k j : Nat) (hk : k < n) (hj : j < 3) :
    (coneIndices n)[3 * k + j]? = (baseTri k)[j]? := by
  unfold coneIndices
  rw [List.getElem?_append_left (by rw [blocks_baseTri_length]; omega)]
  exact blocks_getElem? baseTri 3 (fun _ => rfl) hk hj

theorem coneIndices_side (n k j : Nat) (hk : k < n) (hj : j < 3) :
    (coneIndices n)[3 * (n + k) + j]? = (sideTri (n + 2) k)[j]? := by
  unfold coneIndices
  rw [List.getElem?_append_right (by rw [blocks_baseTri_length]; omega)]
  rw [blocks_baseTri_length]
  have h : 3 * (n + k) + j - 3 * n = 3 * k + j := by omega
  rw [h]
  exact blocks_getElem? (sideTri (n + 2)) 3 (fun _ => rfl) hk hj

theorem Cone.new_eq_none {F : Type} [Field F] (cosf sinf : F → F) (radius height : F)
    (sectorCount : Int) (amb diff spec : Vec3 F) (shiny : F) (hsc : INT_MAX ≤ sectorCount) :
    Cone.new cosf sinf radius height sectorCount amb diff spec shiny = none := by
  have h3 : sectorCount > 3 := by unfold INT_MAX at hsc; omega
  simp [Cone.new, Cone.set, Cone.buildCoordinatesAndIndices, h3, hsc]

theorem clamped_of_le (sectorCount : Int) (h : sectorCount ≤ 3) : clamped sectorCount = 3 := by
  unfold clamped
  split <;> omega

/-- The constructor's result, field by field, for every sector count below `INT_MAX`. -/
theorem Cone.new_spec {F : Type} [Field F] (cosf sinf : F → F) (radius height : F)
    (sectorCount : Int) (amb diff spec : Vec3 F) (shiny : F) (hsc : sectorCount < INT_MAX) :
    ∃ c, Cone.new cosf sinf radius height sectorCount amb diff spec shiny = some c ∧
      c.radius = radius ∧ c.height = height ∧
      c.sectorCount = ((clamped sectorCount : Nat) : Int) ∧
      c.coordinates = conePositions cosf sinf radius height (clamped sectorCount) ∧
      c.normals = coneNormals (clamped sectorCount) ∧
      c.indices = coneIndices (clamped sectorCount) ∧
      c.vertices = blocks (vertexBlock
        (conePositions cosf sinf radius height (clamped sectorCount))
        (coneNormals (clamped sectorCount))) (clamped sectorCount + 3) ∧
      c.verticesStride = 24 :=
  ⟨_, Cone.new_eq cosf sinf radius height sectorCount amb diff spec shiny hsc,
    rfl, rfl, rfl, rfl, rfl, rfl, rfl, rfl⟩

/-- The constructor returns a cone exactly for the sector counts below `INT_MAX`. -/
theorem Cone.new_isSome_iff {F : Type} [Field F] (cosf sinf : F → F) (radius height : F)
    (sectorCount : Int) (amb diff spec : Vec3 F) (shiny : F) :
    (∃ c, Cone.new cosf sinf radius height sectorCount amb diff spec shiny = some c)
      ↔ sectorCount < INT_MAX := by
  constructor
  · rintro ⟨c, hc⟩
    by_contra hge
    rw [Cone.new_eq_none cosf sinf radius height sectorCount amb diff spec shiny
      (not_lt.mp hge)] at hc
    exact Option.noConfusion hc
  · intro hsc
    exact ⟨_, Cone.new_eq cosf sinf radius height sectorCount amb diff spec shiny hsc⟩

theorem vertexBlock_getElem? {F : Type} [Field F] (cs ns : List F) (m k j : Nat)
    (hcs : cs.length = 3 * m) (hns : ns.length = 3 * m) (hk : k < m) (hj : j < 3) :
    (blocks (vertexBlock cs ns) m)[6 * k + j]? = cs[3 * k + j]? ∧
    (blocks (vertexBlock cs ns) m)[6 * k + 3 + j]? = ns[3 * k + j]? := by
  have h1 := blocks_getElem? (vertexBlock cs ns) 6 (fun _ => rfl) hk (show j < 6 by omega)
  have h2 := blocks_getElem? (vertexBlock cs ns) 6 (fun _ => rfl) hk (show 3 + j < 6 by omega)
  rw [← Nat.add_assoc] at h2
  rw [h1, h2]
  have c0 := getElem?_eq_some_getD cs (3 * k) 0 (by omega)
  have c1 := getElem?_eq_some_getD cs (3 * k + 1) 0 (by omega)
  have c2 := getElem?_eq_some_getD cs (3 * k + 2) 0 (by omega)
  have n0 := getElem?_eq_some_getD ns (3 * k) 0 (by omega)
  have n1 := getElem?_eq_some_getD ns (3 * k + 1) 0 (by omega)
  have n2 := getElem?_eq_some_getD ns (3 * k + 2) 0 (by omega)
  have hj3 : j = 0 ∨ j = 1 ∨ j = 2 := by omega
  rcases hj3 with h | h | h <;> subst h
  · exact ⟨c0.symm, n0.symm⟩
  · exact ⟨c1.symm, n1.symm⟩
  · exact ⟨c2.symm, n2.symm⟩

theorem tripleAt_eq_some {F : Type} {l : List F} {k : Nat} {v : Vec3 F}
    (h : tripleAt l k = some v) :
    l[3 * k]? = some v.x ∧ l[3 * k + 1]? = some v.y ∧ l[3 * k + 2]? = some v.z := by
  unfold tripleAt at h
  cases h0 : l[3 * k]? with
  | none => simp [h0] at h
  | some a =>
    cases h1 : l[3 * k + 1]? with
    | none => simp [h0, h1] at h
    | some b =>
      cases h2 : l[3 * k + 2]? with
      | none => simp [h0, h1, h2] at h
      | some d =>
        simp [h0, h1, h2] at h
        subst h
        exact ⟨rfl, rfl, rfl⟩

theorem tripleAt_normBlock {F : Type} [Field F] (n k : Nat) :
    tripleAt (normBlock (F := F) n k) 0
      = some (if k ≤ n + 1 then ⟨0, -1, 0⟩ else ⟨0, 1, 0⟩) := by
  unfold normBlock
  split <;> rfl

theorem tripleAt_posBlock {F : Type} [Field F] (cosf sinf : F → F) (radius height step : F)
    (n k : Nat) :
    tripleAt (posBlock cosf sinf radius height step n k) 0
      = some (if k = 0 then ⟨0, 0, 0⟩
          else if k ≤ n + 1 then
            ⟨radius * cosf (((k - 1 : Nat) : F) * step), 0,
             radius * sinf (((k - 1 : Nat) : F) * step)⟩
          else ⟨0, height, 0⟩) := by
  unfold posBlock
  split
  · rfl
  · split <;> rfl

/-! ## Triangles of the cone -/

theorem tripleAt_cone_center {F : Type} [Field F] (cosf sinf : F → F) (radius height : F)
    (n : Nat) : tripleAt (conePositions cosf sinf radius height n) 0 = some ⟨0, 0, 0⟩ := by
  rw [tripleAt_conePositions _ _ _ _ _ _ (show 0 < n + 3 by omega), tripleAt_posBlock]
  simp

theorem tripleAt_cone_ring {F : Type} [Field F] (cosf sinf : F → F) (radius height : F)
    (n i : Nat) (hi : i ≤ n) :
    tripleAt (conePositions cosf sinf radius height n) (i + 1)
      = some (ringVertex cosf sinf radius (2 * PI / ((n : Int) : F)) i) := by
  rw [tripleAt_conePositions _ _ _ _ _ _ (show i + 1 < n + 3 by omega), tripleAt_posBlock]
  simp [hi, ringVertex]

theorem tripleAt_cone_apex {F : Type} [Field F] (cosf sinf : F → F) (radius height : F)
    (n : Nat) :
    tripleAt (conePositions cosf sinf radius height n) (n + 2) = some ⟨0, height, 0⟩ := by
  rw [tripleAt_conePositions _ _ _ _ _ _ (show n + 2 < n + 3 by omega), tripleAt_posBlock]
  simp

theorem coneIndices_baseTri (n k : Nat) (hk : k < n) :
    (coneIndices n)[3 * k]? = some 0 ∧ (coneIndices n)[3 * k + 1]? = some (k + 1) ∧
    (coneIndices n)[3 * k + 2]? = some (k + 2) := by
  have h0 := coneIndices_base n k 0 hk (by omega)
  have h1 := coneIndices_base n k 1 hk (by omega)
  have h2 := coneIndices_base n k 2 hk (by omega)
  rw [Nat.add_zero] at h0
  exact ⟨h0, h1, h2⟩

theorem coneIndices_sideTri (n k : Nat) (hk : k < n) :
    (coneIndices n)[3 * (n + k)]? = some (k + 1) ∧
    (coneIndices n)[3 * (n + k) + 1]? = some (k + 2) ∧
    (coneIndices n)[3 * (n + k) + 2]? = some (n + 2) := by
  have h0 := coneIndices_side n k 0 hk (by omega)
  have h1 := coneIndices_side n k 1 hk (by omega)
  have h2 := coneIndices_side n k 2 hk (by omega)
  rw [Nat.add_zero] at h0
  exact ⟨h0, h1, h2⟩

theorem Cone.triangle_base {F : Type} [Field F] (cosf sinf : F → F) (radius height : F)
    (n : Nat) (c : Cone F) (hco : c.coordinates = conePositions cosf sinf radius height n)
    (hix : c.indices = coneIndices n) (k : Nat) (hk : k < n) :
    c.triangle k = some (⟨0, 0, 0⟩, ringVertex cosf sinf radius (2 * PI / ((n : Int) : F)) k,
      ringVertex cosf sinf radius (2 * PI / ((n : Int) : F)) (k + 1)) := by
  obtain ⟨i0, i1, i2⟩ := coneIndices_baseTri n k hk
  unfold Cone.triangle
  rw [hix, hco, i0, i1, i2]
  simp only [Option.bind_eq_bind, Option.some_bind]
  rw [tripleAt_cone_center, tripleAt_cone_ring _ _ _ _ _ k (by omega),
    tripleAt_cone_ring _ _ _ _ _ (k + 1) (by omega)]
  rfl

theorem Cone.triangle_side {F : Type} [Field F] (cosf sinf : F → F) (radius height : F)
    (n : Nat) (c : Cone F) (hco : c.coordinates = conePositions cosf sinf radius height n)
    (hix : c.indices = coneIndices n) (k : Nat) (hk : k < n) :
    c.triangle (n + k) = some (ringVertex cosf sinf radius (2 * PI / ((n : Int) : F)) k,
      ringVertex cosf sinf radius (2 * PI / ((n : Int) : F)) (k + 1), ⟨0, height, 0⟩) := by
  obtain ⟨i0, i1, i2⟩ := coneIndices_sideTri n k hk
  unfold Cone.triangle
  rw [hix, hco, i0, i1, i2]
  simp only [Option.bind_eq_bind, Option.some_bind]
  rw [tripleAt_cone_apex, tripleAt_cone_ring _ _ _ _ _ k (by omega),
    tripleAt_cone_ring _ _ _ _ _ (k + 1) (by omega)]
  rfl

/-! ## The sector step over the reals -/

theorem step_pos (n : Nat) (hn : 3 ≤ n) : 0 < 2 * (PI : ℝ) / ((n : Int) : ℝ) := by
  have hn0 : (0 : ℝ) < ((n : Int) : ℝ) := by
    have : (0 : ℝ) < (n : ℝ) := by exact_mod_cast (show 0 < n by omega)
    simpa using this
  unfold PI
  positivity

theorem step_lt_pi (n : Nat) (hn : 3 ≤ n) : 2 * (PI : ℝ) / ((n : Int) : ℝ) < Real.pi := by
  have hn3 : (3 : ℝ) ≤ ((n : Int) : ℝ) := by
    have : (3 : ℝ) ≤ (n : ℝ) := by exact_mod_cast hn
    simpa using this
  have hpi := Real.pi_gt_three
  unfold PI
  rw [div_lt_iff₀ (by linarith)]
  nlinarith

theorem sin_step_pos (n : Nat) (hn : 3 ≤ n) : 0 < Real.sin (2 * (PI : ℝ) / ((n : Int) : ℝ)) :=
  Real.sin_pos_of_pos_of_lt_pi (step_pos n hn) (step_lt_pi n hn)

/-- The angle-difference identity behind both fans: for consecutive ring angles,
`sin(kθ)·cos((k+1)θ) - cos(kθ)·sin((k+1)θ) = -sin θ`. -/
theorem sin_consecutive (k : Nat) (θ : ℝ) :
    Real.sin ((k : ℝ) * θ) * Real.cos (((k + 1 : Nat) : ℝ) * θ)
      - Real.cos ((k : ℝ) * θ) * Real.sin (((k + 1 : Nat) : ℝ) * θ) = -Real.sin θ := by
  rw [← Real.sin_sub, ← Real.sin_neg]
  congr 1
  push_cast
  ring

/-- The closing angle `n · step` is `2 · 3.1416 = 6.2832`, whatever `n ≥ 3`. -/
theorem closing_angle (n : Nat) (hn : 3 ≤ n) :
    (n : ℝ) * (2 * (PI : ℝ) / ((n : Int) : ℝ)) = 6.2832 := by
  have hn0 : (n : ℝ) ≠ 0 := by exact_mod_cast (show n ≠ 0 by omega)
  unfold PI
  simp only [Int.cast_natCast]
  field_simp
  norm_num

theorem sin_closing_pos : 0 < Real.sin 6.2832 := by
  have h1 := Real.pi_gt_d6
  have h2 := Real.pi_lt_d6
  rw [← Real.sin_sub_two_pi]
  exact Real.sin_pos_of_pos_of_lt_pi (by linarith) (by linarith)

theorem sin_closing_lt : Real.sin 6.2832 < 0.000016 := by
  have h1 := Real.pi_gt_d6
  have h2 := Real.pi_lt_d6
  rw [← Real.sin_sub_two_pi]
  have := Real.sin_lt (show (0 : ℝ) < 6.2832 - 2 * Real.pi by linarith)
  linarith

theorem cos_closing_lt_one : Real.cos 6.2832 < 1 := by
  have hs := sin_closing_pos
  have h := Real.sin_sq_add_cos_sq 6.2832
  have hc := Real.cos_le_one 6.2832
  rcases lt_or_eq_of_le hc with h1 | h1
  · exact h1
  · rw [h1] at h
    have : Real.sin 6.2832 ^ 2 = 0 := by linarith
    have : Real.sin 6.2832 = 0 := by simpa using this
    linarith

theorem cos_closing_gt : 1 - 0.00000000013 < Real.cos 6.2832 := by
  have h1 := Real.pi_gt_d6
  have h2 := Real.pi_lt_d6
  rw [← Real.cos_sub_two_pi]
  have h := Real.one_sub_sq_div_two_le_cos (x := 6.2832 - 2 * Real.pi)
  have hd0 : (0 : ℝ) < 6.2832 - 2 * Real.pi := by linarith
  have hd1 : 6.2832 - 2 * Real.pi < 0.000016 := by linarith
  have hsq : (6.2832 - 2 * Real.pi) ^ 2 < 0.000016 ^ 2 := by
    apply pow_lt_pow_left₀ hd1 (le_of_lt hd0)
    norm_num
  have : (0.000016 : ℝ) ^ 2 / 2 < 0.00000000013 := by norm_num
  linarith

/-! ## The cube arrays -/

theorem cube_vertices_length {F : Type} [Field F] : (cube_vertices (F := F)).length = 144 := by
  simp [cube_vertices]

theorem cubePosition_eq {F : Type} [Field F] (i : Nat) (hi : i < 24) :
    cubePosition (F := F) i = some ⟨(cube_vertices (F := F)).getD (6 * i) 0,
      (cube_vertices (F := F)).getD (6 * i + 1) 0, (cube_vertices (F := F)).getD (6 * i + 2) 0⟩ := by
  have hlen := cube_vertices_length (F := F)
  unfold cubePosition cubeStride
  rw [getElem?_eq_some_getD _ (6 * i) 0 (by omega),
    getElem?_eq_some_getD _ (6 * i + 1) 0 (by omega),
    getElem?_eq_some_getD _ (6 * i + 2) 0 (by omega)]
  rfl

theorem cubeNormal_eq {F : Type} [Field F] (i : Nat) (hi : i < 24) :
    cubeNormal (F := F) i = some ⟨(cube_vertices (F := F)).getD (6 * i + 3) 0,
      (cube_vertices (F := F)).getD (6 * i + 4) 0, (cube_vertices (F := F)).getD (6 * i + 5) 0⟩ := by
  have hlen := cube_vertices_length (F := F)
  unfold cubeNormal cubeStride
  rw [getElem?_eq_some_getD _ (6 * i + 3) 0 (by omega),
    getElem?_eq_some_getD _ (6 * i + 4) 0 (by omega),
    getElem?_eq_some_getD _ (6 * i + 5) 0 (by omega)]
  rfl

theorem cubeTriangle_table {F : Type} [Field F] :
    cubeTriangle (F := F) 0 = some (⟨0, 0, 0.5⟩, ⟨0, 0.5, 0.5⟩, ⟨0.5, 0.5, 0.5⟩) ∧
    cubeTriangle (F := F) 1 = some (⟨0.5, 0.5, 0.5⟩, ⟨0.5, 0, 0.5⟩, ⟨0, 0, 0.5⟩) ∧
    cubeTriangle (F := F) 2 = some (⟨0, 0, 0⟩, ⟨0.5, 0, 0⟩, ⟨0, 0.5, 0⟩) ∧
    cubeTriangle (F := F) 3 = some (⟨0, 0.5, 0⟩, ⟨0.5, 0.5, 0⟩, ⟨0, 0, 0⟩) ∧
    cubeTriangle (F := F) 4 = some (⟨0, 0, 0⟩, ⟨0, 0, 0.5⟩, ⟨0, 0.5, 0.5⟩) ∧
    cubeTriangle (F := F) 5 = some (⟨0, 0.5, 0.5⟩, ⟨0, 0.5, 0⟩, ⟨0, 0, 0⟩) ∧
    cubeTriangle (F := F) 6 = some (⟨0.5, 0, 0⟩, ⟨0.5, 0, 0.5⟩, ⟨0.5, 0.5, 0.5⟩) ∧
    cubeTriangle (F := F) 7 = some (⟨0.5, 0.5, 0.5⟩, ⟨0.5, 0.5, 0⟩, ⟨0.5, 0, 0⟩) ∧
    cubeTriangle (F := F) 8 = some (⟨0, 0.5, 0⟩, ⟨0.5, 0.5, 0⟩, ⟨0.5, 0.5, 0.5⟩) ∧
    cubeTriangle (F := F) 9 = some (⟨0.5, 0.5, 0.5⟩, ⟨0, 0.5, 0.5⟩, ⟨0, 0.5, 0⟩) ∧
    cubeTriangle (F := F) 10 = some (⟨0, 0, 0⟩, ⟨0.5, 0, 0⟩, ⟨0.5, 0, 0.5⟩) ∧
    cubeTriangle (F := F) 11 = some (⟨0.5, 0, 0.5⟩, ⟨0, 0, 0.5⟩, ⟨0, 0, 0⟩) :=
  ⟨rfl, rfl, rfl, rfl, rfl, rfl, rfl, rfl, rfl, rfl, rfl, rfl⟩

theorem cubeFaceNormal_table {F : Type} [Field F] :
    cubeNormal (F := F) 0 = some ⟨0, 0, 1⟩ ∧ cubeNormal (F := F) 2 = some ⟨0, 0, 1⟩ ∧
    cubeNormal (F := F) 4 = some ⟨0, 0, -1⟩ ∧ cubeNormal (F := F) 7 = some ⟨0, 0, -1⟩ ∧
    cubeNormal (F := F) 8 = some ⟨-1, 0, 0⟩ ∧ cubeNormal (F := F) 10 = some ⟨-1, 0, 0⟩ ∧
    cubeNormal (F := F) 12 = some ⟨1, 0, 0⟩ ∧ cubeNormal (F := F) 14 = some ⟨1, 0, 0⟩ ∧
    cubeNormal (F := F) 16 = some ⟨0, 1, 0⟩ ∧ cubeNormal (F := F) 18 = some ⟨0, 1, 0⟩ ∧
    cubeNormal (F := F) 20 = some ⟨0, -1, 0⟩ ∧ cubeNormal (F := F) 22 = some ⟨0, -1, 0⟩ :=
  ⟨rfl, rfl, rfl, rfl, rfl, rfl, rfl, rfl, rfl, rfl, rfl, rfl⟩

theorem cubeTriangleIndices_table :
    (List.range 12).map cubeTriangleIndices =
      [some (0, 3, 2), some (2, 1, 0), some (4, 5, 7), some (7, 6, 4),
       some (8, 9, 10), some (10, 11, 8), some (12, 13, 14), some (14, 15, 12),
       some (16, 17, 18), some (18, 19, 16), some (20, 21, 22), some (22, 23, 20)] := by
  decide

/-- The winding test of one cube triangle, from its index triple, corners and the normal of
its first vertex. -/
theorem cubeWindingDot_eq {F : Type} [Field F] (t : Nat) (ix : Nat × Nat × Nat)
    (tri : Vec3 F × Vec3 F × Vec3 F) (n : Vec3 F) (hix : cubeTriangleIndices t = some ix)
    (htri : cubeTriangle (F := F) t = some tri) (hn : cubeNormal (F := F) ix.1 = some n) :
    cubeWindingDot (F := F) t = some (Vec3.dot (faceNormal tri) n) := by
  unfold cubeWindingDot
  rw [hix, htri]
  simp only [Option.bind_eq_bind, Option.some_bind]
  rw [hn]
  rfl

/-! ## The light keys -/

theorem Globals.lightInv_handleKey4 {F : Type} [Field F] (l0 : SpotLight F) (g : Globals F)
    (h : g.lightInv l0) : g.handleKey4.lightInv l0 := by
  obtain ⟨-, -, -, hdata⟩ := h
  unfold Globals.handleKey4
  split
  · exact ⟨Or.inl rfl, Or.inl rfl, Or.inl rfl, hdata⟩
  · exact ⟨Or.inr rfl, Or.inr rfl, Or.inr rfl, hdata⟩

theorem Globals.lightInv_handleKey5 {F : Type} [Field F] (l0 : SpotLight F) (g : Globals F)
    (h : g.lightInv l0) : g.handleKey5.lightInv l0 := by
  obtain ⟨-, hd, hs, hdata⟩ := h
  unfold Globals.handleKey5
  split
  · exact ⟨Or.inl rfl, hd, hs, hdata⟩
  · exact ⟨Or.inr rfl, hd, hs, hdata⟩

theorem Globals.lightInv_handleKey6 {F : Type} [Field F] (l0 : SpotLight F) (g : Globals F)
    (h : g.lightInv l0) : g.handleKey6.lightInv l0 := by
  obtain ⟨ha, -, hs, hdata⟩ := h
  unfold Globals.handleKey6
  split
  · exact ⟨ha, Or.inl rfl, hs, hdata⟩
  · exact ⟨ha, Or.inr rfl, hs, hdata⟩

theorem Globals.lightInv_handleKey7 {F : Type} [Field F] (l0 : SpotLight F) (g : Globals F)
    (h : g.lightInv l0) : g.handleKey7.lightInv l0 := by
  obtain ⟨ha, hd, -, hdata⟩ := h
  unfold Globals.handleKey7
  split
  · exact ⟨ha, hd, Or.inl rfl, hdata⟩
  · exact ⟨ha, hd, Or.inr rfl, hdata⟩

theorem Globals.lightInv_processInput {F : Type} [Field F] (l0 : SpotLight F) (p : Pressed)
    (g : Globals F) (h : g.lightInv l0) : (Globals.processInput p g).lightInv l0 := by
  have s1 : (if p.key4 then g.handleKey4 else g).lightInv l0 := by
    split
    · exact Globals.lightInv_handleKey4 l0 g h
    · exact h
  have s2 : (if p.key5 then (if p.key4 then g.handleKey4 else g).handleKey5
      else (if p.key4 then g.handleKey4 else g)).lightInv l0 := by
    split
    · exact Globals.lightInv_handleKey5 l0 _ s1
    · exact s1
  have s3 : (if p.key6 then (if p.key5 then (if p.key4 then g.handleKey4 else g).handleKey5
      else (if p.key4 then g.handleKey4 else g)).handleKey6
      else (if p.key5 then (if p.key4 then g.handleKey4 else g).handleKey5
      else (if p.key4 then g.handleKey4 else g))).lightInv l0 := by
    split
    · exact Globals.lightInv_handleKey6 l0 _ s2
    · exact s2
  unfold Globals.processInput
  dsimp only
  split
  · exact Globals.lightInv_handleKey7 l0 _ s3
  · exact s3

theorem Globals.lightInv_run {F : Type} [Field F] (l0 : SpotLight F) (frames : List Pressed) :
    ∀ g : Globals F, g.lightInv l0 → (Globals.run frames g).lightInv l0 := by
  induction frames with
  | nil => intro g h; exact h
  | cons p fs ih =>
    intro g h
    have hstep : Globals.run (p :: fs) g = Globals.run fs (Globals.processInput p g) := rfl
    rw [hstep]
    exact ih _ (Globals.lightInv_processInput l0 p g h)

/-! ## The generator with rounded float operations: closed forms -/

/-- An `int` of magnitude below `2 ^ 24` converts to `float` without rounding. -/
theorem intToFloat_of_natAbs_lt (z : Int) (h : z.natAbs < 2 ^ 24) : intToFloat z = z := by
  unfold intToFloat
  have he : Nat.log2 z.natAbs < 24 := by
    by_cases h0 : z.natAbs = 0
    · rw [h0, Nat.log2]
      simp
    · exact (Nat.log2_lt h0).mpr h
  simp only [he, if_true]

/-- The conversion of a non-negative `int`, with the local definitions unfolded. -/
theorem intToFloat_natCast (a : Nat) :
    intToFloat (a : Int) =
      if Nat.log2 a < 24 then (a : Int)
      else
        Int.sign (a : Int) * (((if 2 * (a % 2 ^ (Nat.log2 a - 23)) < 2 ^ (Nat.log2 a - 23)
          then a / 2 ^ (Nat.log2 a - 23)
          else if 2 ^ (Nat.log2 a - 23) < 2 * (a % 2 ^ (Nat.log2 a - 23))
            then a / 2 ^ (Nat.log2 a - 23) + 1
          else if a / 2 ^ (Nat.log2 a - 23) % 2 = 0 then a / 2 ^ (Nat.log2 a - 23)
          else a / 2 ^ (Nat.log2 a - 23) + 1) * 2 ^ (Nat.log2 a - 23) : Nat) : Int) := by
  unfold intToFloat
  simp only [Int.natAbs_ofNat]

/-- `2 ^ 24` converts to `float` without rounding. -/
theorem intToFloat_16777216 : intToFloat 16777216 = 16777216 := by
  have he : Nat.log2 16777216 = 24 := by
    rw [Nat.log2_eq_log_two, Nat.log_eq_iff (Or.inl (by norm_num))]
    norm_num
  have h := intToFloat_natCast 16777216
  rw [he] at h
  norm_num at h
  exact h

/-- `2 ^ 24 + 1` is not a `float`: the conversion rounds it to `2 ^ 24` (ties to even). -/
theorem intToFloat_16777217 : intToFloat 16777217 = 16777216 := by
  have he : Nat.log2 16777217 = 24 := by
    rw [Nat.log2_eq_log_two, Nat.log_eq_iff (Or.inl (by norm_num))]
    norm_num
  have h := intToFloat_natCast 16777217
  rw [he] at h
  norm_num at h
  exact h

theorem blocks_ringPosWith_length {F : Type} [Field F] (ops : FloatOps F) (radius step : F)
    (m : Nat) : (blocks (ringPosWith ops radius step) m).length = 3 * m :=
  blocks_length (ringPosWith ops radius step) 3 (fun _ => rfl) m

theorem conePositionsWith_length {F : Type} [Field F] (ops : FloatOps F) (radius height : F)
    (n : Nat) : (conePositionsWith ops radius height n).length = 3 * (n + 3) := by
  simp only [conePositionsWith, List.length_append,
    blocks_ringPosWith_length, List.length_cons, List.length_nil]
  omega

theorem Cone.buildCoordinatesAndIndicesWith_eq {F : Type} [Field F] (ops : FloatOps F)
    (c : Cone F) (n : Nat) (hs : c.sectorCount = (n : Int)) (hn : n < 2147483647)
    (hc : c.coordinates = []) (hno : c.normals = []) (hi : c.indices = []) :
    c.buildCoordinatesAndIndicesWith ops =
      some { c with
        coordinates := conePositionsWith ops c.radius c.height n
        normals := coneNormals n
        indices := coneIndices n } := by
  unfold Cone.buildCoordinatesAndIndicesWith
  have h1 : ¬ INT_MAX ≤ c.sectorCount := by rw [hs]; unfold INT_MAX; omega
  rw [if_neg h1]
  have h2 : (c.sectorCount + 1).toNat = n + 1 := by rw [hs]; omega
  have h3 : c.sectorCount.toNat = n := by rw [hs]; omega
  simp only [h2, h3, hc, hno, hi, List.nil_append]
  rw [foldl_range_blocks_pair _
    (ringPosWith ops c.radius (ops.sectorStep c.sectorCount)) downNormal (n + 1)
    (by intro st i; simp [Cone.ringStepWith, ringPosWith, downNormal])]
  have hlen : (([0] ++ [0] ++ [0] ++ blocks (ringPosWith ops c.radius
      (ops.sectorStep c.sectorCount)) (n + 1)) ++ [0] ++ [c.height] ++ [0]).length / 3 - 1
      = n + 2 := by
    simp only [List.length_append, blocks_ringPosWith_length,
      List.length_cons, List.length_nil]
    omega
  simp only [hlen]
  rw [foldl_range_blocks Cone.baseStep baseTri n ?_ []]
  rw [foldl_range_blocks (Cone.sideStep (toInt (n + 2))) (sideTri (n + 2)) n ?_]
  · simp [conePositionsWith, coneNormals, coneIndices, hs]
  · intro acc i hi
    simp only [Cone.sideStep, sideTri]
    rw [toUnsigned_toInt (n + 2) (by unfold UINT_RANGE; omega)]
    have e1 : ((i : Int) + 1) = ((i + 1 : Nat) : Int) := by push_cast; ring
    have e2 : ((i : Int) + 1 + 1) = ((i + 2 : Nat) : Int) := by push_cast; ring
    rw [e2, e1, toUnsigned_natCast _ (by unfold UINT_RANGE; omega),
      toUnsigned_natCast _ (by unfold UINT_RANGE; omega)]
    simp
  · intro acc i hi
    simp only [Cone.baseStep, baseTri]
    have e0 : (0 : Int) = ((0 : Nat) : Int) := by simp
    have e1 : ((i : Int) + 1) = ((i + 1 : Nat) : Int) := by push_cast; ring
    have e2 : ((i : Int) + 1 + 1) = ((i + 2 : Nat) : Int) := by push_cast; ring
    rw [e2, e1, e0, toUnsigned_natCast _ (by unfold UINT_RANGE; omega),
      toUnsigned_natCast _ (by unfold UINT_RANGE; omega),
      toUnsigned_natCast _ (by unfold UINT_RANGE; omega)]
    simp

/-- The constructor with float operations `ops` in closed form, for every sector count
below `INT_MAX`. -/
theorem Cone.newWith_eq {F : Type} [Field F] (ops : FloatOps F) (radius height : F)
    (sectorCount : Int) (amb diff spec : Vec3 F) (shiny : F) (hsc : sectorCount < INT_MAX) :
    Cone.newWith ops radius height sectorCount amb diff spec shiny =
      some { ambient := amb, diffuse := diff, specular := spec, shininess := shiny,
             radius := radius, height := height,
             sectorCount := ((clamped sectorCount : Nat) : Int),
             vertices := blocks (vertexBlock
               (conePositionsWith ops radius height (clamped sectorCount))
               (coneNormals (clamped sectorCount))) (clamped sectorCount + 3),
             normals := coneNormals (clamped sectorCount),
             indices := coneIndices (clamped sectorCount),
             coordinates := conePositionsWith ops radius height (clamped sectorCount),
             verticesStride := 24 } := by
  unfold Cone.newWith
  rw [Cone.buildCoordinatesAndIndicesWith_eq ops _ (clamped sectorCount)
    (by simp [Cone.set, (clamped_spec sectorCount).1]) (clamped_lt sectorCount hsc)
    rfl rfl rfl]
  simp only [Option.some_bind]
  rw [Cone.buildVertices_eq _ (clamped sectorCount + 3)
    (by simp [conePositionsWith_length]) (by simp [coneNormals_length])]
  simp [Cone.set, Cone.fresh, (clamped_spec sectorCount).1]

/-- The result of the constructor with float operations `ops`, field by field. -/
theorem Cone.newWith_spec {F : Type} [Field F] (ops : FloatOps F) (radius height : F)
    (sectorCount : Int) (amb diff spec : Vec3 F) (shiny : F) (hsc : sectorCount < INT_MAX) :
    ∃ c, Cone.newWith ops radius height sectorCount amb diff spec shiny = some c ∧
      c.radius = radius ∧ c.height = height ∧
      c.sectorCount = ((clamped sectorCount : Nat) : Int) ∧
      c.coordinates = conePositionsWith ops radius height (clamped sectorCount) ∧
      c.normals = coneNormals (clamped sectorCount) ∧
      c.indices = coneIndices (clamped sectorCount) ∧
      c.vertices = blocks (vertexBlock
        (conePositionsWith ops radius height (clamped sectorCount))
        (coneNormals (clamped sectorCount))) (clamped sectorCount + 3) ∧
      c.verticesStride = 24 :=
  ⟨_, Cone.newWith_eq ops radius height sectorCount amb diff spec shiny hsc,
    rfl, rfl, rfl, rfl, rfl, rfl, rfl, rfl⟩

theorem posBlockWith_length {F : Type} [Field F] (ops : FloatOps F) (radius height step : F)
    (n k : Nat) : (posBlockWith ops radius height step n k).length = 3 := by
  unfold posBlockWith
  split
  · rfl
  · split <;> rfl

theorem conePositionsWith_eq_blocks {F : Type} [Field F] (ops : FloatOps F)
    (radius height : F) (n : Nat) :
    conePositionsWith ops radius height n =
      blocks (posBlockWith ops radius height (ops.sectorStep (n : Int)) n) (n + 3) := by
  have h : blocks (posBlockWith ops radius height (ops.sectorStep (n : Int)) n) (n + 2 + 1)
      = blocks (posBlockWith ops radius height (ops.sectorStep (n : Int)) n) (n + 1 + 1)
        ++ posBlockWith ops radius height (ops.sectorStep (n : Int)) n (n + 2) := rfl
  rw [show n + 3 = n + 2 + 1 from rfl, h, blocks_succ_left]
  rw [blocks_congr (fun i => posBlockWith ops radius height (ops.sectorStep (n : Int)) n (i + 1))
    (ringPosWith ops radius (ops.sectorStep (n : Int))) (n + 1)
    (fun i hi => by simp [posBlockWith]; omega)]
  simp [conePositionsWith, posBlockWith]

theorem tripleAt_coneWith_ring {F : Type} [Field F] (ops : FloatOps F) (radius height : F)
    (n i : Nat) (hi : i ≤ n) :
    tripleAt (conePositionsWith ops radius height n) (i + 1)
      = some (ringVertexWith ops radius (ops.sectorStep (n : Int)) i) := by
  rw [conePositionsWith_eq_blocks,
    tripleAt_blocks _ (posBlockWith_length ops radius height _ n) (show i + 1 < n + 3 by omega)]
  have h : posBlockWith ops radius height (ops.sectorStep (n : Int)) n (i + 1)
      = ringPosWith ops radius (ops.sectorStep (n : Int)) i := by
    unfold posBlockWith
    rw [if_neg (by omega), if_pos (by omega)]
    rfl
  rw [h]
  rfl

theorem tripleAt_coneWith_apex {F : Type} [Field F] (ops : FloatOps F) (radius height : F)
    (n : Nat) :
    tripleAt (conePositionsWith ops radius height n) (n + 2) = some ⟨0, height, 0⟩ := by
  rw [conePositionsWith_eq_blocks,
    tripleAt_blocks _ (posBlockWith_length ops radius height _ n) (show n + 2 < n + 3 by omega)]
  have h : posBlockWith ops radius height (ops.sectorStep (n : Int)) n (n + 2)
      = [0, height, 0] := by
    unfold posBlockWith
    rw [if_neg (by omega), if_neg (by omega)]
  rw [h]
  rfl

/-- With the operations that do not round, `ringStepWith` is `ringStep`. -/
theorem Cone.ringStepWith_exact {F : Type} [Field F] (cosf sinf : F → F) :
    Cone.ringStepWith (FloatOps.exact cosf sinf) = Cone.ringStep cosf sinf := by
  funext radius step st i
  simp [Cone.ringStepWith, Cone.ringStep, FloatOps.exact]

/-- With the operations that do not round, `newWith` is `new`. -/
theorem Cone.newWith_exact {F : Type} [Field F] (cosf sinf : F → F) (radius height : F)
    (sectorCount : Int) (amb diff spec : Vec3 F) (shiny : F) :
    Cone.newWith (FloatOps.exact cosf sinf) radius height sectorCount amb diff spec shiny
      = Cone.new cosf sinf radius height sectorCount amb diff spec shiny := by
  unfold Cone.newWith Cone.new Cone.buildCoordinatesAndIndicesWith
    Cone.buildCoordinatesAndIndices
  rw [Cone.ringStepWith_exact]
  rfl

/-- With the operations that do not round, `ringVertexWith` is `ringVertex`. -/
theorem ringVertexWith_exact {F : Type} [Field F] (cosf sinf : F → F) (radius step : F)
    (i : Nat) :
    ringVertexWith (FloatOps.exact cosf sinf) radius step i = ringVertex cosf sinf radius step i := by
  simp [ringVertexWith, ringVertex, FloatOps.exact]

/-- Two ring vertices whose loop counters convert to the same `float` are stored equal. -/
theorem ringVertexWith_congr {F : Type} [Field F] (ops : FloatOps F) (radius step : F)
    (i j : Nat) (h : ops.ofInt (i : Int) = ops.ofInt (j : Int)) :
    ringVertexWith ops radius step i = ringVertexWith ops radius step j := by
  unfold ringVertexWith
  rw [h]

/-- The loop counters `2 ^ 24` and `2 ^ 24 + 1` convert to the same `float`. -/
theorem ofInt_collision {F : Type} [Field F] (mul : F → F → F) (sectorStep : Int → F)
    (cosf sinf : F → F) :
    (FloatOps.binary32 mul sectorStep cosf sinf).ofInt ((16777216 : Nat) : Int)
      = (FloatOps.binary32 mul sectorStep cosf sinf).ofInt ((16777216 + 1 : Nat) : Int) := by
  show ((intToFloat ((16777216 : Nat) : Int) : Int) : F)
    = ((intToFloat ((16777216 + 1 : Nat) : Int) : Int) : F)
  have e1 : ((16777216 : Nat) : Int) = 16777216 := by norm_num
  have e2 : ((16777216 + 1 : Nat) : Int) = 16777217 := by norm_num
  rw [e1, e2, intToFloat_16777217, intToFloat_16777216]

/-! ## Rounding and the base circle -/

/-- Squares of a product computed with relative error at most `u ≤ 1`. -/
theorem sq_rounded_bounds (X P u : ℝ) (hu1 : u ≤ 1) (hX : |X - P| ≤ u * |P|) :
    (1 - u) ^ 2 * P ^ 2 ≤ X ^ 2 ∧ X ^ 2 ≤ (1 + u) ^ 2 * P ^ 2 := by
  have hP := abs_nonneg P
  have h1 : |X| ≤ (1 + u) * |P| := by
    have := abs_sub_abs_le_abs_sub X P
    linarith
  have h2 : (1 - u) * |P| ≤ |X| := by
    have := abs_sub_abs_le_abs_sub P X
    rw [abs_sub_comm P X] at this
    linarith
  have h3 : 0 ≤ (1 - u) * |P| := mul_nonneg (by linarith) hP
  have hXsq : X ^ 2 = |X| ^ 2 := (sq_abs X).symm
  have hPsq : P ^ 2 = |P| ^ 2 := (sq_abs P).symm
  constructor
  · rw [hXsq, hPsq, ← mul_pow]
    exact pow_le_pow_left₀ h3 h2 2
  · rw [hXsq, hPsq, ← mul_pow]
    exact pow_le_pow_left₀ (abs_nonneg X) h1 2

/-- The sum of squares of an approximate cosine and sine, absolute errors at most `δ`. -/
theorem approx_cos_sin_sq (C S c s δ : ℝ) (hC : |C - c| ≤ δ) (hS : |S - s| ≤ δ)
    (hcs : c ^ 2 + s ^ 2 = 1) :
    |C ^ 2 + S ^ 2 - 1| ≤ (1 + 2 * δ) ^ 2 - 1 := by
  have hδ : 0 ≤ δ := le_trans (abs_nonneg _) hC
  have hc1 : |c| ≤ 1 := by
    rw [abs_le]
    constructor <;> nlinarith [sq_nonneg s, sq_nonneg (c - 1), sq_nonneg (c + 1)]
  have hs1 : |s| ≤ 1 := by
    rw [abs_le]
    constructor <;> nlinarith [sq_nonneg c, sq_nonneg (s - 1), sq_nonneg (s + 1)]
  have h1 : |c * (C - c)| ≤ δ := by
    rw [abs_mul]
    calc |c| * |C - c| ≤ 1 * δ := mul_le_mul hc1 hC (abs_nonneg _) (by norm_num)
      _ = δ := one_mul δ
  have h2 : |s * (S - s)| ≤ δ := by
    rw [abs_mul]
    calc |s| * |S - s| ≤ 1 * δ := mul_le_mul hs1 hS (abs_nonneg _) (by norm_num)
      _ = δ := one_mul δ
  have h3 : (C - c) ^ 2 ≤ δ ^ 2 := by
    rw [← sq_abs (C - c)]
    exact pow_le_pow_left₀ (abs_nonneg _) hC 2
  have h4 : (S - s) ^ 2 ≤ δ ^ 2 := by
    rw [← sq_abs (S - s)]
    exact pow_le_pow_left₀ (abs_nonneg _) hS 2
  have e : C ^ 2 + S ^ 2 - 1
      = (C - c) ^ 2 + (S - s) ^ 2 + 2 * (c * (C - c)) + 2 * (s * (S - s)) := by
    have : C ^ 2 + S ^ 2 - 1 = C ^ 2 + S ^ 2 - (c ^ 2 + s ^ 2) := by rw [hcs]
    rw [this]
    ring
  rw [abs_le] at h1 h2 ⊢
  rw [e]
  constructor
  · nlinarith [sq_nonneg (C - c), sq_nonneg (S - s), sq_nonneg δ]
  · nlinarith [sq_nonneg δ]

/-- A ring vertex computed with rounding stays near the base circle: with products of
relative error at most `u` and `cosf`, `sinf` of absolute error at most `δ`,
`|x² + z² − r²| ≤ (((1 + u)(1 + 2δ))² − 1)·r²`. -/
theorem circle_rounding_bound (r C S c s X Z u δ : ℝ) (hu0 : 0 ≤ u) (hu1 : u ≤ 1)
    (hX : |X - r * C| ≤ u * |r * C|) (hZ : |Z - r * S| ≤ u * |r * S|)
    (hC : |C - c| ≤ δ) (hS : |S - s| ≤ δ) (hcs : c ^ 2 + s ^ 2 = 1) :
    |X ^ 2 + Z ^ 2 - r ^ 2| ≤ (((1 + u) * (1 + 2 * δ)) ^ 2 - 1) * r ^ 2 := by
  have hδ : 0 ≤ δ := le_trans (abs_nonneg _) hC
  obtain ⟨hXl, hXu⟩ := sq_rounded_bounds X (r * C) u hu1 hX
  obtain ⟨hZl, hZu⟩ := sq_rounded_bounds Z (r * S) u hu1 hZ
  have hT := approx_cos_sin_sq C S c s δ hC hS hcs
  rw [abs_le] at hT
  obtain ⟨hTl, hTu⟩ := hT
  have hr : 0 ≤ r ^ 2 := sq_nonneg r
  have hB : 0 ≤ (1 + 2 * δ) ^ 2 - 1 := by nlinarith
  have hTu2 : r ^ 2 * (C ^ 2 + S ^ 2) ≤ r ^ 2 * (1 + 2 * δ) ^ 2 :=
    mul_le_mul_of_nonneg_left (by linarith) hr
  have hTl2 : r ^ 2 * (2 - (1 + 2 * δ) ^ 2) ≤ r ^ 2 * (C ^ 2 + S ^ 2) :=
    mul_le_mul_of_nonneg_left (by linarith) hr
  have h1u : 0 ≤ (1 + u) ^ 2 := sq_nonneg _
  have h1l : 0 ≤ (1 - u) ^ 2 := sq_nonneg _
  have hup : X ^ 2 + Z ^ 2 ≤ (1 + u) ^ 2 * (r ^ 2 * (1 + 2 * δ) ^ 2) := by
    have := mul_le_mul_of_nonneg_left hTu2 h1u
    have e : (1 + u) ^ 2 * (r * C) ^ 2 + (1 + u) ^ 2 * (r * S) ^ 2
        = (1 + u) ^ 2 * (r ^ 2 * (C ^ 2 + S ^ 2)) := by ring
    linarith
  have hlo : (1 - u) ^ 2 * (r ^ 2 * (2 - (1 + 2 * δ) ^ 2)) ≤ X ^ 2 + Z ^ 2 := by
    have := mul_le_mul_of_nonneg_left hTl2 h1l
    have e : (1 - u) ^ 2 * (r * C) ^ 2 + (1 - u) ^ 2 * (r * S) ^ 2
        = (1 - u) ^ 2 * (r ^ 2 * (C ^ 2 + S ^ 2)) := by ring
    linarith
  have hu2 : 0 ≤ 2 * u ^ 2 + 4 * u * ((1 + 2 * δ) ^ 2 - 1) :=
    add_nonneg (by positivity) (mul_nonneg (by positivity) hB)
  have key : 0 ≤ r ^ 2 * (2 * u ^ 2 + 4 * u * ((1 + 2 * δ) ^ 2 - 1)) := mul_nonneg hr hu2
  have e1 : (((1 + u) * (1 + 2 * δ)) ^ 2 - 1) * r ^ 2
      = (1 + u) ^ 2 * (r ^ 2 * (1 + 2 * δ) ^ 2) - r ^ 2 := by ring
  have e2 : (1 - u) ^ 2 * (r ^ 2 * (2 - (1 + 2 * δ) ^ 2))
      = r ^ 2 - (((1 + u) * (1 + 2 * δ)) ^ 2 - 1) * r ^ 2
        + r ^ 2 * (2 * u ^ 2 + 4 * u * ((1 + 2 * δ) ^ 2 - 1)) := by ring
  rw [abs_le]
  constructor
  · linarith
  · linarith

/-! ## The cone in exact arithmetic -/

/-- In exact arithmetic ring vertex `i + 1` is at
`(radius·cos(i·step), 0, radius·sin(i·step))` with `step = 2·3.1416 / n`, on the circle of
radius `|radius|` about the axis. -/
theorem cone_ring_on_circle_exact (radius height : ℝ) (sectorCount : Int)
    (amb diff spec : Vec3 ℝ) (shiny : ℝ) (hsc : sectorCount < INT_MAX) :
    ∃ c, Cone.new Real.cos Real.sin radius height sectorCount amb diff spec shiny = some c ∧
      (PI : ℝ) = 3.1416 ∧
      ∀ i, i ≤ clamped sectorCount →
        ∃ v, c.positionAt (i + 1) = some v ∧
          v = ⟨radius * Real.cos ((i : ℝ) * (2 * PI / ((clamped sectorCount : Int) : ℝ))), 0,
               radius * Real.sin ((i : ℝ) * (2 * PI / ((clamped sectorCount : Int) : ℝ)))⟩ ∧
          v.y = 0 ∧ v.x ^ 2 + v.z ^ 2 = radius ^ 2 := by
  obtain ⟨c, hc, -, -, -, hco, -, -, -, -⟩ :=
    Cone.new_spec Real.cos Real.sin radius height sectorCount amb diff spec shiny hsc
  refine ⟨c, hc, rfl, fun i hi => ⟨_, ?_, rfl, rfl, ?_⟩⟩
  · unfold Cone.positionAt
    rw [hco, tripleAt_cone_ring _ _ _ _ _ i hi]
    rfl
  · have h := Real.cos_sq_add_sin_sq ((i : ℝ) * (2 * PI / ((clamped sectorCount : Int) : ℝ)))
    show (radius * Real.cos ((i : ℝ) * (2 * PI / ((clamped sectorCount : Int) : ℝ)))) ^ 2
      + (radius * Real.sin ((i : ℝ) * (2 * PI / ((clamped sectorCount : Int) : ℝ)))) ^ 2
      = radius ^ 2
    linear_combination (radius ^ 2) * h

/-- In exact arithmetic the first ring vertex is at `(radius, 0, 0)` and the last one, at
the angle `n·step = 2·3.1416 = 6.2832`, is at `(radius·cos 6.2832, 0, radius·sin 6.2832)`:
for `radius ≠ 0` a different point, within `1.3e-10·|radius|` in `x` and `1.6e-5·|radius|`
in `z`. -/
theorem cone_ring_closing_exact (radius height : ℝ) (sectorCount : Int)
    (amb diff spec : Vec3 ℝ) (shiny : ℝ) (hsc : sectorCount < INT_MAX) :
    ∃ c, Cone.new Real.cos Real.sin radius height sectorCount amb diff spec shiny = some c ∧
      c.positionAt 1 = some ⟨radius, 0, 0⟩ ∧
      c.positionAt (clamped sectorCount + 1)
        = some ⟨radius * Real.cos 6.2832, 0, radius * Real.sin 6.2832⟩ ∧
      (radius ≠ 0 →
        (⟨radius * Real.cos 6.2832, 0, radius * Real.sin 6.2832⟩ : Vec3 ℝ)
          ≠ ⟨radius, 0, 0⟩) ∧
      |radius * Real.cos 6.2832 - radius| ≤ 0.00000000013 * |radius| ∧
      |radius * Real.sin 6.2832| ≤ 0.000016 * |radius| := by
  obtain ⟨c, hc, -, -, -, hco, -, -, -, -⟩ :=
    Cone.new_spec Real.cos Real.sin radius height sectorCount amb diff spec shiny hsc
  have hn3 : 3 ≤ clamped sectorCount := (clamped_spec sectorCount).2
  have hang := closing_angle (clamped sectorCount) hn3
  have hs0 := sin_closing_pos
  have hs1 := sin_closing_lt
  have hc0 := cos_closing_gt
  have hc1 := cos_closing_lt_one
  refine ⟨c, hc, ?_, ?_, ?_, ?_, ?_⟩
  · unfold Cone.positionAt
    rw [hco, tripleAt_cone_ring _ _ _ _ _ 0 (by omega)]
    simp [ringVertex]
  · unfold Cone.positionAt
    rw [hco, tripleAt_cone_ring _ _ _ _ _ (clamped sectorCount) (le_refl _)]
    unfold ringVertex
    rw [hang]
  · intro hr h
    have hz : radius * Real.sin 6.2832 = 0 := by
      have := congrArg Vec3.z h
      simpa using this
    rcases mul_eq_zero.mp hz with h0 | h0
    · exact hr h0
    · linarith
  · have : radius * Real.cos 6.2832 - radius = radius * (Real.cos 6.2832 - 1) := by ring
    rw [this, abs_mul, mul_comm]
    apply mul_le_mul_of_nonneg_right _ (abs_nonneg radius)
    rw [abs_le]
    constructor <;> linarith
  · rw [abs_mul, mul_comm]
    apply mul_le_mul_of_nonneg_right _ (abs_nonneg radius)
    rw [abs_le]
    constructor <;> linarith

/-- The mesh does not depend on the material: two constructions with the same `radius`,
`height` and `sectorCount` give the same position list, normal list, vertex buffer and index
list, whatever material colours and shininess each is given. -/
theorem Cone.new_mesh_of_geometry {F : Type} [Field F] (cosf sinf : F → F) (radius height : F)
    (sectorCount : Int) (amb diff spec amb' diff' spec' : Vec3 F) (shiny shiny' : F) :
    (Cone.new cosf sinf radius height sectorCount amb diff spec shiny).map
        (fun c => (c.vertices, c.indices, c.coordinates, c.normals))
      = (Cone.new cosf sinf radius height sectorCount amb' diff' spec' shiny').map
        (fun c => (c.vertices, c.indices, c.coordinates, c.normals)) := by
  by_cases hsc : sectorCount < INT_MAX
  · rw [Cone.new_eq cosf sinf radius height sectorCount amb diff spec shiny hsc,
      Cone.new_eq cosf sinf radius height sectorCount amb' diff' spec' shiny' hsc]
    rfl
  · rw [Cone.new_eq_none cosf sinf radius height sectorCount amb diff spec shiny
        (not_lt.mp hsc),
      Cone.new_eq_none cosf sinf radius height sectorCount amb' diff' spec' shiny'
        (not_lt.mp hsc)]

/-! ## Claims -/

/-- C1 (counterexample).  At `sectorCount = 1431655763` the position list has
`3 * 1431655766 = 4294967298` floats, so `getVertexCount` returns
`(4294967298 mod 2^32) / 3 = 0`, and not even the index `0` that opens the first base
triangle is below it. -/
theorem cone_indices_lt_vertexCount_counterexample :
    ∃ c, Cone.new Real.cos Real.sin 1 2 1431655763 ⟨1, 0, 0⟩ ⟨1, 0, 0⟩ ⟨0.5, 0.5, 0.5⟩ 32
        = some c ∧
      c.coordinates.length = 4294967298 ∧ c.getVertexCount = 0 ∧ c.indices[0]? = some 0 ∧
      ¬ ∀ i ∈ c.indices, i < c.getVertexCount := by
  have hcl : clamped 1431655763 = 1431655763 := by
    unfold clamped
    rfl
  have h0 : (coneIndices 1431655763)[0]? = some 0 := by
    have h := coneIndices_base 1431655763 0 0 (by omega) (by omega)
    simpa [baseTri] using h
  obtain ⟨c, hc, -, -, -, hco, -, hix, -, -⟩ := Cone.new_spec Real.cos Real.sin 1 2 1431655763
    ⟨1, 0, 0⟩ ⟨1, 0, 0⟩ ⟨0.5, 0.5, 0.5⟩ 32 (by unfold INT_MAX; omega)
  rw [hcl] at hco hix
  have hlen : c.coordinates.length = 4294967298 := by rw [hco, conePositions_length]
  have hvc : c.getVertexCount = 0 := by
    unfold Cone.getVertexCount UINT_RANGE
    rw [hlen]
  refine ⟨c, hc, hlen, hvc, ?_, ?_⟩
  · rw [hix]
    exact h0
  · intro hall
    have hmem : 0 ∈ c.indices := by
      rw [hix]
      exact List.mem_iff_getElem?.mpr ⟨0, h0⟩
    have := hall 0 hmem
    omega

/-- C1 (amended).  For every radius, height and `sectorCount` for which the constructor
returns a cone (`sectorCount < INT_MAX`), with `n` the clamped sector count, the cone has
`n + 3` generated positions and every entry of its index list is below `n + 3` (lies in
`0 .. n + 2`).  `getVertexCount` returns `(3 (n + 3) mod 2^32) / 3`; whenever
`3 (n + 3) < 2^32` this is `n + 3` and every index is below `getVertexCount`. -/
theorem cone_indices_lt_vertexCount {F : Type} [Field F] (cosf sinf : F → F)
    (radius height : F) (sectorCount : Int) (amb diff spec : Vec3 F) (shiny : F)
    (hsc : sectorCount < INT_MAX) :
    ∃ c, Cone.new cosf sinf radius height sectorCount amb diff spec shiny = some c ∧
      c.coordinates.length = 3 * (clamped sectorCount + 3) ∧
      (∀ i ∈ c.indices, i < clamped sectorCount + 3) ∧
      c.getVertexCount = (3 * (clamped sectorCount + 3)) % UINT_RANGE / 3 ∧
      (3 * (clamped sectorCount + 3) < UINT_RANGE →
        c.getVertexCount = clamped sectorCount + 3 ∧
        ∀ i ∈ c.indices, i < c.getVertexCount) := by
  obtain ⟨c, hc, -, -, -, hco, -, hix, -, -⟩ :=
    Cone.new_spec cosf sinf radius height sectorCount amb diff spec shiny hsc
  have hlen : c.coordinates.length = 3 * (clamped sectorCount + 3) := by
    rw [hco, conePositions_length]
  have hlt : ∀ i ∈ c.indices, i < clamped sectorCount + 3 := by
    intro i hi
    rw [hix] at hi
    exact coneIndices_mem_lt _ i hi
  have hvc : c.getVertexCount = (3 * (clamped sectorCount + 3)) % UINT_RANGE / 3 := by
    unfold Cone.getVertexCount
    rw [hlen]
  refine ⟨c, hc, hlen, hlt, hvc, fun hfit => ?_⟩
  have hv : c.getVertexCount = clamped sectorCount + 3 := by
    rw [hvc, Nat.mod_eq_of_lt hfit]
    omega
  exact ⟨hv, fun i hi => by rw [hv]; exact hlt i hi⟩

/-- C1 (witness): the default cone, `sectorCount = 20`. -/
theorem cone_indices_lt_vertexCount_witness :
    (20 : Int) < INT_MAX ∧
    ∃ c, Cone.new Real.cos Real.sin 1 2 20 ⟨1, 0, 0⟩ ⟨1, 0, 0⟩ ⟨0.5, 0.5, 0.5⟩ 32 = some c ∧
      c.coordinates.length = 3 * (clamped 20 + 3) ∧
      (∀ i ∈ c.indices, i < clamped 20 + 3) ∧
      c.getVertexCount = (3 * (clamped 20 + 3)) % UINT_RANGE / 3 ∧
      (3 * (clamped 20 + 3) < UINT_RANGE →
        c.getVertexCount = clamped 20 + 3 ∧ ∀ i ∈ c.indices, i < c.getVertexCount) :=
  ⟨by decide, cone_indices_lt_vertexCount Real.cos Real.sin 1 2 20 ⟨1, 0, 0⟩ ⟨1, 0, 0⟩
    ⟨0.5, 0.5, 0.5⟩ 32 (by decide)⟩

/-- C2.  `Cone::set` clamps the sector count and never rejects it: for every `sectorCount`
the stored value is `max sectorCount 3`.  Hence for fixed radius and height every
`sectorCount ≤ 3` (in particular `1`) gives a cone, and its vertex buffer and index list are
those of the cone built with `sectorCount = 3`, whatever the materials: 6 vertices
(36 floats) and 18 indices. -/
theorem cone_set_clamps_sectorCount {F : Type} [Field F] (cosf sinf : F → F) (c0 : Cone F)
    (radius height : F) (sectorCount : Int) (amb diff spec amb' diff' spec' : Vec3 F)
    (shiny shiny' : F) :
    (Cone.set c0 radius height sectorCount amb diff spec shiny).sectorCount
        = max sectorCount 3 ∧
    (sectorCount ≤ 3 →
      ∃ c c3, Cone.new cosf sinf radius height sectorCount amb diff spec shiny = some c ∧
        Cone.new cosf sinf radius height 3 amb' diff' spec' shiny' = some c3 ∧
        c.sectorCount = 3 ∧ c.vertices = c3.vertices ∧ c.indices = c3.indices ∧
        c.coordinates.length = 3 * 6 ∧ c.getVertexCount = 6 ∧ c.vertices.length = 6 * 6 ∧
        c.indices.length = 18 ∧ c.getIndexCount = 18) ∧
    Cone.new cosf sinf radius height 1 amb diff spec shiny
      = Cone.new cosf sinf radius height 3 amb diff spec shiny := by
  refine ⟨?_, fun hle => ?_, ?_⟩
  · simp only [Cone.set]
    split <;> omega
  · have hsc : sectorCount < INT_MAX := by unfold INT_MAX; omega
    have h3 : (3 : Int) < INT_MAX := by unfold INT_MAX; omega
    obtain ⟨c, hc, -, -, hs, hco, -, hix, hvs, -⟩ :=
      Cone.new_spec cosf sinf radius height sectorCount amb diff spec shiny hsc
    obtain ⟨c3, hc3, -, -, -, -, -, hix3, hvs3, -⟩ :=
      Cone.new_spec cosf sinf radius height 3 amb' diff' spec' shiny' h3
    have e : clamped sectorCount = 3 := clamped_of_le sectorCount hle
    have e3 : clamped 3 = 3 := clamped_of_le 3 (le_refl _)
    rw [e] at hs hco hix hvs
    rw [e3] at hix3 hvs3
    have hlen : c.coordinates.length = 3 * 6 := by rw [hco, conePositions_length]
    have hil : c.indices.length = 18 := by rw [hix, coneIndices_length]
    refine ⟨c, c3, hc, hc3, by rw [hs]; rfl, by rw [hvs, hvs3], by rw [hix, hix3], hlen,
      ?_, ?_, hil, ?_⟩
    · unfold Cone.getVertexCount UINT_RANGE
      rw [hlen]
    · rw [hvs, blocks_vertexBlock_length]
    · unfold Cone.getIndexCount UINT_RANGE
      rw [hil]
  · rw [Cone.new_eq cosf sinf radius height 1 amb diff spec shiny (by unfold INT_MAX; omega),
      Cone.new_eq cosf sinf radius height 3 amb diff spec shiny (by unfold INT_MAX; omega),
      clamped_of_le 1 (by omega), clamped_of_le 3 (le_refl _)]

/-- C2 (witness): `sectorCount = 1` against `sectorCount = 3`, default radius and height. -/
theorem cone_set_clamps_sectorCount_witness :
    (1 : Int) ≤ 3 ∧
    ∃ c c3, Cone.new Real.cos Real.sin 1 2 1 ⟨1, 0, 0⟩ ⟨1, 0, 0⟩ ⟨0.5, 0.5, 0.5⟩ 32 = some c ∧
      Cone.new Real.cos Real.sin 1 2 3 ⟨1, 0, 0⟩ ⟨1, 0, 0⟩ ⟨0.5, 0.5, 0.5⟩ 32 = some c3 ∧
      c.sectorCount = 3 ∧ c.vertices = c3.vertices ∧ c.indices = c3.indices ∧
      c.coordinates.length = 3 * 6 ∧ c.getVertexCount = 6 ∧ c.vertices.length = 6 * 6 ∧
      c.indices.length = 18 ∧ c.getIndexCount = 18 :=
  ⟨by decide, (cone_set_clamps_sectorCount Real.cos Real.sin Cone.fresh 1 2 1 ⟨1, 0, 0⟩
    ⟨1, 0, 0⟩ ⟨0.5, 0.5, 0.5⟩ ⟨1, 0, 0⟩ ⟨1, 0, 0⟩ ⟨0.5, 0.5, 0.5⟩ 32 32).2.1 (by decide)⟩

/-- C3.  For every cone (any `sectorCount < INT_MAX`, the inputs for which the constructor
returns), with `n` the clamped sector count, the generator emits exactly `n + 3` vertices in
this order: the base center `(0, 0, 0)`, then the `n + 1` ring vertices, then the apex
`(0, height, 0)`; the position list and the normal list each hold `3 (n + 3)` floats.  The
default `sectorCount = 20` gives 23 vertices and `sectorCount = 36` gives 39. -/
theorem cone_vertex_layout {F : Type} [Field F] (cosf sinf : F → F) (radius height : F)
    (sectorCount : Int) (amb diff spec : Vec3 F) (shiny : F) (hsc : sectorCount < INT_MAX) :
    ∃ c ring, Cone.new cosf sinf radius height sectorCount amb diff spec shiny = some c ∧
      c.coordinates = [0, 0, 0] ++ ring ++ [0, height, 0] ∧
      ring.length = 3 * (clamped sectorCount + 1) ∧
      (∀ i, i ≤ clamped sectorCount → tripleAt ring i = some
        ⟨radius * cosf ((i : F) * (2 * PI / ((clamped sectorCount : Int) : F))), 0,
         radius * sinf ((i : F) * (2 * PI / ((clamped sectorCount : Int) : F)))⟩) ∧
      c.coordinates.length = 3 * (clamped sectorCount + 3) ∧
      c.normals.length = 3 * (clamped sectorCount + 3) ∧
      c.vertices.length = 6 * (clamped sectorCount + 3) ∧
      clamped 20 + 3 = 23 ∧ clamped 36 + 3 = 39 := by
  obtain ⟨c, hc, -, -, -, hco, hno, -, hvs, -⟩ :=
    Cone.new_spec cosf sinf radius height sectorCount amb diff spec shiny hsc
  refine ⟨c, blocks (ringPos cosf sinf radius (2 * PI / ((clamped sectorCount : Int) : F)))
    (clamped sectorCount + 1), hc, ?_, ?_, ?_, ?_, ?_, ?_, ?_, ?_⟩
  · rw [hco]; rfl
  · exact blocks_ringPos_length _ _ _ _ _
  · intro i hi
    rw [tripleAt_blocks (ringPos cosf sinf radius (2 * PI / ((clamped sectorCount : Int) : F)))
      (fun _ => rfl) (show i < clamped sectorCount + 1 by omega)]
    rfl
  · rw [hco, conePositions_length]
  · rw [hno, coneNormals_length]
  · rw [hvs, blocks_vertexBlock_length]
  · rfl
  · rfl

/-- C3 (witness): the cone of `drawGhostSculpture`, `Cone(1.0f, 2.0f, 36, ..)`. -/
theorem cone_vertex_layout_witness :
    (36 : Int) < INT_MAX ∧
    ∃ c ring, Cone.new Real.cos Real.sin 1 2 36 ⟨0, 0, 0⟩ ⟨0, 0, 0⟩ ⟨0, 0, 0⟩ 32 = some c ∧
      c.coordinates = [0, 0, 0] ++ ring ++ [0, 2, 0] ∧
      ring.length = 3 * (clamped 36 + 1) ∧
      (∀ i, i ≤ clamped 36 → tripleAt ring i = some
        ⟨1 * Real.cos ((i : ℝ) * (2 * PI / ((clamped 36 : Int) : ℝ))), 0,
         1 * Real.sin ((i : ℝ) * (2 * PI / ((clamped 36 : Int) : ℝ)))⟩) ∧
      c.coordinates.length = 3 * (clamped 36 + 3) ∧
      c.normals.length = 3 * (clamped 36 + 3) ∧
      c.vertices.length = 6 * (clamped 36 + 3) ∧
      clamped 20 + 3 = 23 ∧ clamped 36 + 3 = 39 :=
  ⟨by decide, cone_vertex_layout Real.cos Real.sin 1 2 36 ⟨0, 0, 0⟩ ⟨0, 0, 0⟩ ⟨0, 0, 0⟩ 32
    (by decide)⟩

/-- C4 (counterexample).  At `sectorCount = 715827883` the index list has
`6 * 715827883 = 4294967298` entries, and `getIndexCount` returns
`4294967298 mod 2^32 = 2`, not `6 n`. -/
theorem cone_index_count_counterexample :
    ∃ c, Cone.new Real.cos Real.sin 1 2 715827883 ⟨1, 0, 0⟩ ⟨1, 0, 0⟩ ⟨0.5, 0.5, 0.5⟩ 32
        = some c ∧
      c.indices.length = 6 * 715827883 ∧ c.getIndexCount = 2 ∧
      c.getIndexCount ≠ 6 * 715827883 := by
  have hcl : clamped 715827883 = 715827883 := by
    unfold clamped
    rfl
  obtain ⟨c, hc, -, -, -, -, -, hix, -, -⟩ := Cone.new_spec Real.cos Real.sin 1 2 715827883
    ⟨1, 0, 0⟩ ⟨1, 0, 0⟩ ⟨0.5, 0.5, 0.5⟩ 32 (by unfold INT_MAX; omega)
  rw [hcl] at hix
  have hlen : c.indices.length = 6 * 715827883 := by rw [hix, coneIndices_length]
  have hic : c.getIndexCount = 2 := by
    unfold Cone.getIndexCount UINT_RANGE
    rw [hlen]
  exact ⟨c, hc, hlen, hic, by rw [hic]; omega⟩

/-- C4 (amended).  For every cone (any `sectorCount < INT_MAX`), with `n` the clamped sector
count, the index list has exactly `6 n` entries, `3 n` for the `n` base triangles followed
by `3 n` for the `n` side triangles, so its length is a multiple of 3.  `getIndexCount`
returns `6 n mod 2^32`, which is `6 n` whenever `6 n < 2^32`. -/
theorem cone_index_count {F : Type} [Field F] (cosf sinf : F → F) (radius height : F)
    (sectorCount : Int) (amb diff spec : Vec3 F) (shiny : F) (hsc : sectorCount < INT_MAX) :
    ∃ c base side, Cone.new cosf sinf radius height sectorCount amb diff spec shiny = some c ∧
      c.indices = base ++ side ∧
      base.length = 3 * clamped sectorCount ∧ side.length = 3 * clamped sectorCount ∧
      (∀ i ∈ base, i ≤ clamped sectorCount + 1) ∧
      (∀ k, k < clamped sectorCount → side[3 * k + 2]? = some (clamped sectorCount + 2)) ∧
      c.indices.length = 6 * clamped sectorCount ∧ 3 ∣ c.indices.length ∧
      c.getIndexCount = (6 * clamped sectorCount) % UINT_RANGE ∧
      (6 * clamped sectorCount < UINT_RANGE → c.getIndexCount = 6 * clamped sectorCount) := by
  obtain ⟨c, hc, -, -, -, -, -, hix, -, -⟩ :=
    Cone.new_spec cosf sinf radius height sectorCount amb diff spec shiny hsc
  have hlen : c.indices.length = 6 * clamped sectorCount := by rw [hix, coneIndices_length]
  have hic : c.getIndexCount = (6 * clamped sectorCount) % UINT_RANGE := by
    unfold Cone.getIndexCount
    rw [hlen]
  refine ⟨c, blocks baseTri (clamped sectorCount),
    blocks (sideTri (clamped sectorCount + 2)) (clamped sectorCount), hc, ?_,
    blocks_baseTri_length _, blocks_sideTri_length _ _, ?_, ?_, hlen, ?_, hic, ?_⟩
  · rw [hix]; rfl
  · intro i hi
    obtain ⟨k, hk, hm⟩ := (blocks_mem baseTri _ i).mp hi
    simp [baseTri] at hm
    omega
  · intro k hk
    rw [blocks_getElem? (sideTri (clamped sectorCount + 2)) 3 (fun _ => rfl) hk
      (show 2 < 3 by omega)]
    rfl
  · rw [hlen]
    exact ⟨2 * clamped sectorCount, by ring⟩
  · intro hfit
    rw [hic, Nat.mod_eq_of_lt hfit]

/-- C4 (witness): the default cone, `sectorCount = 20`. -/
theorem cone_index_count_witness :
    (20 : Int) < INT_MAX ∧
    ∃ c base side, Cone.new Real.cos Real.sin 1 2 20 ⟨1, 0, 0⟩ ⟨1, 0, 0⟩ ⟨0.5, 0.5, 0.5⟩ 32
        = some c ∧
      c.indices = base ++ side ∧
      base.length = 3 * clamped 20 ∧ side.length = 3 * clamped 20 ∧
      (∀ i ∈ base, i ≤ clamped 20 + 1) ∧
      (∀ k, k < clamped 20 → side[3 * k + 2]? = some (clamped 20 + 2)) ∧
      c.indices.length = 6 * clamped 20 ∧ 3 ∣ c.indices.length ∧
      c.getIndexCount = (6 * clamped 20) % UINT_RANGE ∧
      (6 * clamped 20 < UINT_RANGE → c.getIndexCount = 6 * clamped 20) :=
  ⟨by decide, cone_index_count Real.cos Real.sin 1 2 20 ⟨1, 0, 0⟩ ⟨1, 0, 0⟩ ⟨0.5, 0.5, 0.5⟩ 32
    (by decide)⟩

/-- C5.  For every cone (any radius, height and `sectorCount < INT_MAX`), every one of the
`n + 3` generated vertex normals is `(0, -1, 0)` or `(0, 1, 0)`, in the normal list and in
the interleaved vertex buffer alike, so `x² + y² + z² = 1` for every vertex. -/
theorem cone_normals_unit {F : Type} [Field F] (cosf sinf : F → F) (radius height : F)
    (sectorCount : Int) (amb diff spec : Vec3 F) (shiny : F) (hsc : sectorCount < INT_MAX) :
    ∃ c, Cone.new cosf sinf radius height sectorCount amb diff spec shiny = some c ∧
      c.normals.length = 3 * (clamped sectorCount + 3) ∧
      ∀ k, k < clamped sectorCount + 3 →
        ∃ v, tripleAt c.normals k = some v ∧
          (v = ⟨0, -1, 0⟩ ∨ v = ⟨0, 1, 0⟩) ∧
          v.x * v.x + v.y * v.y + v.z * v.z = 1 ∧
          c.vertices[6 * k + 3]? = some v.x ∧ c.vertices[6 * k + 4]? = some v.y ∧
          c.vertices[6 * k + 5]? = some v.z := by
  obtain ⟨c, hc, -, -, -, -, hno, -, hvs, -⟩ :=
    Cone.new_spec cosf sinf radius height sectorCount amb diff spec shiny hsc
  refine ⟨c, hc, by rw [hno, coneNormals_length], fun k hk => ?_⟩
  have ht : tripleAt c.normals k
      = some (if k ≤ clamped sectorCount + 1 then ⟨0, -1, 0⟩ else ⟨0, 1, 0⟩) := by
    rw [hno, tripleAt_coneNormals _ k hk, tripleAt_normBlock]
  obtain ⟨t0, t1, t2⟩ := tripleAt_eq_some ht
  have hv := fun j (hj : j < 3) => (vertexBlock_getElem?
    (conePositions cosf sinf radius height (clamped sectorCount))
    (coneNormals (F := F) (clamped sectorCount)) (clamped sectorCount + 3) k j
    (conePositions_length _ _ _ _ _) (coneNormals_length _) hk hj).2
  have v0 := hv 0 (by omega)
  have v1 := hv 1 (by omega)
  have v2 := hv 2 (by omega)
  rw [← hvs, ← hno] at v0 v1 v2
  refine ⟨_, ht, ?_, ?_, v0.trans t0, v1.trans t1, v2.trans t2⟩
  · split
    · exact Or.inl rfl
    · exact Or.inr rfl
  · split <;> simp

/-- C5 (witness): the default cone, `sectorCount = 20`. -/
theorem cone_normals_unit_witness :
    (20 : Int) < INT_MAX ∧
    ∃ c, Cone.new Real.cos Real.sin 1 2 20 ⟨1, 0, 0⟩ ⟨1, 0, 0⟩ ⟨0.5, 0.5, 0.5⟩ 32 = some c ∧
      c.normals.length = 3 * (clamped 20 + 3) ∧
      ∀ k, k < clamped 20 + 3 →
        ∃ v : Vec3 ℝ, tripleAt c.normals k = some v ∧
          (v = ⟨0, -1, 0⟩ ∨ v = ⟨0, 1, 0⟩) ∧
          v.x * v.x + v.y * v.y + v.z * v.z = 1 ∧
          c.vertices[6 * k + 3]? = some v.x ∧ c.vertices[6 * k + 4]? = some v.y ∧
          c.vertices[6 * k + 5]? = some v.z :=
  ⟨by decide, cone_normals_unit Real.cos Real.sin 1 2 20 ⟨1, 0, 0⟩ ⟨1, 0, 0⟩ ⟨0.5, 0.5, 0.5⟩ 32
    (by decide)⟩

/-- C6.  For every cone (any `sectorCount < INT_MAX`), with `n` the clamped sector count,
the apex index used by every side triangle is `n + 2`, the index of the last of the `n + 3`
vertices, and the vertex stored there is the apex `(0, height, 0)`, in the position list and
in the interleaved vertex buffer. -/
theorem cone_apex_is_last_vertex {F : Type} [Field F] (cosf sinf : F → F) (radius height : F)
    (sectorCount : Int) (amb diff spec : Vec3 F) (shiny : F) (hsc : sectorCount < INT_MAX) :
    ∃ c, Cone.new cosf sinf radius height sectorCount amb diff spec shiny = some c ∧
      c.coordinates.length / 3 - 1 = clamped sectorCount + 2 ∧
      (3 * (clamped sectorCount + 3) < UINT_RANGE →
        c.getVertexCount - 1 = clamped sectorCount + 2) ∧
      (∀ k, k < clamped sectorCount →
        c.indices[3 * (clamped sectorCount + k) + 2]? = some (clamped sectorCount + 2)) ∧
      tripleAt c.coordinates (clamped sectorCount + 2) = some ⟨0, height, 0⟩ ∧
      c.vertices[6 * (clamped sectorCount + 2)]? = some 0 ∧
      c.vertices[6 * (clamped sectorCount + 2) + 1]? = some height ∧
      c.vertices[6 * (clamped sectorCount + 2) + 2]? = some 0 := by
  obtain ⟨c, hc, -, -, -, hco, hno, hix, hvs, -⟩ :=
    Cone.new_spec cosf sinf radius height sectorCount amb diff spec shiny hsc
  have hlen : c.coordinates.length = 3 * (clamped sectorCount + 3) := by
    rw [hco, conePositions_length]
  have hk : clamped sectorCount + 2 < clamped sectorCount + 3 := by omega
  have ht : tripleAt c.coordinates (clamped sectorCount + 2) = some ⟨0, height, 0⟩ := by
    rw [hco, tripleAt_conePositions _ _ _ _ _ _ hk, tripleAt_posBlock]
    simp
  obtain ⟨t0, t1, t2⟩ := tripleAt_eq_some ht
  have hv := fun j (hj : j < 3) => (vertexBlock_getElem?
    (conePositions cosf sinf radius height (clamped sectorCount))
    (coneNormals (F := F) (clamped sectorCount)) (clamped sectorCount + 3)
    (clamped sectorCount + 2) j
    (conePositions_length _ _ _ _ _) (coneNormals_length _) hk hj).1
  have v0 := hv 0 (by omega)
  have v1 := hv 1 (by omega)
  have v2 := hv 2 (by omega)
  rw [← hvs, ← hco] at v0 v1 v2
  refine ⟨c, hc, by rw [hlen]; omega, fun hfit => ?_, fun k hk => ?_, ht,
    v0.trans t0, v1.trans t1, v2.trans t2⟩
  · unfold Cone.getVertexCount
    rw [hlen, Nat.mod_eq_of_lt hfit]
    omega
  · rw [hix, coneIndices_side _ k 2 hk (by omega)]
    rfl

/-- C6 (witness): the default cone, `sectorCount = 20`, `height = 2`. -/
theorem cone_apex_is_last_vertex_witness :
    (20 : Int) < INT_MAX ∧
    ∃ c, Cone.new Real.cos Real.sin 1 2 20 ⟨1, 0, 0⟩ ⟨1, 0, 0⟩ ⟨0.5, 0.5, 0.5⟩ 32 = some c ∧
      c.coordinates.length / 3 - 1 = clamped 20 + 2 ∧
      (3 * (clamped 20 + 3) < UINT_RANGE → c.getVertexCount - 1 = clamped 20 + 2) ∧
      (∀ k, k < clamped 20 → c.indices[3 * (clamped 20 + k) + 2]? = some (clamped 20 + 2)) ∧
      tripleAt c.coordinates (clamped 20 + 2) = some ⟨0, 2, 0⟩ ∧
      c.vertices[6 * (clamped 20 + 2)]? = some 0 ∧
      c.vertices[6 * (clamped 20 + 2) + 1]? = some 2 ∧
      c.vertices[6 * (clamped 20 + 2) + 2]? = some 0 :=
  ⟨by decide, cone_apex_is_last_vertex Real.cos Real.sin 1 2 20 ⟨1, 0, 0⟩ ⟨1, 0, 0⟩
    ⟨0.5, 0.5, 0.5⟩ 32 (by decide)⟩

/-- C7.  `Cone::buildVertices` interleaves positions and normals in generation order: for
every cone (any `sectorCount < INT_MAX`), with `n + 3` generated vertices, the vertex buffer
has `6 (n + 3)` floats, and for every vertex `k < n + 3` the floats `6k .. 6k+2` are the
`k`-th position and the floats `6k+3 .. 6k+5` are the `k`-th normal. -/
theorem cone_vertices_interleaved {F : Type} [Field F] (cosf sinf : F → F)
    (radius height : F) (sectorCount : Int) (amb diff spec : Vec3 F) (shiny : F)
    (hsc : sectorCount < INT_MAX) :
    ∃ c, Cone.new cosf sinf radius height sectorCount amb diff spec shiny = some c ∧
      c.coordinates.length = 3 * (clamped sectorCount + 3) ∧
      c.normals.length = 3 * (clamped sectorCount + 3) ∧
      c.vertices.length = 6 * (clamped sectorCount + 3) ∧
      ∀ k, k < clamped sectorCount + 3 →
        ∃ p n : Vec3 F, tripleAt c.coordinates k = some p ∧ tripleAt c.normals k = some n ∧
          c.vertices[6 * k]? = some p.x ∧ c.vertices[6 * k + 1]? = some p.y ∧
          c.vertices[6 * k + 2]? = some p.z ∧ c.vertices[6 * k + 3]? = some n.x ∧
          c.vertices[6 * k + 4]? = some n.y ∧ c.vertices[6 * k + 5]? = some n.z := by
  obtain ⟨c, hc, -, -, -, hco, hno, -, hvs, -⟩ :=
    Cone.new_spec cosf sinf radius height sectorCount amb diff spec shiny hsc
  refine ⟨c, hc, by rw [hco, conePositions_length], by rw [hno, coneNormals_length],
    by rw [hvs, blocks_vertexBlock_length], fun k hk => ?_⟩
  have hp : ∃ p, tripleAt c.coordinates k = some p := by
    rw [hco, tripleAt_conePositions _ _ _ _ _ _ hk, tripleAt_posBlock]
    exact ⟨_, rfl⟩
  have hn : ∃ n, tripleAt c.normals k = some n := by
    rw [hno, tripleAt_coneNormals _ k hk, tripleAt_normBlock]
    exact ⟨_, rfl⟩
  obtain ⟨p, hp⟩ := hp
  obtain ⟨n, hn⟩ := hn
  obtain ⟨p0, p1, p2⟩ := tripleAt_eq_some hp
  obtain ⟨n0, n1, n2⟩ := tripleAt_eq_some hn
  have hv := fun j (hj : j < 3) => vertexBlock_getElem?
    (conePositions cosf sinf radius height (clamped sectorCount))
    (coneNormals (F := F) (clamped sectorCount)) (clamped sectorCount + 3) k j
    (conePositions_length _ _ _ _ _) (coneNormals_length _) hk hj
  have v0 := hv 0 (by omega)
  have v1 := hv 1 (by omega)
  have v2 := hv 2 (by omega)
  rw [← hvs, ← hco, ← hno] at v0 v1 v2
  exact ⟨p, n, hp, hn, v0.1.trans p0, v1.1.trans p1, v2.1.trans p2,
    v0.2.trans n0, v1.2.trans n1, v2.2.trans n2⟩

/-- C7 (witness): the default cone, `sectorCount = 20`. -/
theorem cone_vertices_interleaved_witness :
    (20 : Int) < INT_MAX ∧
    ∃ c, Cone.new Real.cos Real.sin 1 2 20 ⟨1, 0, 0⟩ ⟨1, 0, 0⟩ ⟨0.5, 0.5, 0.5⟩ 32 = some c ∧
      c.coordinates.length = 3 * (clamped 20 + 3) ∧
      c.normals.length = 3 * (clamped 20 + 3) ∧
      c.vertices.length = 6 * (clamped 20 + 3) ∧
      ∀ k, k < clamped 20 + 3 →
        ∃ p n : Vec3 ℝ, tripleAt c.coordinates k = some p ∧ tripleAt c.normals k = some n ∧
          c.vertices[6 * k]? = some p.x ∧ c.vertices[6 * k + 1]? = some p.y ∧
          c.vertices[6 * k + 2]? = some p.z ∧ c.vertices[6 * k + 3]? = some n.x ∧
          c.vertices[6 * k + 4]? = some n.y ∧ c.vertices[6 * k + 5]? = some n.z :=
  ⟨by decide, cone_vertices_interleaved Real.cos Real.sin 1 2 20 ⟨1, 0, 0⟩ ⟨1, 0, 0⟩
    ⟨0.5, 0.5, 0.5⟩ 32 (by decide)⟩

/-- C8.  For every cone whose sizes fit in 32 bits (`24 (n + 3) < 2^32` for the clamped
sector count `n`), `getVertexSize` is the stride `verticesStride = 24` times the vertex
count, that is `24 (n + 3)`, and `getIndexSize` is 4 times the index count, that is
`24 n`. -/
theorem cone_buffer_byte_sizes {F : Type} [Field F] (cosf sinf : F → F) (radius height : F)
    (sectorCount : Int) (amb diff spec : Vec3 F) (shiny : F)
    (hfit : 24 * (clamped sectorCount + 3) < UINT_RANGE) :
    ∃ c, Cone.new cosf sinf radius height sectorCount amb diff spec shiny = some c ∧
      c.verticesStride = 24 ∧
      c.getVertexCount = clamped sectorCount + 3 ∧
      c.getIndexCount = 6 * clamped sectorCount ∧
      (c.getVertexSize : Int) = c.verticesStride * (c.getVertexCount : Int) ∧
      c.getVertexSize = 24 * (clamped sectorCount + 3) ∧
      c.getIndexSize = 4 * c.getIndexCount ∧
      c.getIndexSize = 24 * clamped sectorCount := by
  have hsc : sectorCount < INT_MAX := by
    unfold clamped UINT_RANGE at hfit
    unfold INT_MAX
    split at hfit <;> omega
  unfold UINT_RANGE at hfit
  obtain ⟨c, hc, -, -, -, hco, -, hix, hvs, hst⟩ :=
    Cone.new_spec cosf sinf radius height sectorCount amb diff spec shiny hsc
  have hlen : c.coordinates.length = 3 * (clamped sectorCount + 3) := by
    rw [hco, conePositions_length]
  have hvl : c.vertices.length = 6 * (clamped sectorCount + 3) := by
    rw [hvs, blocks_vertexBlock_length]
  have hil : c.indices.length = 6 * clamped sectorCount := by rw [hix, coneIndices_length]
  have hvc : c.getVertexCount = clamped sectorCount + 3 := by
    unfold Cone.getVertexCount UINT_RANGE
    rw [hlen]
    omega
  have hic : c.getIndexCount = 6 * clamped sectorCount := by
    unfold Cone.getIndexCount UINT_RANGE
    rw [hil]
    omega
  have hvz : c.getVertexSize = 24 * (clamped sectorCount + 3) := by
    unfold Cone.getVertexSize UINT_RANGE sizeofFloat
    rw [hvl]
    omega
  have hiz : c.getIndexSize = 24 * clamped sectorCount := by
    unfold Cone.getIndexSize UINT_RANGE sizeofUnsigned
    rw [hil]
    omega
  refine ⟨c, hc, hst, hvc, hic, ?_, hvz, ?_, hiz⟩
  · rw [hst, hvz, hvc]
    push_cast
    ring
  · rw [hiz, hic]
    omega

/-- C8 (witness): the default cone, `sectorCount = 20`: 23 vertices in 552 bytes, 120
indices in 480 bytes. -/
theorem cone_buffer_byte_sizes_witness :
    24 * (clamped 20 + 3) < UINT_RANGE ∧
    ∃ c, Cone.new Real.cos Real.sin 1 2 20 ⟨1, 0, 0⟩ ⟨1, 0, 0⟩ ⟨0.5, 0.5, 0.5⟩ 32 = some c ∧
      c.verticesStride = 24 ∧
      c.getVertexCount = clamped 20 + 3 ∧
      c.getIndexCount = 6 * clamped 20 ∧
      (c.getVertexSize : Int) = c.verticesStride * (c.getVertexCount : Int) ∧
      c.getVertexSize = 24 * (clamped 20 + 3) ∧
      c.getIndexSize = 4 * c.getIndexCount ∧
      c.getIndexSize = 24 * clamped 20 :=
  ⟨by decide, cone_buffer_byte_sizes Real.cos Real.sin 1 2 20 ⟨1, 0, 0⟩ ⟨1, 0, 0⟩
    ⟨0.5, 0.5, 0.5⟩ 32 (by decide)⟩

/-- C9 (counterexample).  With radius `0` and `sectorCount = INT_MAX` the ring loop
`for (int i = 0; i <= sectorCount; ++i)` cannot leave without overflowing `i`: the
constructor yields no cone, so "any sectorCount" does not hold. -/
theorem cone_zero_radius_counterexample :
    Cone.new Real.cos Real.sin 0 2 2147483647 ⟨1, 0, 0⟩ ⟨1, 0, 0⟩ ⟨0.5, 0.5, 0.5⟩ 32 = none ∧
    ¬ ∃ c, Cone.new Real.cos Real.sin 0 2 2147483647 ⟨1, 0, 0⟩ ⟨1, 0, 0⟩ ⟨0.5, 0.5, 0.5⟩ 32
      = some c := by
  have h : Cone.new Real.cos Real.sin 0 2 2147483647 ⟨1, 0, 0⟩ ⟨1, 0, 0⟩ ⟨0.5, 0.5, 0.5⟩ 32
      = none := Cone.new_eq_none _ _ _ _ _ _ _ _ _ (by unfold INT_MAX; omega)
  refine ⟨h, ?_⟩
  rintro ⟨c, hc⟩
  rw [h] at hc
  exact Option.noConfusion hc

/-- C9 (amended).  A cone built with radius `0`, any height and any `sectorCount < INT_MAX`
is generated; its index list is the index list of the cone with the same `sectorCount` and
any other radius, height, material and `cosf`/`sinf` (it depends on the clamped sector count
only), and every index is below the vertex count `n + 3`; every ring vertex `1 .. n + 1` is
at `(0, 0, 0)`, so every base triangle has its three corners at `(0, 0, 0)` and its face
normal `(v1 - v0) × (v2 - v0)` is zero (zero area). -/
theorem cone_zero_radius {F : Type} [Field F] (cosf sinf : F → F) (height : F)
    (sectorCount : Int) (amb diff spec : Vec3 F) (shiny : F) (hsc : sectorCount < INT_MAX) :
    ∃ c, Cone.new cosf sinf 0 height sectorCount amb diff spec shiny = some c ∧
      (∀ (cosf' sinf' : F → F) (radius' height' : F) (amb' diff' spec' : Vec3 F) (shiny' : F),
        ∃ c', Cone.new cosf' sinf' radius' height' sectorCount amb' diff' spec' shiny'
            = some c' ∧ c'.indices = c.indices) ∧
      (∀ i ∈ c.indices, i < clamped sectorCount + 3) ∧
      c.coordinates.length = 3 * (clamped sectorCount + 3) ∧
      (∀ k, 1 ≤ k → k ≤ clamped sectorCount + 1 →
        tripleAt c.coordinates k = some ⟨0, 0, 0⟩) ∧
      (∀ t, t < clamped sectorCount →
        c.triangle t = some (⟨0, 0, 0⟩, ⟨0, 0, 0⟩, ⟨0, 0, 0⟩) ∧
        faceNormal ((⟨0, 0, 0⟩, ⟨0, 0, 0⟩, ⟨0, 0, 0⟩) : Vec3 F × Vec3 F × Vec3 F)
          = ⟨0, 0, 0⟩) := by
  obtain ⟨c, hc, -, -, -, hco, -, hix, -, -⟩ :=
    Cone.new_spec cosf sinf 0 height sectorCount amb diff spec shiny hsc
  have hpos : ∀ k, k ≤ clamped sectorCount + 1 →
      tripleAt c.coordinates k = some ⟨0, 0, 0⟩ := by
    intro k hk
    rw [hco, tripleAt_conePositions _ _ _ _ _ _ (show k < clamped sectorCount + 3 by omega),
      tripleAt_posBlock]
    by_cases h0 : k = 0
    · simp [h0]
    · simp [h0, hk]
  refine ⟨c, hc, ?_, ?_, by rw [hco, conePositions_length], fun k _ hk => hpos k hk, ?_⟩
  · intro cosf' sinf' radius' height' amb' diff' spec' shiny'
    obtain ⟨c', hc', -, -, -, -, -, hix', -, -⟩ :=
      Cone.new_spec cosf' sinf' radius' height' sectorCount amb' diff' spec' shiny' hsc
    exact ⟨c', hc', by rw [hix', hix]⟩
  · intro i hi
    rw [hix] at hi
    exact coneIndices_mem_lt _ i hi
  · intro t ht
    have i0 : c.indices[3 * t]? = some 0 := by
      have h := coneIndices_base (clamped sectorCount) t 0 ht (by omega)
      rw [hix]
      simpa [baseTri] using h
    have i1 : c.indices[3 * t + 1]? = some (t + 1) := by
      have h := coneIndices_base (clamped sectorCount) t 1 ht (by omega)
      rw [hix]
      simpa [baseTri] using h
    have i2 : c.indices[3 * t + 2]? = some (t + 2) := by
      have h := coneIndices_base (clamped sectorCount) t 2 ht (by omega)
      rw [hix]
      simpa [baseTri] using h
    refine ⟨?_, ?_⟩
    · unfold Cone.triangle
      rw [i0, i1, i2]
      simp only [Option.bind_eq_bind, Option.some_bind]
      rw [hpos 0 (by omega), hpos (t + 1) (by omega), hpos (t + 2) (by omega)]
      rfl
    · simp [faceNormal, Vec3.cross, Vec3.sub]

/-- C9 (witness): radius `0` with the default height and sector count. -/
theorem cone_zero_radius_witness :
    (20 : Int) < INT_MAX ∧
    ∃ c, Cone.new Real.cos Real.sin 0 2 20 ⟨1, 0, 0⟩ ⟨1, 0, 0⟩ ⟨0.5, 0.5, 0.5⟩ 32 = some c ∧
      (∀ (cosf' sinf' : ℝ → ℝ) (radius' height' : ℝ) (amb' diff' spec' : Vec3 ℝ) (shiny' : ℝ),
        ∃ c', Cone.new cosf' sinf' radius' height' 20 amb' diff' spec' shiny'
            = some c' ∧ c'.indices = c.indices) ∧
      (∀ i ∈ c.indices, i < clamped 20 + 3) ∧
      c.coordinates.length = 3 * (clamped 20 + 3) ∧
      (∀ k, 1 ≤ k → k ≤ clamped 20 + 1 → tripleAt c.coordinates k = some ⟨0, 0, 0⟩) ∧
      (∀ t, t < clamped 20 →
        c.triangle t = some (⟨0, 0, 0⟩, ⟨0, 0, 0⟩, ⟨0, 0, 0⟩) ∧
        faceNormal ((⟨0, 0, 0⟩, ⟨0, 0, 0⟩, ⟨0, 0, 0⟩) : Vec3 ℝ × Vec3 ℝ × Vec3 ℝ)
          = ⟨0, 0, 0⟩) :=
  ⟨by decide, cone_zero_radius Real.cos Real.sin 2 20 ⟨1, 0, 0⟩ ⟨1, 0, 0⟩ ⟨0.5, 0.5, 0.5⟩ 32
    (by decide)⟩

/-- C11 (code bug, shown on the code).  For every cone with `radius > 0`, `height > 0` and
`sectorCount < INT_MAX`, each side triangle `(v0, v1, v2) = (ring k, ring k+1, apex)` has a
face normal `(v1 - v0) × (v2 - v0)` whose dot product with the horizontal vector from the
axis to the triangle's centroid is `-(2/3)·radius²·height·sin(step)`, which is strictly
negative: the side triangles face inward.  The base triangle `(center, ring k, ring k+1)`
runs along the same edge in the same direction and its face normal points down, out of the
solid, so the two fans of the one mesh are wound against each other. -/
theorem cone_side_winding_inward (radius height : ℝ) (sectorCount : Int)
    (amb diff spec : Vec3 ℝ) (shiny : ℝ) (hr : 0 < radius) (hh : 0 < height)
    (hsc : sectorCount < INT_MAX) :
    ∃ c, Cone.new Real.cos Real.sin radius height sectorCount amb diff spec shiny = some c ∧
      ∀ k, k < clamped sectorCount →
        ∃ side base, c.triangle (clamped sectorCount + k) = some side ∧
          c.triangle k = some base ∧
          side = (ringVertex Real.cos Real.sin radius
                    (2 * PI / ((clamped sectorCount : Int) : ℝ)) k,
                  ringVertex Real.cos Real.sin radius
                    (2 * PI / ((clamped sectorCount : Int) : ℝ)) (k + 1),
                  ⟨0, height, 0⟩) ∧
          Vec3.dot (faceNormal side) (centroidRadial side)
            = -(2 / 3) * radius ^ 2 * height
                * Real.sin (2 * PI / ((clamped sectorCount : Int) : ℝ)) ∧
          Vec3.dot (faceNormal side) (centroidRadial side) < 0 ∧
          base.2.1 = side.1 ∧ base.2.2 = side.2.1 ∧
          Vec3.dot (faceNormal base) ⟨0, -1, 0⟩ > 0 := by
  obtain ⟨c, hc, -, -, -, hco, -, hix, -, -⟩ :=
    Cone.new_spec Real.cos Real.sin radius height sectorCount amb diff spec shiny hsc
  have hn3 : 3 ≤ clamped sectorCount := (clamped_spec sectorCount).2
  have hsin := sin_step_pos (clamped sectorCount) hn3
  refine ⟨c, hc, fun k hk => ⟨_, _, Cone.triangle_side _ _ _ _ _ c hco hix k hk,
    Cone.triangle_base _ _ _ _ _ c hco hix k hk, rfl, ?_, ?_, rfl, rfl, ?_⟩⟩
  · have hid := sin_consecutive k (2 * PI / ((clamped sectorCount : Int) : ℝ))
    simp only [Vec3.dot, faceNormal, Vec3.cross, Vec3.sub, centroidRadial, ringVertex]
    linear_combination (2 / 3 * radius ^ 2 * height) * hid
  · have hid := sin_consecutive k (2 * PI / ((clamped sectorCount : Int) : ℝ))
    have hval : Vec3.dot
        (faceNormal (ringVertex Real.cos Real.sin radius
            (2 * PI / ((clamped sectorCount : Int) : ℝ)) k,
          ringVertex Real.cos Real.sin radius
            (2 * PI / ((clamped sectorCount : Int) : ℝ)) (k + 1),
          (⟨0, height, 0⟩ : Vec3 ℝ)))
        (centroidRadial (ringVertex Real.cos Real.sin radius
            (2 * PI / ((clamped sectorCount : Int) : ℝ)) k,
          ringVertex Real.cos Real.sin radius
            (2 * PI / ((clamped sectorCount : Int) : ℝ)) (k + 1),
          (⟨0, height, 0⟩ : Vec3 ℝ)))
        = -(2 / 3) * radius ^ 2 * height
            * Real.sin (2 * PI / ((clamped sectorCount : Int) : ℝ)) := by
      simp only [Vec3.dot, faceNormal, Vec3.cross, Vec3.sub, centroidRadial, ringVertex]
      linear_combination (2 / 3 * radius ^ 2 * height) * hid
    rw [hval]
    have : 0 < radius ^ 2 * height * Real.sin (2 * PI / ((clamped sectorCount : Int) : ℝ)) :=
      by positivity
    linarith
  · have hid := sin_consecutive k (2 * PI / ((clamped sectorCount : Int) : ℝ))
    have hval : Vec3.dot
        (faceNormal ((⟨0, 0, 0⟩ : Vec3 ℝ), ringVertex Real.cos Real.sin radius
            (2 * PI / ((clamped sectorCount : Int) : ℝ)) k,
          ringVertex Real.cos Real.sin radius
            (2 * PI / ((clamped sectorCount : Int) : ℝ)) (k + 1))) ⟨0, -1, 0⟩
        = radius ^ 2 * Real.sin (2 * PI / ((clamped sectorCount : Int) : ℝ)) := by
      simp only [Vec3.dot, faceNormal, Vec3.cross, Vec3.sub, ringVertex]
      linear_combination (-(radius ^ 2)) * hid
    rw [gt_iff_lt, hval]
    positivity

/-- C11 (evaluation at the failing input): the default cone `Cone(1.0f, 2.0f, 20)`. -/
theorem cone_side_winding_inward_witness :
    (0 : ℝ) < 1 ∧ (0 : ℝ) < 2 ∧ (20 : Int) < INT_MAX ∧
    ∃ c, Cone.new Real.cos Real.sin 1 2 20 ⟨1, 0, 0⟩ ⟨1, 0, 0⟩ ⟨0.5, 0.5, 0.5⟩ 32 = some c ∧
      ∀ k, k < clamped 20 →
        ∃ side base, c.triangle (clamped 20 + k) = some side ∧
          c.triangle k = some base ∧
          side = (ringVertex Real.cos Real.sin 1 (2 * PI / ((clamped 20 : Int) : ℝ)) k,
                  ringVertex Real.cos Real.sin 1 (2 * PI / ((clamped 20 : Int) : ℝ)) (k + 1),
                  ⟨0, 2, 0⟩) ∧
          Vec3.dot (faceNormal side) (centroidRadial side)
            = -(2 / 3) * 1 ^ 2 * 2 * Real.sin (2 * PI / ((clamped 20 : Int) : ℝ)) ∧
          Vec3.dot (faceNormal side) (centroidRadial side) < 0 ∧
          base.2.1 = side.1 ∧ base.2.2 = side.2.1 ∧
          Vec3.dot (faceNormal base) ⟨0, -1, 0⟩ > 0 :=
  ⟨by norm_num, by norm_num, by decide,
    cone_side_winding_inward 1 2 20 ⟨1, 0, 0⟩ ⟨1, 0, 0⟩ ⟨0.5, 0.5, 0.5⟩ 32 (by norm_num)
      (by norm_num) (by decide)⟩

/-- C14.  Normals by vertex role: for every cone (any `sectorCount < INT_MAX`), with `n` the
clamped sector count, vertex 0 is the base center at `(0, 0, 0)` with normal `(0, -1, 0)`,
every ring vertex `1 .. n + 1` has normal `(0, -1, 0)`, and the apex vertex `n + 2` has
normal `(0, 1, 0)`; no vertex has a normal with a horizontal component. -/
theorem cone_normals_by_role {F : Type} [Field F] (cosf sinf : F → F) (radius height : F)
    (sectorCount : Int) (amb diff spec : Vec3 F) (shiny : F) (hsc : sectorCount < INT_MAX) :
    ∃ c, Cone.new cosf sinf radius height sectorCount amb diff spec shiny = some c ∧
      c.positionAt 0 = some ⟨0, 0, 0⟩ ∧ c.normalAt 0 = some ⟨0, -1, 0⟩ ∧
      (∀ k, 1 ≤ k → k ≤ clamped sectorCount + 1 → c.normalAt k = some ⟨0, -1, 0⟩) ∧
      c.positionAt (clamped sectorCount + 2) = some ⟨0, height, 0⟩ ∧
      c.normalAt (clamped sectorCount + 2) = some ⟨0, 1, 0⟩ ∧
      c.normals.length = 3 * (clamped sectorCount + 3) ∧
      (∀ k, k < clamped sectorCount + 3 →
        ∃ v, c.normalAt k = some v ∧ v.x = 0 ∧ v.z = 0) := by
  obtain ⟨c, hc, -, -, -, hco, hno, -, -, -⟩ :=
    Cone.new_spec cosf sinf radius height sectorCount amb diff spec shiny hsc
  have hnorm : ∀ j, j < clamped sectorCount + 3 → c.normalAt j
      = some (if j ≤ clamped sectorCount + 1 then ⟨0, -1, 0⟩ else ⟨0, 1, 0⟩) := by
    intro j hj
    unfold Cone.normalAt
    rw [hno, tripleAt_coneNormals _ j hj, tripleAt_normBlock]
  refine ⟨c, hc, ?_, ?_, ?_, ?_, ?_, by rw [hno, coneNormals_length], ?_⟩
  · unfold Cone.positionAt
    rw [hco, tripleAt_cone_center]
  · rw [hnorm 0 (by omega), if_pos (by omega)]
  · intro k _ hk
    rw [hnorm k (by omega), if_pos hk]
  · unfold Cone.positionAt
    rw [hco, tripleAt_cone_apex]
  · rw [hnorm _ (by omega), if_neg (by omega)]
  · intro k hk
    by_cases hle : k ≤ clamped sectorCount + 1
    · exact ⟨_, by rw [hnorm k hk, if_pos hle], rfl, rfl⟩
    · exact ⟨_, by rw [hnorm k hk, if_neg hle], rfl, rfl⟩

/-- C14 (witness): the default cone, `sectorCount = 20`. -/
theorem cone_normals_by_role_witness :
    (20 : Int) < INT_MAX ∧
    ∃ c, Cone.new Real.cos Real.sin 1 2 20 ⟨1, 0, 0⟩ ⟨1, 0, 0⟩ ⟨0.5, 0.5, 0.5⟩ 32 = some c ∧
      c.positionAt 0 = some ⟨0, 0, 0⟩ ∧ c.normalAt 0 = some ⟨0, -1, 0⟩ ∧
      (∀ k, 1 ≤ k → k ≤ clamped 20 + 1 → c.normalAt k = some ⟨0, -1, 0⟩) ∧
      c.positionAt (clamped 20 + 2) = some ⟨0, 2, 0⟩ ∧
      c.normalAt (clamped 20 + 2) = some ⟨0, 1, 0⟩ ∧
      c.normals.length = 3 * (clamped 20 + 3) ∧
      (∀ k, k < clamped 20 + 3 → ∃ v, c.normalAt k = some v ∧ v.x = 0 ∧ v.z = 0) :=
  ⟨by decide, cone_normals_by_role Real.cos Real.sin 1 2 20 ⟨1, 0, 0⟩ ⟨1, 0, 0⟩
    ⟨0.5, 0.5, 0.5⟩ 32 (by decide)⟩

/-- C15 (counterexample).  `Cone(1.0f, 2.0f, 16777217)`.  The loop counter
`16777217 = 2^24 + 1` is not a `float`; the conversion in `i * sectorStep` rounds it to
`16777216`, so ring vertices 16777217 and 16777218 (`i = 16777216` and `i = 16777217`) are
stored at one and the same position `v`, whatever the product, the step, `cosf` and `sinf`
are.  The positions `(cos(i·step), 0, sin(i·step))` of the claim for these two `i` are two
different points, so `v` is not at both. -/
theorem cone_ring_on_circle_counterexample :
    intToFloat 16777217 = intToFloat 16777216 ∧
    ∀ (mul : ℝ → ℝ → ℝ) (sectorStep : Int → ℝ) (cosf sinf : ℝ → ℝ),
      ∃ c v, Cone.newWith (FloatOps.binary32 mul sectorStep cosf sinf) 1 2 16777217
          ⟨1, 0, 0⟩ ⟨1, 0, 0⟩ ⟨0.5, 0.5, 0.5⟩ 32 = some c ∧
        clamped 16777217 = 16777217 ∧
        c.positionAt 16777217 = some v ∧ c.positionAt 16777218 = some v ∧
        ¬ (v = ⟨1 * Real.cos (((16777216 : Nat) : ℝ)
                  * (2 * PI / ((clamped 16777217 : Int) : ℝ))), 0,
                1 * Real.sin (((16777216 : Nat) : ℝ)
                  * (2 * PI / ((clamped 16777217 : Int) : ℝ)))⟩ ∧
           v = ⟨1 * Real.cos (((16777217 : Nat) : ℝ)
                  * (2 * PI / ((clamped 16777217 : Int) : ℝ))), 0,
                1 * Real.sin (((16777217 : Nat) : ℝ)
                  * (2 * PI / ((clamped 16777217 : Int) : ℝ)))⟩) := by
  have hcol : intToFloat 16777217 = intToFloat 16777216 := by
    rw [intToFloat_16777217, intToFloat_16777216]
  refine ⟨hcol, fun mul sectorStep cosf sinf => ?_⟩
  obtain ⟨c, hc, -, -, -, hco, -, -, -, -⟩ :=
    Cone.newWith_spec (FloatOps.binary32 mul sectorStep cosf sinf) 1 2 16777217
      ⟨1, 0, 0⟩ ⟨1, 0, 0⟩ ⟨0.5, 0.5, 0.5⟩ 32 (by decide)
  have hcl : clamped 16777217 = 16777217 := by unfold clamped; rfl
  rw [hcl] at hco
  have h1 := tripleAt_coneWith_ring (FloatOps.binary32 mul sectorStep cosf sinf) 1 2
    16777217 16777216 (by omega)
  have h2 := tripleAt_coneWith_ring (FloatOps.binary32 mul sectorStep cosf sinf) 1 2
    16777217 (16777216 + 1) (by omega)
  have heq := ringVertexWith_congr (FloatOps.binary32 mul sectorStep cosf sinf) 1
    ((FloatOps.binary32 mul sectorStep cosf sinf).sectorStep ((16777217 : Nat) : Int))
    16777216 (16777216 + 1) (ofInt_collision mul sectorStep cosf sinf)
  rw [← heq] at h2
  have hsin := sin_step_pos 16777217 (by omega)
  have hid := sin_consecutive 16777216 (2 * PI / (((16777217 : Nat) : Int) : ℝ))
  have n1 : (16777216 + 1 : Nat) = 16777217 := by norm_num
  have n2 : (16777216 + 1 + 1 : Nat) = 16777218 := by norm_num
  rw [n1] at h1
  rw [n2] at h2
  refine ⟨c, ringVertexWith (FloatOps.binary32 mul sectorStep cosf sinf) 1
    ((FloatOps.binary32 mul sectorStep cosf sinf).sectorStep ((16777217 : Nat) : Int))
    16777216, hc, hcl, ?_, ?_, ?_⟩
  · unfold Cone.positionAt
    rw [hco]
    exact h1
  · unfold Cone.positionAt
    rw [hco]
    exact h2
  · rw [hcl]
    rintro ⟨ha, hb⟩
    rw [ha] at hb
    have hx := congrArg Vec3.x hb
    have hz := congrArg Vec3.z hb
    simp only [one_mul] at hx hz
    have e : ((16777216 + 1 : Nat) : ℝ) = ((16777217 : Nat) : ℝ) := by norm_num
    rw [e, ← hx, ← hz] at hid
    have : Real.sin (2 * PI / (((16777217 : Nat) : Int) : ℝ)) = 0 := by linarith
    linarith

/-- C15 (amended).  Ring vertices lie on the base circle in exact arithmetic, and near it
with rounding.  For every cone the constructor returns (`sectorCount < INT_MAX`, `n` the
clamped sector count) and whatever the rounded product `⊗`, int conversion, step, `cosf`
and `sinf` are: ring vertex `i + 1`, `i = 0 .. n`, is stored as
`(radius ⊗ cosf(a), 0, radius ⊗ sinf(a))` with `a = float(i) ⊗ sectorStep`, so `y = 0`
exactly; and if the two products have relative error at most `u ≤ 1` and `cosf(a)`,
`sinf(a)` are within `δ` of `cos a`, `sin a`, then
`|x² + z² - radius²| ≤ (((1 + u)(1 + 2δ))² - 1)·radius²`.  In exact arithmetic (no rounding,
`cosf` and `sinf` the real cosine and sine) the position is
`(radius·cos(i·step), 0, radius·sin(i·step))` with `step = 2·3.1416 / n`, and
`x² + z² = radius²`. -/
theorem cone_ring_near_circle (ops : FloatOps ℝ) (radius height : ℝ) (sectorCount : Int)
    (amb diff spec : Vec3 ℝ) (shiny : ℝ) (hsc : sectorCount < INT_MAX) :
    (∃ c, Cone.newWith ops radius height sectorCount amb diff spec shiny = some c ∧
      ∀ i, i ≤ clamped sectorCount →
        ∃ a v, a = ops.mul (ops.ofInt (i : Int)) (ops.sectorStep (clamped sectorCount : Int)) ∧
          c.positionAt (i + 1) = some v ∧
          v = ⟨ops.mul radius (ops.cosf a), 0, ops.mul radius (ops.sinf a)⟩ ∧
          v.y = 0 ∧
          ∀ u δ : ℝ, 0 ≤ u → u ≤ 1 →
            |ops.mul radius (ops.cosf a) - radius * ops.cosf a| ≤ u * |radius * ops.cosf a| →
            |ops.mul radius (ops.sinf a) - radius * ops.sinf a| ≤ u * |radius * ops.sinf a| →
            |ops.cosf a - Real.cos a| ≤ δ → |ops.sinf a - Real.sin a| ≤ δ →
            |v.x ^ 2 + v.z ^ 2 - radius ^ 2|
              ≤ (((1 + u) * (1 + 2 * δ)) ^ 2 - 1) * radius ^ 2) ∧
    (∃ c, Cone.newWith (FloatOps.exact Real.cos Real.sin) radius height sectorCount
        amb diff spec shiny = some c ∧
      (PI : ℝ) = 3.1416 ∧
      ∀ i, i ≤ clamped sectorCount →
        ∃ v, c.positionAt (i + 1) = some v ∧
          v = ⟨radius * Real.cos ((i : ℝ) * (2 * PI / ((clamped sectorCount : Int) : ℝ))), 0,
               radius * Real.sin ((i : ℝ) * (2 * PI / ((clamped sectorCount : Int) : ℝ)))⟩ ∧
          v.y = 0 ∧ v.x ^ 2 + v.z ^ 2 = radius ^ 2) := by
  constructor
  · obtain ⟨c, hc, -, -, -, hco, -, -, -, -⟩ :=
      Cone.newWith_spec ops radius height sectorCount amb diff spec shiny hsc
    refine ⟨c, hc, fun i hi => ⟨_, _, rfl, ?_, rfl, rfl, ?_⟩⟩
    · unfold Cone.positionAt
      rw [hco, tripleAt_coneWith_ring _ _ _ _ i hi]
      rfl
    · intro u δ hu0 hu1 hX hZ hC hS
      exact circle_rounding_bound radius _ _ _ _ _ _ u δ hu0 hu1 hX hZ hC hS
        (Real.cos_sq_add_sin_sq _)
  · rw [Cone.newWith_exact]
    exact cone_ring_on_circle_exact radius height sectorCount amb diff spec shiny hsc

/-- C15 (witness): the default cone `Cone(1.0f, 2.0f, 20)`, with the operations that do not
round. -/
theorem cone_ring_near_circle_witness :
    (20 : Int) < INT_MAX ∧
    (∃ c, Cone.newWith (FloatOps.exact Real.cos Real.sin) 1 2 20
        ⟨1, 0, 0⟩ ⟨1, 0, 0⟩ ⟨0.5, 0.5, 0.5⟩ 32 = some c ∧
      ∀ i, i ≤ clamped 20 →
        ∃ a v, a = (FloatOps.exact Real.cos Real.sin).mul
              ((FloatOps.exact Real.cos Real.sin).ofInt (i : Int))
              ((FloatOps.exact Real.cos Real.sin).sectorStep (clamped 20 : Int)) ∧
          c.positionAt (i + 1) = some v ∧
          v = ⟨(FloatOps.exact Real.cos Real.sin).mul 1
                ((FloatOps.exact Real.cos Real.sin).cosf a), 0,
               (FloatOps.exact Real.cos Real.sin).mul 1
                ((FloatOps.exact Real.cos Real.sin).sinf a)⟩ ∧
          v.y = 0 ∧
          ∀ u δ : ℝ, 0 ≤ u → u ≤ 1 →
            |(FloatOps.exact Real.cos Real.sin).mul 1
                ((FloatOps.exact Real.cos Real.sin).cosf a)
              - 1 * (FloatOps.exact Real.cos Real.sin).cosf a|
              ≤ u * |1 * (FloatOps.exact Real.cos Real.sin).cosf a| →
            |(FloatOps.exact Real.cos Real.sin).mul 1
                ((FloatOps.exact Real.cos Real.sin).sinf a)
              - 1 * (FloatOps.exact Real.cos Real.sin).sinf a|
              ≤ u * |1 * (FloatOps.exact Real.cos Real.sin).sinf a| →
            |(FloatOps.exact Real.cos Real.sin).cosf a - Real.cos a| ≤ δ →
            |(FloatOps.exact Real.cos Real.sin).sinf a - Real.sin a| ≤ δ →
            |v.x ^ 2 + v.z ^ 2 - 1 ^ 2| ≤ (((1 + u) * (1 + 2 * δ)) ^ 2 - 1) * 1 ^ 2) ∧
    (∃ c, Cone.newWith (FloatOps.exact Real.cos Real.sin) 1 2 20
        ⟨1, 0, 0⟩ ⟨1, 0, 0⟩ ⟨0.5, 0.5, 0.5⟩ 32 = some c ∧
      (PI : ℝ) = 3.1416 ∧
      ∀ i, i ≤ clamped 20 →
        ∃ v, c.positionAt (i + 1) = some v ∧
          v = ⟨1 * Real.cos ((i : ℝ) * (2 * PI / ((clamped 20 : Int) : ℝ))), 0,
               1 * Real.sin ((i : ℝ) * (2 * PI / ((clamped 20 : Int) : ℝ)))⟩ ∧
          v.y = 0 ∧ v.x ^ 2 + v.z ^ 2 = 1 ^ 2) :=
  ⟨by decide, cone_ring_near_circle (FloatOps.exact Real.cos Real.sin) 1 2 20
    ⟨1, 0, 0⟩ ⟨1, 0, 0⟩ ⟨0.5, 0.5, 0.5⟩ 32 (by decide)⟩

/-- C16.  Base fan: for every cone (any `sectorCount < INT_MAX`), with `n` the clamped sector
count, the `k`-th triangle of the index list (entries `3k`, `3k+1`, `3k+2`) is
`(0, k+1, k+2)` for every `k` in `0 .. n-1`: a fan from the base center through consecutive
ring vertices. -/
theorem cone_base_fan {F : Type} [Field F] (cosf sinf : F → F) (radius height : F)
    (sectorCount : Int) (amb diff spec : Vec3 F) (shiny : F) (hsc : sectorCount < INT_MAX) :
    ∃ c, Cone.new cosf sinf radius height sectorCount amb diff spec shiny = some c ∧
      ∀ k, k < clamped sectorCount →
        c.indices[3 * k]? = some 0 ∧ c.indices[3 * k + 1]? = some (k + 1) ∧
        c.indices[3 * k + 2]? = some (k + 2) ∧
        c.positionAt 0 = some ⟨0, 0, 0⟩ ∧
        c.positionAt (k + 1) = some (ringVertex cosf sinf radius
          (2 * PI / ((clamped sectorCount : Int) : F)) k) ∧
        c.positionAt (k + 2) = some (ringVertex cosf sinf radius
          (2 * PI / ((clamped sectorCount : Int) : F)) (k + 1)) := by
  obtain ⟨c, hc, -, -, -, hco, -, hix, -, -⟩ :=
    Cone.new_spec cosf sinf radius height sectorCount amb diff spec shiny hsc
  refine ⟨c, hc, fun k hk => ?_⟩
  obtain ⟨i0, i1, i2⟩ := coneIndices_baseTri (clamped sectorCount) k hk
  unfold Cone.positionAt
  rw [hix, hco]
  exact ⟨i0, i1, i2, tripleAt_cone_center _ _ _ _ _,
    tripleAt_cone_ring _ _ _ _ _ k (by omega), tripleAt_cone_ring _ _ _ _ _ (k + 1) (by omega)⟩

/-- C16 (witness): the default cone, `sectorCount = 20`. -/
theorem cone_base_fan_witness :
    (20 : Int) < INT_MAX ∧
    ∃ c, Cone.new Real.cos Real.sin 1 2 20 ⟨1, 0, 0⟩ ⟨1, 0, 0⟩ ⟨0.5, 0.5, 0.5⟩ 32 = some c ∧
      ∀ k, k < clamped 20 →
        c.indices[3 * k]? = some 0 ∧ c.indices[3 * k + 1]? = some (k + 1) ∧
        c.indices[3 * k + 2]? = some (k + 2) ∧
        c.positionAt 0 = some ⟨0, 0, 0⟩ ∧
        c.positionAt (k + 1) = some (ringVertex Real.cos Real.sin 1
          (2 * PI / ((clamped 20 : Int) : ℝ)) k) ∧
        c.positionAt (k + 2) = some (ringVertex Real.cos Real.sin 1
          (2 * PI / ((clamped 20 : Int) : ℝ)) (k + 1)) :=
  ⟨by decide, cone_base_fan Real.cos Real.sin 1 2 20 ⟨1, 0, 0⟩ ⟨1, 0, 0⟩ ⟨0.5, 0.5, 0.5⟩ 32
    (by decide)⟩

/-- C17.  Side fan: for every cone (any `sectorCount < INT_MAX`), with `n` the clamped sector
count, the `(n + k)`-th triangle of the index list is `(k+1, k+2, n+2)` for every `k` in
`0 .. n-1`: a fan joining consecutive ring vertices to the apex.  Its two ring indices lie
in `1 .. n+1` and are the very indices that base triangle `k` uses. -/
theorem cone_side_fan {F : Type} [Field F] (cosf sinf : F → F) (radius height : F)
    (sectorCount : Int) (amb diff spec : Vec3 F) (shiny : F) (hsc : sectorCount < INT_MAX) :
    ∃ c, Cone.new cosf sinf radius height sectorCount amb diff spec shiny = some c ∧
      ∀ k, k < clamped sectorCount →
        c.indices[3 * (clamped sectorCount + k)]? = some (k + 1) ∧
        c.indices[3 * (clamped sectorCount + k) + 1]? = some (k + 2) ∧
        c.indices[3 * (clamped sectorCount + k) + 2]? = some (clamped sectorCount + 2) ∧
        1 ≤ k + 1 ∧ k + 2 ≤ clamped sectorCount + 1 ∧
        c.indices[3 * (clamped sectorCount + k)]? = c.indices[3 * k + 1]? ∧
        c.indices[3 * (clamped sectorCount + k) + 1]? = c.indices[3 * k + 2]? ∧
        c.positionAt (clamped sectorCount + 2) = some ⟨0, height, 0⟩ := by
  obtain ⟨c, hc, -, -, -, hco, -, hix, -, -⟩ :=
    Cone.new_spec cosf sinf radius height sectorCount amb diff spec shiny hsc
  refine ⟨c, hc, fun k hk => ?_⟩
  obtain ⟨i0, i1, i2⟩ := coneIndices_sideTri (clamped sectorCount) k hk
  obtain ⟨-, b1, b2⟩ := coneIndices_baseTri (clamped sectorCount) k hk
  unfold Cone.positionAt
  rw [hix, hco]
  exact ⟨i0, i1, i2, by omega, by omega, i0.trans b1.symm, i1.trans b2.symm,
    tripleAt_cone_apex _ _ _ _ _⟩

/-- C17 (witness): the default cone, `sectorCount = 20`. -/
theorem cone_side_fan_witness :
    (20 : Int) < INT_MAX ∧
    ∃ c, Cone.new Real.cos Real.sin 1 2 20 ⟨1, 0, 0⟩ ⟨1, 0, 0⟩ ⟨0.5, 0.5, 0.5⟩ 32 = some c ∧
      ∀ k, k < clamped 20 →
        c.indices[3 * (clamped 20 + k)]? = some (k + 1) ∧
        c.indices[3 * (clamped 20 + k) + 1]? = some (k + 2) ∧
        c.indices[3 * (clamped 20 + k) + 2]? = some (clamped 20 + 2) ∧
        1 ≤ k + 1 ∧ k + 2 ≤ clamped 20 + 1 ∧
        c.indices[3 * (clamped 20 + k)]? = c.indices[3 * k + 1]? ∧
        c.indices[3 * (clamped 20 + k) + 1]? = c.indices[3 * k + 2]? ∧
        c.positionAt (clamped 20 + 2) = some ⟨0, 2, 0⟩ :=
  ⟨by decide, cone_side_fan Real.cos Real.sin 1 2 20 ⟨1, 0, 0⟩ ⟨1, 0, 0⟩ ⟨0.5, 0.5, 0.5⟩ 32
    (by decide)⟩

/-- C18.  `setUpSpotLight` uploads, in this order, `position`, `ambientOn * ambient`,
`diffuseOn * diffuse`, `specularOn * specular`, `direction`, `cos_theta`, `k_c`, `k_l` and
`k_q`.  So `position`, `direction`, `cos_theta`, `k_c`, `k_l`, `k_q` go up unmodified
whatever the toggles are; a component that has been switched off (multiplier 0) goes up as
the zero vector, and one that has been switched on (multiplier 1) as exactly the
configured colour. -/
theorem spotlight_upload_honours_toggles {F : Type} [Field F] (l : SpotLight F)
    (sh : Shader F) :
    (l.setUpSpotLight sh).uniforms = sh.uniforms ++
      [("spotLight.position", Uniform.vec3 l.position),
       ("spotLight.ambient", Uniform.vec3 (Vec3.scale l.ambientOn l.ambient)),
       ("spotLight.diffuse", Uniform.vec3 (Vec3.scale l.diffuseOn l.diffuse)),
       ("spotLight.specular", Uniform.vec3 (Vec3.scale l.specularOn l.specular)),
       ("spotLight.direction", Uniform.vec3 l.direction),
       ("spotLight.cos_theta", Uniform.float l.cos_theta),
       ("spotLight.k_c", Uniform.float l.k_c),
       ("spotLight.k_l", Uniform.float l.k_l),
       ("spotLight.k_q", Uniform.float l.k_q)] ∧
    (l.setUpSpotLight sh).uniform? "spotLight.position" = some (Uniform.vec3 l.position) ∧
    (l.setUpSpotLight sh).uniform? "spotLight.direction" = some (Uniform.vec3 l.direction) ∧
    (l.setUpSpotLight sh).uniform? "spotLight.cos_theta" = some (Uniform.float l.cos_theta) ∧
    (l.setUpSpotLight sh).uniform? "spotLight.k_c" = some (Uniform.float l.k_c) ∧
    (l.setUpSpotLight sh).uniform? "spotLight.k_l" = some (Uniform.float l.k_l) ∧
    (l.setUpSpotLight sh).uniform? "spotLight.k_q" = some (Uniform.float l.k_q) ∧
    (l.turnAmbientOff.setUpSpotLight sh).uniform? "spotLight.ambient"
      = some (Uniform.vec3 ⟨0, 0, 0⟩) ∧
    (l.turnDiffuseOff.setUpSpotLight sh).uniform? "spotLight.diffuse"
      = some (Uniform.vec3 ⟨0, 0, 0⟩) ∧
    (l.turnSpecularOff.setUpSpotLight sh).uniform? "spotLight.specular"
      = some (Uniform.vec3 ⟨0, 0, 0⟩) ∧
    (l.turnAmbientOn.setUpSpotLight sh).uniform? "spotLight.ambient"
      = some (Uniform.vec3 l.ambient) ∧
    (l.turnDiffuseOn.setUpSpotLight sh).uniform? "spotLight.diffuse"
      = some (Uniform.vec3 l.diffuse) ∧
    (l.turnSpecularOn.setUpSpotLight sh).uniform? "spotLight.specular"
      = some (Uniform.vec3 l.specular) ∧
    ((l.turnOff.setUpSpotLight sh).uniform? "spotLight.ambient"
        = some (Uniform.vec3 ⟨0, 0, 0⟩) ∧
      (l.turnOff.setUpSpotLight sh).uniform? "spotLight.diffuse"
        = some (Uniform.vec3 ⟨0, 0, 0⟩) ∧
      (l.turnOff.setUpSpotLight sh).uniform? "spotLight.specular"
        = some (Uniform.vec3 ⟨0, 0, 0⟩)) ∧
    ((l.turnOn.setUpSpotLight sh).uniform? "spotLight.ambient"
        = some (Uniform.vec3 l.ambient) ∧
      (l.turnOn.setUpSpotLight sh).uniform? "spotLight.diffuse"
        = some (Uniform.vec3 l.diffuse) ∧
      (l.turnOn.setUpSpotLight sh).uniform? "spotLight.specular"
        = some (Uniform.vec3 l.specular)) := by
  have hlog : ∀ m : SpotLight F, (m.setUpSpotLight sh).uniforms = sh.uniforms ++
      [("spotLight.position", Uniform.vec3 m.position),
       ("spotLight.ambient", Uniform.vec3 (Vec3.scale m.ambientOn m.ambient)),
       ("spotLight.diffuse", Uniform.vec3 (Vec3.scale m.diffuseOn m.diffuse)),
       ("spotLight.specular", Uniform.vec3 (Vec3.scale m.specularOn m.specular)),
       ("spotLight.direction", Uniform.vec3 m.direction),
       ("spotLight.cos_theta", Uniform.float m.cos_theta),
       ("spotLight.k_c", Uniform.float m.k_c),
       ("spotLight.k_l", Uniform.float m.k_l),
       ("spotLight.k_q", Uniform.float m.k_q)] := by
    intro m
    simp [SpotLight.setUpSpotLight, Shader.setVec3, Shader.setFloat, Shader.use]
  refine ⟨hlog l, ?_, ?_, ?_, ?_, ?_, ?_, ?_, ?_, ?_, ?_, ?_, ?_, ⟨?_, ?_, ?_⟩, ⟨?_, ?_, ?_⟩⟩ <;>
    simp [Shader.uniform?, hlog, Vec3.scale, SpotLight.turnAmbientOff,
      SpotLight.turnDiffuseOff, SpotLight.turnSpecularOff, SpotLight.turnAmbientOn,
      SpotLight.turnDiffuseOn, SpotLight.turnSpecularOn, SpotLight.turnOff, SpotLight.turnOn]

/-- C19 (counterexample).  On the default cone `Cone(1.0f, 2.0f, 20)` the first ring vertex
(index 1) is at `(1, 0, 0)`, but the last ring vertex (index 21, angle `20·step = 6.2832`)
has `z = sin 6.2832 > 0`: it is not at the first one's position. -/
theorem cone_ring_closed_counterexample :
    ∃ c v, Cone.new Real.cos Real.sin 1 2 20 ⟨1, 0, 0⟩ ⟨1, 0, 0⟩ ⟨0.5, 0.5, 0.5⟩ 32 = some c ∧
      c.positionAt 1 = some ⟨1, 0, 0⟩ ∧
      c.positionAt 21 = some v ∧ 0 < v.z ∧ v ≠ ⟨1, 0, 0⟩ := by
  obtain ⟨c, hc, -, -, -, hco, -, -, -, -⟩ := Cone.new_spec Real.cos Real.sin 1 2 20
    ⟨1, 0, 0⟩ ⟨1, 0, 0⟩ ⟨0.5, 0.5, 0.5⟩ 32 (by decide)
  have hcl : clamped 20 = 20 := by decide
  rw [hcl] at hco
  have hang := closing_angle 20 (by omega)
  have hz : 0 < (ringVertex Real.cos Real.sin 1 (2 * PI / (((20 : Nat) : Int) : ℝ)) 20).z := by
    show 0 < (1 : ℝ) * Real.sin (((20 : Nat) : ℝ) * (2 * PI / (((20 : Nat) : Int) : ℝ)))
    rw [hang, one_mul]
    exact sin_closing_pos
  refine ⟨c, _, hc, ?_, ?_, hz, ?_⟩
  · unfold Cone.positionAt
    rw [hco, tripleAt_cone_ring _ _ _ _ _ 0 (by omega)]
    simp [ringVertex]
  · unfold Cone.positionAt
    rw [hco, tripleAt_cone_ring _ _ _ _ _ 20 (by omega)]
  · intro h
    rw [h] at hz
    exact lt_irrefl _ hz

/-- C19 (amended).  The base ring is closed only approximately.  For every cone the
constructor returns (`sectorCount < INT_MAX`, `n` the clamped sector count) and whatever the
rounded float operations are: the first ring vertex (index 1) is the one computed for loop
counter 0 and the last (index `n + 1`) the one computed for loop counter `n`, at the angle
`float(n) ⊗ sectorStep`; it is not a copy of the first, and the two positions are equal
exactly when the two computed triples are.  The first is `(radius, 0, 0)` when the operations
are exact at zero (`float(0) ⊗ step = 0`, `cosf(0) = 1`, `sinf(0) = 0`, `radius ⊗ 1 = radius`,
`radius ⊗ 0 = 0`).  In exact arithmetic (no rounding, `cosf` and `sinf` the real cosine and
sine) the closing angle is `n·step = 2·3.1416 = 6.2832`, the last ring vertex is at
`(radius·cos 6.2832, 0, radius·sin 6.2832)`, and for `radius ≠ 0` this differs from the first,
by little: `|x - radius| ≤ 1.3e-10·|radius|` and `|z| ≤ 1.6e-5·|radius|`. -/
theorem cone_ring_closing_vertex (ops : FloatOps ℝ) (radius height : ℝ) (sectorCount : Int)
    (amb diff spec : Vec3 ℝ) (shiny : ℝ) (hsc : sectorCount < INT_MAX) :
    (∃ c, Cone.newWith ops radius height sectorCount amb diff spec shiny = some c ∧
      c.positionAt 1
        = some (ringVertexWith ops radius (ops.sectorStep (clamped sectorCount : Int)) 0) ∧
      c.positionAt (clamped sectorCount + 1)
        = some (ringVertexWith ops radius (ops.sectorStep (clamped sectorCount : Int))
            (clamped sectorCount)) ∧
      (c.positionAt (clamped sectorCount + 1) = c.positionAt 1 ↔
        ringVertexWith ops radius (ops.sectorStep (clamped sectorCount : Int))
            (clamped sectorCount)
          = ringVertexWith ops radius (ops.sectorStep (clamped sectorCount : Int)) 0) ∧
      (ops.mul (ops.ofInt 0) (ops.sectorStep (clamped sectorCount : Int)) = 0 →
        ops.cosf 0 = 1 → ops.sinf 0 = 0 → ops.mul radius 1 = radius → ops.mul radius 0 = 0 →
        c.positionAt 1 = some ⟨radius, 0, 0⟩)) ∧
    (∃ c, Cone.newWith (FloatOps.exact Real.cos Real.sin) radius height sectorCount
        amb diff spec shiny = some c ∧
      c.positionAt 1 = some ⟨radius, 0, 0⟩ ∧
      c.positionAt (clamped sectorCount + 1)
        = some ⟨radius * Real.cos 6.2832, 0, radius * Real.sin 6.2832⟩ ∧
      (radius ≠ 0 →
        (⟨radius * Real.cos 6.2832, 0, radius * Real.sin 6.2832⟩ : Vec3 ℝ)
          ≠ ⟨radius, 0, 0⟩) ∧
      |radius * Real.cos 6.2832 - radius| ≤ 0.00000000013 * |radius| ∧
      |radius * Real.sin 6.2832| ≤ 0.000016 * |radius|) := by
  constructor
  · obtain ⟨c, hc, -, -, -, hco, -, -, -, -⟩ :=
      Cone.newWith_spec ops radius height sectorCount amb diff spec shiny hsc
    have h1 : c.positionAt 1
        = some (ringVertexWith ops radius (ops.sectorStep (clamped sectorCount : Int)) 0) := by
      unfold Cone.positionAt
      rw [hco]
      exact tripleAt_coneWith_ring ops radius height (clamped sectorCount) 0 (by omega)
    have h2 : c.positionAt (clamped sectorCount + 1)
        = some (ringVertexWith ops radius (ops.sectorStep (clamped sectorCount : Int))
            (clamped sectorCount)) := by
      unfold Cone.positionAt
      rw [hco]
      exact tripleAt_coneWith_ring ops radius height (clamped sectorCount)
        (clamped sectorCount) (le_refl _)
    refine ⟨c, hc, h1, h2, ?_, ?_⟩
    · rw [h1, h2]
      exact Option.some_inj
    · intro h0 hcos hsin hm1 hm0
      rw [h1]
      simp only [ringVertexWith, Nat.cast_zero, h0, hcos, hsin, hm1, hm0]
  · rw [Cone.newWith_exact]
    exact cone_ring_closing_exact radius height sectorCount amb diff spec shiny hsc

/-- C19 (witness): the default cone `Cone(1.0f, 2.0f, 20)`, with the operations that do not
round. -/
theorem cone_ring_closing_vertex_witness :
    (20 : Int) < INT_MAX ∧
    (∃ c, Cone.newWith (FloatOps.exact Real.cos Real.sin) 1 2 20
        ⟨1, 0, 0⟩ ⟨1, 0, 0⟩ ⟨0.5, 0.5, 0.5⟩ 32 = some c ∧
      c.positionAt 1
        = some (ringVertexWith (FloatOps.exact Real.cos Real.sin) 1
            ((FloatOps.exact Real.cos Real.sin).sectorStep (clamped 20 : Int)) 0) ∧
      c.positionAt (clamped 20 + 1)
        = some (ringVertexWith (FloatOps.exact Real.cos Real.sin) 1
            ((FloatOps.exact Real.cos Real.sin).sectorStep (clamped 20 : Int)) (clamped 20)) ∧
      (c.positionAt (clamped 20 + 1) = c.positionAt 1 ↔
        ringVertexWith (FloatOps.exact Real.cos Real.sin) 1
            ((FloatOps.exact Real.cos Real.sin).sectorStep (clamped 20 : Int)) (clamped 20)
          = ringVertexWith (FloatOps.exact Real.cos Real.sin) 1
            ((FloatOps.exact Real.cos Real.sin).sectorStep (clamped 20 : Int)) 0) ∧
      ((FloatOps.exact Real.cos Real.sin).mul ((FloatOps.exact Real.cos Real.sin).ofInt 0)
          ((FloatOps.exact Real.cos Real.sin).sectorStep (clamped 20 : Int)) = 0 →
        (FloatOps.exact Real.cos Real.sin).cosf 0 = 1 →
        (FloatOps.exact Real.cos Real.sin).sinf 0 = 0 →
        (FloatOps.exact Real.cos Real.sin).mul 1 1 = 1 →
        (FloatOps.exact Real.cos Real.sin).mul 1 0 = 0 →
        c.positionAt 1 = some ⟨1, 0, 0⟩)) ∧
    (∃ c, Cone.newWith (FloatOps.exact Real.cos Real.sin) 1 2 20
        ⟨1, 0, 0⟩ ⟨1, 0, 0⟩ ⟨0.5, 0.5, 0.5⟩ 32 = some c ∧
      c.positionAt 1 = some ⟨1, 0, 0⟩ ∧
      c.positionAt (clamped 20 + 1) = some ⟨1 * Real.cos 6.2832, 0, 1 * Real.sin 6.2832⟩ ∧
      ((1 : ℝ) ≠ 0 →
        (⟨1 * Real.cos 6.2832, 0, 1 * Real.sin 6.2832⟩ : Vec3 ℝ) ≠ ⟨1, 0, 0⟩) ∧
      |1 * Real.cos 6.2832 - 1| ≤ 0.00000000013 * |(1 : ℝ)| ∧
      |1 * Real.sin 6.2832| ≤ 0.000016 * |(1 : ℝ)|) :=
  ⟨by decide, cone_ring_closing_vertex (FloatOps.exact Real.cos Real.sin) 1 2 20
    ⟨1, 0, 0⟩ ⟨1, 0, 0⟩ ⟨0.5, 0.5, 0.5⟩ 32 (by decide)⟩

/-- C20.  No cone triangle is degenerate at the index level: for every cone (any
`sectorCount < INT_MAX`), with `n` the clamped sector count, the index list consists of
`2 n` triangles and the three indices of each of them are pairwise distinct. -/
theorem cone_triangle_indices_distinct {F : Type} [Field F] (cosf sinf : F → F)
    (radius height : F) (sectorCount : Int) (amb diff spec : Vec3 F) (shiny : F)
    (hsc : sectorCount < INT_MAX) :
    ∃ c, Cone.new cosf sinf radius height sectorCount amb diff spec shiny = some c ∧
      c.indices.length = 3 * (2 * clamped sectorCount) ∧
      ∀ t, t < 2 * clamped sectorCount →
        ∃ a b d, c.indices[3 * t]? = some a ∧ c.indices[3 * t + 1]? = some b ∧
          c.indices[3 * t + 2]? = some d ∧ a ≠ b ∧ b ≠ d ∧ a ≠ d := by
  obtain ⟨c, hc, -, -, -, -, -, hix, -, -⟩ :=
    Cone.new_spec cosf sinf radius height sectorCount amb diff spec shiny hsc
  refine ⟨c, hc, by rw [hix, coneIndices_length]; ring, fun t ht => ?_⟩
  rw [hix]
  by_cases hlt : t < clamped sectorCount
  · obtain ⟨i0, i1, i2⟩ := coneIndices_baseTri (clamped sectorCount) t hlt
    exact ⟨0, t + 1, t + 2, i0, i1, i2, by omega, by omega, by omega⟩
  · obtain ⟨k, hk⟩ : ∃ k, t = clamped sectorCount + k := ⟨t - clamped sectorCount, by omega⟩
    subst hk
    obtain ⟨i0, i1, i2⟩ := coneIndices_sideTri (clamped sectorCount) k (by omega)
    exact ⟨k + 1, k + 2, clamped sectorCount + 2, i0, i1, i2, by omega, by omega, by omega⟩

/-- C20 (witness): the default cone, `sectorCount = 20`. -/
theorem cone_triangle_indices_distinct_witness :
    (20 : Int) < INT_MAX ∧
    ∃ c, Cone.new Real.cos Real.sin 1 2 20 ⟨1, 0, 0⟩ ⟨1, 0, 0⟩ ⟨0.5, 0.5, 0.5⟩ 32 = some c ∧
      c.indices.length = 3 * (2 * clamped 20) ∧
      ∀ t, t < 2 * clamped 20 →
        ∃ a b d, c.indices[3 * t]? = some a ∧ c.indices[3 * t + 1]? = some b ∧
          c.indices[3 * t + 2]? = some d ∧ a ≠ b ∧ b ≠ d ∧ a ≠ d :=
  ⟨by decide, cone_triangle_indices_distinct Real.cos Real.sin 1 2 20 ⟨1, 0, 0⟩ ⟨1, 0, 0⟩
    ⟨0.5, 0.5, 0.5⟩ 32 (by decide)⟩

/-- C21.  The hard-coded cube mesh is well-formed: `cube_indices` has exactly 36 entries
(12 triangles), the count that `drawCube` passes to `glDrawElements`; `cube_vertices` has
144 floats, that is 24 vertices of stride 6; every index is below 24; and the six entries
of face `f` (its two triangles) are all among that face's four vertices `4f .. 4f+3`. -/
theorem cube_mesh_well_formed {F : Type} [Field F] :
    cube_indices.length = 36 ∧ cube_indices.length = 3 * 12 ∧
    cube_indices.length = drawCubeCount ∧
    (cube_vertices (F := F)).length = 144 ∧
    (cube_vertices (F := F)).length = cubeStride * 24 ∧
    (∀ i ∈ cube_indices, i < 24) ∧
    (∀ f, f < 6 → ∀ j, j < 6 →
      ∃ i, cube_indices[6 * f + j]? = some i ∧ 4 * f ≤ i ∧ i ≤ 4 * f + 3) ∧
    (∀ i, i < 24 → ∃ p n : Vec3 F, cubePosition i = some p ∧ cubeNormal i = some n) := by
  refine ⟨by decide, by decide, by decide, cube_vertices_length,
    by rw [cube_vertices_length]; rfl, by decide, by decide, ?_⟩
  intro i hi
  exact ⟨_, _, cubePosition_eq i hi, cubeNormal_eq i hi⟩

/-- C22 (code bug, shown on the code).  Five faces are split along a diagonal: for the
front, left, right, top and bottom face the two triangles share exactly two corners, and
these are the two ends of a diagonal (their positions add up to twice the face centre).  The
back face, triangles `(4, 5, 7)` and `(7, 6, 4)`, is not: the shared corners are 4 and 7, the
two ends of the edge `x = 0` from `(0, 0, 0)` to `(0, 0.5, 0)`.  Its triangles overlap, the
point `(0.1, 0.3, 0)` lies strictly inside both, and they leave part of the face open, the
point `(0.45, 0.25, 0)` of the face lies in neither. -/
theorem cube_back_face_not_split_on_diagonal {F : Type} [LinearOrderedField F] :
    (cubeFaceShared 0 = some [0, 2] ∧ cubePairSum (F := F) 0 2 = some ⟨0.5, 0.5, 1⟩ ∧
      cubeFaceCentre2 (F := F) 0 = some ⟨0.5, 0.5, 1⟩) ∧
    (cubeFaceShared 2 = some [8, 10] ∧ cubePairSum (F := F) 8 10 = some ⟨0, 0.5, 0.5⟩ ∧
      cubeFaceCentre2 (F := F) 2 = some ⟨0, 0.5, 0.5⟩) ∧
    (cubeFaceShared 3 = some [12, 14] ∧ cubePairSum (F := F) 12 14 = some ⟨1, 0.5, 0.5⟩ ∧
      cubeFaceCentre2 (F := F) 3 = some ⟨1, 0.5, 0.5⟩) ∧
    (cubeFaceShared 4 = some [16, 18] ∧ cubePairSum (F := F) 16 18 = some ⟨0.5, 1, 0.5⟩ ∧
      cubeFaceCentre2 (F := F) 4 = some ⟨0.5, 1, 0.5⟩) ∧
    (cubeFaceShared 5 = some [20, 22] ∧ cubePairSum (F := F) 20 22 = some ⟨0.5, 0, 0.5⟩ ∧
      cubeFaceCentre2 (F := F) 5 = some ⟨0.5, 0, 0.5⟩) ∧
    cubeTriangleIndices 2 = some (4, 5, 7) ∧ cubeTriangleIndices 3 = some (7, 6, 4) ∧
    cubeFaceShared 1 = some [4, 7] ∧
    cubePosition (F := F) 4 = some ⟨0, 0, 0⟩ ∧ cubePosition (F := F) 7 = some ⟨0, 0.5, 0⟩ ∧
    cubePairSum (F := F) 4 7 = some ⟨0, 0.5, 0⟩ ∧
    cubeFaceCentre2 (F := F) 1 = some ⟨0.5, 0.5, 0⟩ ∧
    cubePairSum (F := F) 4 7 ≠ cubeFaceCentre2 1 ∧
    ∃ t1 t2 : Vec3 F × Vec3 F × Vec3 F,
      cubeTriangle 2 = some t1 ∧ cubeTriangle 3 = some t2 ∧
      t1 = (⟨0, 0, 0⟩, ⟨0.5, 0, 0⟩, ⟨0, 0.5, 0⟩) ∧
      t2 = (⟨0, 0.5, 0⟩, ⟨0.5, 0.5, 0⟩, ⟨0, 0, 0⟩) ∧
      strictlyInTriangle t1 ⟨0.1, 0.3, 0⟩ ∧ strictlyInTriangle t2 ⟨0.1, 0.3, 0⟩ ∧
      ¬ inTriangle t1 ⟨0.45, 0.25, 0⟩ ∧ ¬ inTriangle t2 ⟨0.45, 0.25, 0⟩ := by
  obtain ⟨-, -, t2, t3, -⟩ := cubeTriangle_table (F := F)
  have hsum : ∀ a b (pa pb : Vec3 F), cubePosition a = some pa → cubePosition b = some pb →
      cubePairSum (F := F) a b = some (Vec3.add pa pb) := by
    intro a b pa pb ha hb
    unfold cubePairSum
    rw [ha, hb]
    rfl
  have hcen : ∀ f (p0 p1 p2 p3 : Vec3 F), cubePosition (4 * f) = some p0 →
      cubePosition (4 * f + 1) = some p1 → cubePosition (4 * f + 2) = some p2 →
      cubePosition (4 * f + 3) = some p3 → cubeFaceCentre2 (F := F) f
        = some (Vec3.scale (1 / 2) (Vec3.add (Vec3.add p0 p1) (Vec3.add p2 p3))) := by
    intro f p0 p1 p2 p3 h0 h1 h2 h3
    unfold cubeFaceCentre2
    rw [h0, h1, h2, h3]
    rfl
  have s47 : cubePairSum (F := F) 4 7 = some ⟨0, 0.5, 0⟩ := by
    rw [hsum 4 7 ⟨0, 0, 0⟩ ⟨0, 0.5, 0⟩ rfl rfl]
    simp [Vec3.add]
  have c1 : cubeFaceCentre2 (F := F) 1 = some ⟨0.5, 0.5, 0⟩ := by
    rw [hcen 1 ⟨0, 0, 0⟩ ⟨0.5, 0, 0⟩ ⟨0.5, 0.5, 0⟩ ⟨0, 0.5, 0⟩ rfl rfl rfl rfl]
    simp only [Vec3.add, Vec3.scale, Option.some.injEq, Vec3.mk.injEq]
    norm_num
  refine ⟨⟨by decide, ?_, ?_⟩, ⟨by decide, ?_, ?_⟩, ⟨by decide, ?_, ?_⟩, ⟨by decide, ?_, ?_⟩,
    ⟨by decide, ?_, ?_⟩, by decide, by decide, by decide, rfl, rfl, s47, c1, ?_,
    _, _, t2, t3, rfl, rfl, ?_, ?_, ?_, ?_⟩
  · rw [hsum 0 2 ⟨0, 0, 0.5⟩ ⟨0.5, 0.5, 0.5⟩ rfl rfl]
    simp only [Vec3.add, Option.some.injEq, Vec3.mk.injEq]
    norm_num
  · rw [hcen 0 ⟨0, 0, 0.5⟩ ⟨0.5, 0, 0.5⟩ ⟨0.5, 0.5, 0.5⟩ ⟨0, 0.5, 0.5⟩ rfl rfl rfl rfl]
    simp only [Vec3.add, Vec3.scale, Option.some.injEq, Vec3.mk.injEq]
    norm_num
  · rw [hsum 8 10 ⟨0, 0, 0⟩ ⟨0, 0.5, 0.5⟩ rfl rfl]
    simp only [Vec3.add, Option.some.injEq, Vec3.mk.injEq]
    norm_num
  · rw [hcen 2 ⟨0, 0, 0⟩ ⟨0, 0, 0.5⟩ ⟨0, 0.5, 0.5⟩ ⟨0, 0.5, 0⟩ rfl rfl rfl rfl]
    simp only [Vec3.add, Vec3.scale, Option.some.injEq, Vec3.mk.injEq]
    norm_num
  · rw [hsum 12 14 ⟨0.5, 0, 0⟩ ⟨0.5, 0.5, 0.5⟩ rfl rfl]
    simp only [Vec3.add, Option.some.injEq, Vec3.mk.injEq]
    norm_num
  · rw [hcen 3 ⟨0.5, 0, 0⟩ ⟨0.5, 0, 0.5⟩ ⟨0.5, 0.5, 0.5⟩ ⟨0.5, 0.5, 0⟩ rfl rfl rfl rfl]
    simp only [Vec3.add, Vec3.scale, Option.some.injEq, Vec3.mk.injEq]
    norm_num
  · rw [hsum 16 18 ⟨0, 0.5, 0⟩ ⟨0.5, 0.5, 0.5⟩ rfl rfl]
    simp only [Vec3.add, Option.some.injEq, Vec3.mk.injEq]
    norm_num
  · rw [hcen 4 ⟨0, 0.5, 0⟩ ⟨0.5, 0.5, 0⟩ ⟨0.5, 0.5, 0.5⟩ ⟨0, 0.5, 0.5⟩ rfl rfl rfl rfl]
    simp only [Vec3.add, Vec3.scale, Option.some.injEq, Vec3.mk.injEq]
    norm_num
  · rw [hsum 20 22 ⟨0, 0, 0⟩ ⟨0.5, 0, 0.5⟩ rfl rfl]
    simp only [Vec3.add, Option.some.injEq, Vec3.mk.injEq]
    norm_num
  · rw [hcen 5 ⟨0, 0, 0⟩ ⟨0.5, 0, 0⟩ ⟨0.5, 0, 0.5⟩ ⟨0, 0, 0.5⟩ rfl rfl rfl rfl]
    simp only [Vec3.add, Vec3.scale, Option.some.injEq, Vec3.mk.injEq]
    norm_num
  · rw [s47, c1]
    simp only [ne_eq, Option.some.injEq, Vec3.mk.injEq]
    norm_num
  · simp only [strictlyInTriangle, faceNormal, Vec3.cross, Vec3.sub, Vec3.dot]
    norm_num
  · simp only [strictlyInTriangle, faceNormal, Vec3.cross, Vec3.sub, Vec3.dot]
    norm_num
  · simp only [inTriangle, faceNormal, Vec3.cross, Vec3.sub, Vec3.dot]
    norm_num
  · simp only [inTriangle, faceNormal, Vec3.cross, Vec3.sub, Vec3.dot]
    norm_num

/-- C23 (code bug, shown on the code).  The dot product of the face normal
`(v1 - v0) × (v2 - v0)` with the stored normal, for the 12 triangles of `cube_indices` in
order: it is `+1/4` for five of them (the second back triangle `(7, 6, 4)`, both left and
both bottom triangles) and `-1/4` for the other seven (both front triangles, the first back
triangle `(4, 5, 7)`, both right and both top triangles), which therefore wind against their
normals.  The three vertices of every triangle store the same normal. -/
theorem cube_winding_against_normals {F : Type} [LinearOrderedField F] :
    (List.range 12).map (cubeWindingDot (F := F)) =
      [some (-(1 / 4)), some (-(1 / 4)), some (-(1 / 4)), some (1 / 4),
       some (1 / 4), some (1 / 4), some (-(1 / 4)), some (-(1 / 4)),
       some (-(1 / 4)), some (-(1 / 4)), some (1 / 4), some (1 / 4)] ∧
    (∀ t, t < 12 → ∃ a b c, ∃ n : Vec3 F, cubeTriangleIndices t = some (a, b, c) ∧
      cubeNormal a = some n ∧ cubeNormal b = some n ∧ cubeNormal c = some n) ∧
    (∃ d : F, cubeWindingDot 0 = some d ∧ d < 0) ∧
    ¬ ∀ t, t < 12 → ∃ d : F, cubeWindingDot t = some d ∧ 0 < d := by
  obtain ⟨t0, t1, t2, t3, t4, t5, t6, t7, t8, t9, t10, t11⟩ := cubeTriangle_table (F := F)
  obtain ⟨n0, n2, n4, n7, n8, n10, n12, n14, n16, n18, n20, n22⟩ :=
    cubeFaceNormal_table (F := F)
  have w0 : cubeWindingDot (F := F) 0 = some (-(1 / 4)) := by
    rw [cubeWindingDot_eq 0 (0, 3, 2) _ _ rfl t0 n0]
    simp only [faceNormal, Vec3.cross, Vec3.sub, Vec3.dot]
    norm_num
  have w1 : cubeWindingDot (F := F) 1 = some (-(1 / 4)) := by
    rw [cubeWindingDot_eq 1 (2, 1, 0) _ _ rfl t1 n2]
    simp only [faceNormal, Vec3.cross, Vec3.sub, Vec3.dot]
    norm_num
  have w2 : cubeWindingDot (F := F) 2 = some (-(1 / 4)) := by
    rw [cubeWindingDot_eq 2 (4, 5, 7) _ _ rfl t2 n4]
    simp only [faceNormal, Vec3.cross, Vec3.sub, Vec3.dot]
    norm_num
  have w3 : cubeWindingDot (F := F) 3 = some (1 / 4) := by
    rw [cubeWindingDot_eq 3 (7, 6, 4) _ _ rfl t3 n7]
    simp only [faceNormal, Vec3.cross, Vec3.sub, Vec3.dot]
    norm_num
  have w4 : cubeWindingDot (F := F) 4 = some (1 / 4) := by
    rw [cubeWindingDot_eq 4 (8, 9, 10) _ _ rfl t4 n8]
    simp only [faceNormal, Vec3.cross, Vec3.sub, Vec3.dot]
    norm_num
  have w5 : cubeWindingDot (F := F) 5 = some (1 / 4) := by
    rw [cubeWindingDot_eq 5 (10, 11, 8) _ _ rfl t5 n10]
    simp only [faceNormal, Vec3.cross, Vec3.sub, Vec3.dot]
    norm_num
  have w6 : cubeWindingDot (F := F) 6 = some (-(1 / 4)) := by
    rw [cubeWindingDot_eq 6 (12, 13, 14) _ _ rfl t6 n12]
    simp only [faceNormal, Vec3.cross, Vec3.sub, Vec3.dot]
    norm_num
  have w7 : cubeWindingDot (F := F) 7 = some (-(1 / 4)) := by
    rw [cubeWindingDot_eq 7 (14, 15, 12) _ _ rfl t7 n14]
    simp only [faceNormal, Vec3.cross, Vec3.sub, Vec3.dot]
    norm_num
  have w8 : cubeWindingDot (F := F) 8 = some (-(1 / 4)) := by
    rw [cubeWindingDot_eq 8 (16, 17, 18) _ _ rfl t8 n16]
    simp only [faceNormal, Vec3.cross, Vec3.sub, Vec3.dot]
    norm_num
  have w9 : cubeWindingDot (F := F) 9 = some (-(1 / 4)) := by
    rw [cubeWindingDot_eq 9 (18, 19, 16) _ _ rfl t9 n18]
    simp only [faceNormal, Vec3.cross, Vec3.sub, Vec3.dot]
    norm_num
  have w10 : cubeWindingDot (F := F) 10 = some (1 / 4) := by
    rw [cubeWindingDot_eq 10 (20, 21, 22) _ _ rfl t10 n20]
    simp only [faceNormal, Vec3.cross, Vec3.sub, Vec3.dot]
    norm_num
  have w11 : cubeWindingDot (F := F) 11 = some (1 / 4) := by
    rw [cubeWindingDot_eq 11 (22, 23, 20) _ _ rfl t11 n22]
    simp only [faceNormal, Vec3.cross, Vec3.sub, Vec3.dot]
    norm_num
  have hneg : (-(1 / 4) : F) < 0 := by norm_num
  refine ⟨?_, ?_, ⟨_, w0, hneg⟩, ?_⟩
  · have hr : List.range 12 = [0, 1, 2, 3, 4, 5, 6, 7, 8, 9, 10, 11] := by decide
    rw [hr]
    simp only [List.map_cons, List.map_nil, w0, w1, w2, w3, w4, w5, w6, w7, w8, w9, w10, w11]
  · intro t ht
    interval_cases t
    · exact ⟨0, 3, 2, ⟨0, 0, 1⟩, rfl, rfl, rfl, rfl⟩
    · exact ⟨2, 1, 0, ⟨0, 0, 1⟩, rfl, rfl, rfl, rfl⟩
    · exact ⟨4, 5, 7, ⟨0, 0, -1⟩, rfl, rfl, rfl, rfl⟩
    · exact ⟨7, 6, 4, ⟨0, 0, -1⟩, rfl, rfl, rfl, rfl⟩
    · exact ⟨8, 9, 10, ⟨-1, 0, 0⟩, rfl, rfl, rfl, rfl⟩
    · exact ⟨10, 11, 8, ⟨-1, 0, 0⟩, rfl, rfl, rfl, rfl⟩
    · exact ⟨12, 13, 14, ⟨1, 0, 0⟩, rfl, rfl, rfl, rfl⟩
    · exact ⟨14, 15, 12, ⟨1, 0, 0⟩, rfl, rfl, rfl, rfl⟩
    · exact ⟨16, 17, 18, ⟨0, 1, 0⟩, rfl, rfl, rfl, rfl⟩
    · exact ⟨18, 19, 16, ⟨0, 1, 0⟩, rfl, rfl, rfl, rfl⟩
    · exact ⟨20, 21, 22, ⟨0, -1, 0⟩, rfl, rfl, rfl, rfl⟩
    · exact ⟨22, 23, 20, ⟨0, -1, 0⟩, rfl, rfl, rfl, rfl⟩
  · intro hall
    obtain ⟨d, hd, hpos⟩ := hall 0 (by omega)
    rw [w0] at hd
    have : d = -(1 / 4) := (Option.some.inj hd).symm
    rw [this] at hpos
    exact lt_asymm hpos hneg

/-- C24.  The spot light toggles have a minimal footprint: each of `turnAmbientOn/Off`,
`turnDiffuseOn/Off` and `turnSpecularOn/Off` sets the one multiplier it names and leaves the
other two as they were, and none of the eight operations, `turnOn` and `turnOff` included,
changes `position`, `ambient`, `diffuse`, `specular`, `direction`, `cos_theta`, `k_c`, `k_l`
or `k_q`. -/
theorem spotlight_toggles_minimal_footprint {F : Type} [Field F] (l : SpotLight F) :
    l.turnAmbientOn.multipliers = (1, l.diffuseOn, l.specularOn) ∧
    l.turnAmbientOff.multipliers = (0, l.diffuseOn, l.specularOn) ∧
    l.turnDiffuseOn.multipliers = (l.ambientOn, 1, l.specularOn) ∧
    l.turnDiffuseOff.multipliers = (l.ambientOn, 0, l.specularOn) ∧
    l.turnSpecularOn.multipliers = (l.ambientOn, l.diffuseOn, 1) ∧
    l.turnSpecularOff.multipliers = (l.ambientOn, l.diffuseOn, 0) ∧
    l.turnAmbientOn.sameData l ∧ l.turnAmbientOff.sameData l ∧
    l.turnDiffuseOn.sameData l ∧ l.turnDiffuseOff.sameData l ∧
    l.turnSpecularOn.sameData l ∧ l.turnSpecularOff.sameData l ∧
    l.turnOn.sameData l ∧ l.turnOff.sameData l ∧
    (∀ t : Toggle, (l.toggle t).sameData l) := by
  have h : ∀ m : SpotLight F, m.position = l.position → m.ambient = l.ambient →
      m.diffuse = l.diffuse → m.specular = l.specular → m.direction = l.direction →
      m.cos_theta = l.cos_theta → m.k_c = l.k_c → m.k_l = l.k_l → m.k_q = l.k_q →
      m.sameData l := fun m h1 h2 h3 h4 h5 h6 h7 h8 h9 => ⟨h1, h2, h3, h4, h5, h6, h7, h8, h9⟩
  refine ⟨rfl, rfl, rfl, rfl, rfl, rfl, ?_, ?_, ?_, ?_, ?_, ?_, ?_, ?_, ?_⟩
  · exact h _ rfl rfl rfl rfl rfl rfl rfl rfl rfl
  · exact h _ rfl rfl rfl rfl rfl rfl rfl rfl rfl
  · exact h _ rfl rfl rfl rfl rfl rfl rfl rfl rfl
  · exact h _ rfl rfl rfl rfl rfl rfl rfl rfl rfl
  · exact h _ rfl rfl rfl rfl rfl rfl rfl rfl rfl
  · exact h _ rfl rfl rfl rfl rfl rfl rfl rfl rfl
  · exact h _ rfl rfl rfl rfl rfl rfl rfl rfl rfl
  · exact h _ rfl rfl rfl rfl rfl rfl rfl rfl rfl
  · intro t
    cases t <;> exact h _ rfl rfl rfl rfl rfl rfl rfl rfl rfl

/-- C25.  `turnOn` and `turnOff` are absolute resets: from any toggle state `turnOff` sets
the three multipliers to 0 and `turnOn` sets them to 1, the state of a freshly constructed
light (`turnOn` gives the very light the constructor builds from the same data).  Both are
idempotent, and `turnOn` after `turnOff`, or after any sequence of single-component
toggles, gives the same light as `turnOn` alone, with all three multipliers 1. -/
theorem spotlight_turnOn_turnOff_absolute {F : Type} [Field F] (l : SpotLight F)
    (ts : List Toggle) :
    l.turnOff.multipliers = (0, 0, 0) ∧ l.turnOn.multipliers = (1, 1, 1) ∧
    (SpotLight.new l.position.x l.position.y l.position.z l.ambient.x l.ambient.y l.ambient.z
      l.diffuse.x l.diffuse.y l.diffuse.z l.specular.x l.specular.y l.specular.z
      l.direction.x l.direction.y l.direction.z l.cos_theta l.k_c l.k_l l.k_q).multipliers
        = (1, 1, 1) ∧
    l.turnOn = SpotLight.new l.position.x l.position.y l.position.z
      l.ambient.x l.ambient.y l.ambient.z l.diffuse.x l.diffuse.y l.diffuse.z
      l.specular.x l.specular.y l.specular.z l.direction.x l.direction.y l.direction.z
      l.cos_theta l.k_c l.k_l l.k_q ∧
    l.turnOn.turnOn = l.turnOn ∧ l.turnOff.turnOff = l.turnOff ∧
    l.turnOff.turnOn = l.turnOn ∧ l.turnOff.turnOn.multipliers = (1, 1, 1) ∧
    l.turnOn.turnOff = l.turnOff ∧
    (ts.foldl SpotLight.toggle l).turnOn = l.turnOn ∧
    (ts.foldl SpotLight.toggle l).turnOn.multipliers = (1, 1, 1) ∧
    (ts.foldl SpotLight.toggle l).turnOff = l.turnOff := by
  have hon : ∀ (us : List Toggle) (m : SpotLight F),
      (us.foldl SpotLight.toggle m).turnOn = m.turnOn := by
    intro us
    induction us with
    | nil => intro m; rfl
    | cons t us ih =>
      intro m
      rw [List.foldl_cons, ih]
      cases t <;> rfl
  have hoff : ∀ (us : List Toggle) (m : SpotLight F),
      (us.foldl SpotLight.toggle m).turnOff = m.turnOff := by
    intro us
    induction us with
    | nil => intro m; rfl
    | cons t us ih =>
      intro m
      rw [List.foldl_cons, ih]
      cases t <;> rfl
  refine ⟨rfl, rfl, rfl, rfl, rfl, rfl, rfl, rfl, rfl, hon ts l, ?_, hoff ts l⟩
  rw [hon ts l]
  rfl

/-- C26 (counterexample).  Key 4, then key 5 twice: the spot light is off (`spotOn` is
`false`) but its ambient multiplier is 1.  Key 5, then key 4 twice: `ambientToggle` is
`false` but the ambient multiplier is 1. -/
theorem spot_flags_consistent_counterexample :
    (Globals.run [⟨true, false, false, false⟩, ⟨false, true, false, false⟩,
        ⟨false, true, false, false⟩] (Globals.initial (0.989 : ℚ))).spotOn = false ∧
    (Globals.run [⟨true, false, false, false⟩, ⟨false, true, false, false⟩,
        ⟨false, true, false, false⟩] (Globals.initial (0.989 : ℚ))).spotlight.ambientOn = 1 ∧
    (Globals.run [⟨false, true, false, false⟩, ⟨true, false, false, false⟩,
        ⟨true, false, false, false⟩] (Globals.initial (0.989 : ℚ))).ambientToggle = false ∧
    (Globals.run [⟨false, true, false, false⟩, ⟨true, false, false, false⟩,
        ⟨true, false, false, false⟩] (Globals.initial (0.989 : ℚ))).spotlight.ambientOn = 1 ∧
    (1 : ℚ) ≠ 0 := by
  refine ⟨rfl, rfl, rfl, rfl, by norm_num⟩

/-- C26 (amended).  Each flag agrees with the light right after its own handler has run:
after the key-4 handler `spotOn = false` means all three multipliers are 0 and
`spotOn = true` means all three are 1; after the key-5 (6, 7) handler `ambientToggle`
(`diffuseToggle`, `specularToggle`) `= false` means the ambient (diffuse, specular)
multiplier is 0 and `= true` means it is 1.  In every state reachable from the initial
globals each multiplier is 0 or 1 and the light's other members are the initial ones. -/
theorem spot_flags_consistent_after_own_key {F : Type} [Field F] (c_theta : F)
    (frames : List Pressed) (g : Globals F) :
    ((g.handleKey4.spotOn = false → g.handleKey4.spotlight.multipliers = (0, 0, 0)) ∧
      (g.handleKey4.spotOn = true → g.handleKey4.spotlight.multipliers = (1, 1, 1))) ∧
    ((g.handleKey5.ambientToggle = false → g.handleKey5.spotlight.ambientOn = 0) ∧
      (g.handleKey5.ambientToggle = true → g.handleKey5.spotlight.ambientOn = 1)) ∧
    ((g.handleKey6.diffuseToggle = false → g.handleKey6.spotlight.diffuseOn = 0) ∧
      (g.handleKey6.diffuseToggle = true → g.handleKey6.spotlight.diffuseOn = 1)) ∧
    ((g.handleKey7.specularToggle = false → g.handleKey7.spotlight.specularOn = 0) ∧
      (g.handleKey7.specularToggle = true → g.handleKey7.spotlight.specularOn = 1)) ∧
    ((Globals.run frames (Globals.initial c_theta)).spotlight.ambientOn = 0 ∨
      (Globals.run frames (Globals.initial c_theta)).spotlight.ambientOn = 1) ∧
    ((Globals.run frames (Globals.initial c_theta)).spotlight.diffuseOn = 0 ∨
      (Globals.run frames (Globals.initial c_theta)).spotlight.diffuseOn = 1) ∧
    ((Globals.run frames (Globals.initial c_theta)).spotlight.specularOn = 0 ∨
      (Globals.run frames (Globals.initial c_theta)).spotlight.specularOn = 1) ∧
    (Globals.run frames (Globals.initial c_theta)).spotlight.sameData
      (Globals.initial c_theta).spotlight := by
  have k4 : (g.handleKey4.spotOn = false → g.handleKey4.spotlight.multipliers = (0, 0, 0)) ∧
      (g.handleKey4.spotOn = true → g.handleKey4.spotlight.multipliers = (1, 1, 1)) := by
    unfold Globals.handleKey4
    cases h : g.spotOn <;> simp [SpotLight.multipliers, SpotLight.turnOn, SpotLight.turnOff]
  have k5 : (g.handleKey5.ambientToggle = false → g.handleKey5.spotlight.ambientOn = 0) ∧
      (g.handleKey5.ambientToggle = true → g.handleKey5.spotlight.ambientOn = 1) := by
    unfold Globals.handleKey5
    cases h : g.ambientToggle <;> simp [SpotLight.turnAmbientOn, SpotLight.turnAmbientOff]
  have k6 : (g.handleKey6.diffuseToggle = false → g.handleKey6.spotlight.diffuseOn = 0) ∧
      (g.handleKey6.diffuseToggle = true → g.handleKey6.spotlight.diffuseOn = 1) := by
    unfold Globals.handleKey6
    cases h : g.diffuseToggle <;> simp [SpotLight.turnDiffuseOn, SpotLight.turnDiffuseOff]
  have k7 : (g.handleKey7.specularToggle = false → g.handleKey7.spotlight.specularOn = 0) ∧
      (g.handleKey7.specularToggle = true → g.handleKey7.spotlight.specularOn = 1) := by
    unfold Globals.handleKey7
    cases h : g.specularToggle <;> simp [SpotLight.turnSpecularOn, SpotLight.turnSpecularOff]
  have h0 := Globals.lightInv_run (Globals.initial c_theta).spotlight frames
    (Globals.initial c_theta)
    ⟨Or.inr rfl, Or.inr rfl, Or.inr rfl, rfl, rfl, rfl, rfl, rfl, rfl, rfl, rfl, rfl⟩
  exact ⟨k4, k5, k6, k7, h0.1, h0.2.1, h0.2.2.1, h0.2.2.2⟩

/-- C27.  `customPerspective` maps the clipping planes to the depth range `[-1, 1]`: for
`tan(fov/2) ≠ 0`, `aspect ≠ 0` and `0 < near < far` (exact arithmetic), the returned
column-major matrix has exactly five non-zero entries, `[0][0] = 1/(aspect·tan(fov/2))`,
`[1][1] = 1/tan(fov/2)`, `[2][2] = -(far+near)/(far-near)`, `[2][3] = -1` and
`[3][2] = -2·far·near/(far-near)`; applied to a view-space point `(x, y, z, 1)` it gives
clip `w = -z`, and clip `z / w` is `-1` at `z = -near` and `+1` at `z = -far`. -/
theorem customPerspective_depth_range {F : Type} [LinearOrderedField F] (tanf : F → F)
    (fov aspect near far : F) (ht : tanf (fov / 2) ≠ 0) (ha : aspect ≠ 0) (hn : 0 < near)
    (hf : near < far) :
    customPerspective tanf fov aspect near far 0 0 = 1 / (aspect * tanf (fov / 2)) ∧
    customPerspective tanf fov aspect near far 1 1 = 1 / tanf (fov / 2) ∧
    customPerspective tanf fov aspect near far 2 2 = -(far + near) / (far - near) ∧
    customPerspective tanf fov aspect near far 2 3 = -1 ∧
    customPerspective tanf fov aspect near far 3 2 = -(2 * far * near) / (far - near) ∧
    (∀ c r : Fin 4, customPerspective tanf fov aspect near far c r ≠ 0 ↔
      (c = 0 ∧ r = 0) ∨ (c = 1 ∧ r = 1) ∨ (c = 2 ∧ r = 2) ∨ (c = 2 ∧ r = 3) ∨
        (c = 3 ∧ r = 2)) ∧
    (∀ x y z : F,
      ((customPerspective tanf fov aspect near far).mulVec ⟨x, y, z, 1⟩).w = -z) ∧
    (∀ x y : F,
      ((customPerspective tanf fov aspect near far).mulVec ⟨x, y, -near, 1⟩).z /
        ((customPerspective tanf fov aspect near far).mulVec ⟨x, y, -near, 1⟩).w = -1) ∧
    (∀ x y : F,
      ((customPerspective tanf fov aspect near far).mulVec ⟨x, y, -far, 1⟩).z /
        ((customPerspective tanf fov aspect near far).mulVec ⟨x, y, -far, 1⟩).w = 1) := by
  have hfn : far - near ≠ 0 := sub_ne_zero.mpr (ne_of_gt hf)
  have hfar : 0 < far := lt_trans hn hf
  have e00 : customPerspective tanf fov aspect near far 0 0 = 1 / (aspect * tanf (fov / 2)) := by
    simp [customPerspective, Mat4.set, Mat4.zero]
  have e11 : customPerspective tanf fov aspect near far 1 1 = 1 / tanf (fov / 2) := by
    simp [customPerspective, Mat4.set, Mat4.zero]
  have e22 : customPerspective tanf fov aspect near far 2 2 = -(far + near) / (far - near) := by
    simp [customPerspective, Mat4.set, Mat4.zero]
  have e23 : customPerspective tanf fov aspect near far 2 3 = -1 := by
    simp [customPerspective, Mat4.set, Mat4.zero]
  have e32 : customPerspective tanf fov aspect near far 3 2
      = -(2 * far * near) / (far - near) := by
    simp [customPerspective, Mat4.set, Mat4.zero]
  have ez : ∀ c r : Fin 4, ¬ ((c = 0 ∧ r = 0) ∨ (c = 1 ∧ r = 1) ∨ (c = 2 ∧ r = 2) ∨
      (c = 2 ∧ r = 3) ∨ (c = 3 ∧ r = 2)) →
      customPerspective tanf fov aspect near far c r = 0 := by
    intro c r h
    fin_cases c <;> fin_cases r <;>
      first
        | (exfalso; apply h; decide)
        | simp [customPerspective, Mat4.set, Mat4.zero]
  have n00 : (1 : F) / (aspect * tanf (fov / 2)) ≠ 0 :=
    one_div_ne_zero (mul_ne_zero ha ht)
  have n11 : (1 : F) / tanf (fov / 2) ≠ 0 := one_div_ne_zero ht
  have n22 : -(far + near) / (far - near) ≠ 0 :=
    div_ne_zero (neg_ne_zero.mpr (ne_of_gt (by linarith))) hfn
  have n32 : -(2 * far * near) / (far - near) ≠ 0 :=
    div_ne_zero (neg_ne_zero.mpr (ne_of_gt (by positivity))) hfn
  refine ⟨e00, e11, e22, e23, e32, ?_, ?_, ?_, ?_⟩
  · intro c r
    constructor
    · intro hne
      by_contra hnot
      exact hne (ez c r hnot)
    · rintro (⟨rfl, rfl⟩ | ⟨rfl, rfl⟩ | ⟨rfl, rfl⟩ | ⟨rfl, rfl⟩ | ⟨rfl, rfl⟩)
      · rw [e00]; exact n00
      · rw [e11]; exact n11
      · rw [e22]; exact n22
      · rw [e23]; norm_num
      · rw [e32]; exact n32
  · intro x y z
    have z03 := ez 0 3 (by decide)
    have z13 := ez 1 3 (by decide)
    have z33 := ez 3 3 (by decide)
    simp only [Mat4.mulVec, z03, z13, z33, e23]
    ring
  · intro x y
    have z02 := ez 0 2 (by decide)
    have z12 := ez 1 2 (by decide)
    have z03 := ez 0 3 (by decide)
    have z13 := ez 1 3 (by decide)
    have z33 := ez 3 3 (by decide)
    simp only [Mat4.mulVec, z02, z12, z03, z13, z33, e22, e23, e32]
    have hn0 : near ≠ 0 := ne_of_gt hn
    field_simp
    ring
  · intro x y
    have z02 := ez 0 2 (by decide)
    have z12 := ez 1 2 (by decide)
    have z03 := ez 0 3 (by decide)
    have z13 := ez 1 3 (by decide)
    have z33 := ez 3 3 (by decide)
    simp only [Mat4.mulVec, z02, z12, z03, z13, z33, e22, e23, e32]
    have hf0 : far ≠ 0 := ne_of_gt hfar
    field_simp
    ring

/-- C27 (witness): the call of `main`, `customPerspective (radians 45, 1200 / 1000, 0.1,
100)`, over the reals with `tan`. -/
theorem customPerspective_depth_range_witness :
    Real.tan (Real.pi / 4 / 2) ≠ 0 ∧ (1.2 : ℝ) ≠ 0 ∧ (0 : ℝ) < 0.1 ∧ (0.1 : ℝ) < 100 ∧
    customPerspective Real.tan (Real.pi / 4) 1.2 0.1 100 0 0
      = 1 / (1.2 * Real.tan (Real.pi / 4 / 2)) ∧
    customPerspective Real.tan (Real.pi / 4) 1.2 0.1 100 1 1 = 1 / Real.tan (Real.pi / 4 / 2) ∧
    customPerspective Real.tan (Real.pi / 4) 1.2 0.1 100 2 2 = -(100 + 0.1) / (100 - 0.1) ∧
    customPerspective Real.tan (Real.pi / 4) 1.2 0.1 100 2 3 = -1 ∧
    customPerspective Real.tan (Real.pi / 4) 1.2 0.1 100 3 2 = -(2 * 100 * 0.1) / (100 - 0.1) ∧
    (∀ c r : Fin 4, customPerspective Real.tan (Real.pi / 4) 1.2 0.1 100 c r ≠ 0 ↔
      (c = 0 ∧ r = 0) ∨ (c = 1 ∧ r = 1) ∨ (c = 2 ∧ r = 2) ∨ (c = 2 ∧ r = 3) ∨
        (c = 3 ∧ r = 2)) ∧
    (∀ x y z : ℝ,
      ((customPerspective Real.tan (Real.pi / 4) 1.2 0.1 100).mulVec ⟨x, y, z, 1⟩).w = -z) ∧
    (∀ x y : ℝ,
      ((customPerspective Real.tan (Real.pi / 4) 1.2 0.1 100).mulVec ⟨x, y, -0.1, 1⟩).z /
        ((customPerspective Real.tan (Real.pi / 4) 1.2 0.1 100).mulVec ⟨x, y, -0.1, 1⟩).w
          = -1) ∧
    (∀ x y : ℝ,
      ((customPerspective Real.tan (Real.pi / 4) 1.2 0.1 100).mulVec ⟨x, y, -100, 1⟩).z /
        ((customPerspective Real.tan (Real.pi / 4) 1.2 0.1 100).mulVec ⟨x, y, -100, 1⟩).w
          = 1) :=
  have ht : Real.tan (Real.pi / 4 / 2) ≠ 0 :=
    ne_of_gt (Real.tan_pos_of_pos_of_lt_pi_div_two (by positivity)
      (by linarith [Real.pi_pos]))
  ⟨ht, by norm_num, by norm_num, by norm_num,
    customPerspective_depth_range Real.tan (Real.pi / 4) 1.2 0.1 100 ht (by norm_num)
      (by norm_num) (by norm_num)⟩

/-- C28.  The inputs of the interleaving step are always equal-length: for every
`sectorCount < INT_MAX`, after `Cone::buildCoordinatesAndIndices` (run by the constructor
on the object that `set` has filled) the position list and the normal list have the same
length `3 (n + 3)`, a multiple of 3.  So every read `coordinates[i]`, `coordinates[i+1]`,
`coordinates[i+2]`, `normals[i]`, `normals[i+1]`, `normals[i+2]` of `Cone::buildVertices`
(`i = 0, 3, 6, ..` below the length) is in bounds, every pass of its loop has a result, and
`buildVertices` returns the cone that the constructor yields. -/
theorem cone_interleave_inputs_in_bounds {F : Type} [Field F] (cosf sinf : F → F)
    (radius height : F) (sectorCount : Int) (amb diff spec : Vec3 F) (shiny : F)
    (hsc : sectorCount < INT_MAX) :
    ∃ c1 c2, Cone.buildCoordinatesAndIndices cosf sinf
        (Cone.set Cone.fresh radius height sectorCount amb diff spec shiny) = some c1 ∧
      c1.coordinates.length = c1.normals.length ∧
      c1.coordinates.length = 3 * (clamped sectorCount + 3) ∧
      3 ∣ c1.coordinates.length ∧
      (∀ i, i < c1.coordinates.length → i % 3 = 0 →
        i + 2 < c1.coordinates.length ∧ i + 2 < c1.normals.length ∧
        (c1.coordinates[i]?).isSome = true ∧ (c1.coordinates[i + 1]?).isSome = true ∧
        (c1.coordinates[i + 2]?).isSome = true ∧ (c1.normals[i]?).isSome = true ∧
        (c1.normals[i + 1]?).isSome = true ∧ (c1.normals[i + 2]?).isSome = true) ∧
      (∀ (vs : List F) k, 3 * k < c1.coordinates.length →
        (Cone.vertexStep c1 vs k).isSome = true) ∧
      Cone.buildVertices c1 = some c2 ∧
      Cone.new cosf sinf radius height sectorCount amb diff spec shiny = some c2 := by
  have h1 := Cone.buildCoordinatesAndIndices_eq cosf sinf
    (Cone.set Cone.fresh radius height sectorCount amb diff spec shiny) (clamped sectorCount)
    (by simp [Cone.set, (clamped_spec sectorCount).1]) (clamped_lt sectorCount hsc)
    rfl rfl rfl
  obtain ⟨c1, hc1⟩ : ∃ c1, c1 = ({ Cone.set Cone.fresh radius height sectorCount amb diff spec
      shiny with
      coordinates := conePositions cosf sinf
        (Cone.set Cone.fresh radius height sectorCount amb diff spec shiny).radius
        (Cone.set Cone.fresh radius height sectorCount amb diff spec shiny).height
        (clamped sectorCount)
      normals := coneNormals (clamped sectorCount)
      indices := coneIndices (clamped sectorCount) } : Cone F) := ⟨_, rfl⟩
  rw [← hc1] at h1
  have hco : c1.coordinates.length = 3 * (clamped sectorCount + 3) := by
    rw [hc1]
    exact conePositions_length _ _ _ _ _
  have hno : c1.normals.length = 3 * (clamped sectorCount + 3) := by
    rw [hc1]
    exact coneNormals_length _
  have hbv := Cone.buildVertices_eq c1 (clamped sectorCount + 3) hco hno
  obtain ⟨c2, hc2⟩ : ∃ c2, Cone.buildVertices c1 = some c2 := ⟨_, hbv⟩
  have hnew : Cone.new cosf sinf radius height sectorCount amb diff spec shiny = some c2 := by
    unfold Cone.new
    rw [h1, Option.some_bind, hc2]
  have hsome : ∀ (l : List F) (j : Nat), j < l.length → (l[j]?).isSome = true := by
    intro l j hj
    rw [getElem?_eq_some_getD l j 0 hj]
    rfl
  refine ⟨c1, c2, h1, by rw [hco, hno], hco, ⟨clamped sectorCount + 3, hco⟩, ?_, ?_, hc2, hnew⟩
  · intro i hi hmod
    have hi2 : i + 2 < c1.coordinates.length := by omega
    have hn2 : i + 2 < c1.normals.length := by omega
    exact ⟨hi2, hn2, hsome _ _ (by omega), hsome _ _ (by omega), hsome _ _ hi2,
      hsome _ _ (by omega), hsome _ _ (by omega), hsome _ _ hn2⟩
  · intro vs k hk
    unfold Cone.vertexStep
    dsimp only
    rw [getElem?_eq_some_getD c1.coordinates (3 * k) 0 (by omega),
      getElem?_eq_some_getD c1.coordinates (3 * k + 1) 0 (by omega),
      getElem?_eq_some_getD c1.coordinates (3 * k + 2) 0 (by omega),
      getElem?_eq_some_getD c1.normals (3 * k) 0 (by omega),
      getElem?_eq_some_getD c1.normals (3 * k + 1) 0 (by omega),
      getElem?_eq_some_getD c1.normals (3 * k + 2) 0 (by omega)]
    rfl

/-- C28 (witness): the default cone, `sectorCount = 20`. -/
theorem cone_interleave_inputs_in_bounds_witness :
    (20 : Int) < INT_MAX ∧
    ∃ c1 c2, Cone.buildCoordinatesAndIndices Real.cos Real.sin
        (Cone.set Cone.fresh 1 2 20 ⟨1, 0, 0⟩ ⟨1, 0, 0⟩ ⟨0.5, 0.5, 0.5⟩ 32) = some c1 ∧
      c1.coordinates.length = c1.normals.length ∧
      c1.coordinates.length = 3 * (clamped 20 + 3) ∧
      3 ∣ c1.coordinates.length ∧
      (∀ i, i < c1.coordinates.length → i % 3 = 0 →
        i + 2 < c1.coordinates.length ∧ i + 2 < c1.normals.length ∧
        (c1.coordinates[i]?).isSome = true ∧ (c1.coordinates[i + 1]?).isSome = true ∧
        (c1.coordinates[i + 2]?).isSome = true ∧ (c1.normals[i]?).isSome = true ∧
        (c1.normals[i + 1]?).isSome = true ∧ (c1.normals[i + 2]?).isSome = true) ∧
      (∀ (vs : List ℝ) k, 3 * k < c1.coordinates.length →
        (Cone.vertexStep c1 vs k).isSome = true) ∧
      Cone.buildVertices c1 = some c2 ∧
      Cone.new Real.cos Real.sin 1 2 20 ⟨1, 0, 0⟩ ⟨1, 0, 0⟩ ⟨0.5, 0.5, 0.5⟩ 32 = some c2 :=
  ⟨by decide, cone_interleave_inputs_in_bounds Real.cos Real.sin 1 2 20 ⟨1, 0, 0⟩ ⟨1, 0, 0⟩
    ⟨0.5, 0.5, 0.5⟩ 32 (by decide)⟩
